import Mathlib

/-!
Shallow embedding of the single-instrument limit order book from
`src/Order.hpp` and `src/OrderBook.hpp` (namespace HFT).

Machine integers are modelled as `Nat` with explicit wrap-around:
`uint32` arithmetic is `% 4294967296` (`add32`, `sub32`), `uint64`
timestamps are truncated at entry.  A C++ `std::shared_ptr<Order>` is
modelled as the order id (`Nat`) pointing into an object store
`orders : List (Nat × Order)` that holds every order object ever
created; dereferencing a pointer is `storeGet`, mutating through it is
`storeSet`.  The `std::unordered_map<uint64_t, shared_ptr<Order>>`
orderMap is the key list `mapKeys` (lookup of the object goes through
the store).  The two `std::map` ladders are price-sorted lists of
`PriceLevel`s (bids descending, asks ascending), and a level's
`std::list<shared_ptr<Order>>` queue is a `List Nat` of ids in FIFO
order (front first).  `nextOrderId` is a plain `Nat`; the uint64 wrap
of the id counter after 2^64 submissions is not modelled.
-/

namespace HFT

def U32MOD : Nat := 4294967296

def U64MOD : Nat := 18446744073709551616

/-- uint32 addition: `a + b` with wrap-around. -/
def add32 (a b : Nat) : Nat := (a + b) % U32MOD

/-- uint32 subtraction: `a - b` with wrap-around (two's complement). -/
def sub32 (a b : Nat) : Nat := (a % U32MOD + (U32MOD - b % U32MOD)) % U32MOD

inductive OrderSide where
  | BUY
  | SELL
deriving DecidableEq, Inhabited

inductive OrderType where
  | LIMIT
  | MARKET
deriving DecidableEq, Inhabited

inductive OrderStatus where
  | NEW
  | PARTIAL_FILL
  | FILLED
  | CANCELLED
  | REJECTED
deriving DecidableEq, Inhabited

instance : BEq OrderSide := ⟨fun a b => decide (a = b)⟩

instance : BEq OrderStatus := ⟨fun a b => decide (a = b)⟩

/-- `struct Order` from `src/Order.hpp`. -/
structure Order where
  orderId : Nat
  timestamp : Nat
  price : Nat
  quantity : Nat
  filledQuantity : Nat
  side : OrderSide
  type : OrderType
  status : OrderStatus
deriving DecidableEq, Inhabited

/-- `Order::getRemainingQuantity`: `quantity - filledQuantity` in uint32. -/
def Order.getRemainingQuantity (o : Order) : Nat :=
  sub32 o.quantity o.filledQuantity

/-- `Order::isFilled`: `filledQuantity >= quantity`. -/
def Order.isFilled (o : Order) : Bool :=
  o.quantity ≤ o.filledQuantity

/-- `Order::fill(qty)`: `filledQuantity += qty`, then set status to FILLED
if fully filled, else PARTIAL_FILL. -/
def Order.fill (o : Order) (qty : Nat) : Order :=
  let o1 : Order := { o with filledQuantity := add32 o.filledQuantity qty }
  if o1.isFilled then { o1 with status := OrderStatus.FILLED }
  else { o1 with status := OrderStatus.PARTIAL_FILL }

/-- `struct Trade` from `src/Order.hpp`. -/
structure Trade where
  buyOrderId : Nat
  sellOrderId : Nat
  price : Nat
  quantity : Nat
  timestamp : Nat
deriving DecidableEq, Inhabited

/-- The object store holding every `Order` object ever created (the
targets of the C++ `shared_ptr`s). -/
abbrev Store := List (Nat × Order)

/-- Dereference an order pointer (id) in the store.  Real executions
only dereference live ids; the default is the C++ default-constructed
`Order` and never matters under the well-formedness hypotheses. -/
def storeGet (st : Store) (oid : Nat) : Order :=
  match st.find? (fun p => p.1 == oid) with
  | some p => p.2
  | none => default

/-- Mutate the order object with id `oid` (writing through the pointer). -/
def storeSet (st : Store) (oid : Nat) (o : Order) : Store :=
  st.map (fun p => if p.1 == oid then (oid, o) else p)

/-- `struct PriceLevel` from `src/OrderBook.hpp`; the queue holds order
ids (the `shared_ptr`s), front of the list first. -/
structure PriceLevel where
  price : Nat
  totalQuantity : Nat
  orders : List Nat
deriving DecidableEq, Inhabited

/-- `PriceLevel::addOrder`: push_back, `totalQuantity += remaining`. -/
def PriceLevel.addOrder (st : Store) (l : PriceLevel) (oid : Nat) : PriceLevel :=
  { l with orders := l.orders ++ [oid],
           totalQuantity := add32 l.totalQuantity (storeGet st oid).getRemainingQuantity }

/-- `PriceLevel::removeOrder`: `totalQuantity -= remaining`, then
`std::list::remove` of the pointer (drops every occurrence of the id). -/
def PriceLevel.removeOrder (st : Store) (l : PriceLevel) (oid : Nat) : PriceLevel :=
  { l with totalQuantity := sub32 l.totalQuantity (storeGet st oid).getRemainingQuantity,
           orders := l.orders.filter (fun k => k != oid) }

/-- `PriceLevel::isEmpty`. -/
def PriceLevel.isEmpty (l : PriceLevel) : Bool :=
  l.orders.isEmpty

/-- The `OrderBook` state: the two ladders (bids sorted descending by
price, asks ascending, mirroring the two `std::map` comparators), the
object store, the orderMap key set, the trade log and the id counter. -/
structure OrderBook where
  bids : List PriceLevel
  asks : List PriceLevel
  orders : Store
  mapKeys : List Nat
  trades : List Trade
  nextOrderId : Nat
deriving DecidableEq, Inhabited

/-- The freshly constructed book. -/
def emptyBook : OrderBook :=
  { bids := [], asks := [], orders := [], mapKeys := [], trades := [], nextOrderId := 1 }

/-- Result of one `matchOrders` call: the mutated store, orderMap keys,
trade log and price level. -/
structure MatchResult where
  orders : Store
  mapKeys : List Nat
  trades : List Trade
  level : PriceLevel
deriving DecidableEq

/-- `OrderBook::matchOrders(incomingOrder, priceLevel)` - the inner
matching loop.  Each iteration: if the incoming order is filled or the
level is empty, stop; otherwise trade `min` of the two remainings
against the front resting order, append the trade, and pop the resting
order (via `PriceLevel::removeOrder`, which subtracts its post-fill
remaining) when it is fully filled.  When the resting order is not
fully filled the C++ loop comes round once more and exits on the
`incomingOrder->isFilled()` test (the traded quantity was the
incoming's whole remaining); the embedding returns directly there. -/
def matchLoopFuel (incId : Nat) : Nat → Store → List Nat → List Trade → PriceLevel → MatchResult
  | 0, st, keys, tr, lvl => ⟨st, keys, tr, lvl⟩
  | fuel + 1, st, keys, tr, lvl =>
    if (storeGet st incId).isFilled then ⟨st, keys, tr, lvl⟩
    else
      match lvl.orders with
      | [] => ⟨st, keys, tr, lvl⟩
      | r :: _rest =>
        let tradeQty := min (storeGet st incId).getRemainingQuantity
                            (storeGet st r).getRemainingQuantity
        let st1 := storeSet st incId ((storeGet st incId).fill tradeQty)
        let st2 := storeSet st1 r ((storeGet st1 r).fill tradeQty)
        let buyId := if (storeGet st2 incId).side == OrderSide.BUY then incId else r
        let sellId := if (storeGet st2 incId).side == OrderSide.SELL then incId else r
        let tr2 := tr ++ [⟨buyId, sellId, (storeGet st2 r).price, tradeQty,
                           (storeGet st2 incId).timestamp⟩]
        if (storeGet st2 r).isFilled then
          matchLoopFuel incId fuel st2 (keys.filter (fun k => k != r)) tr2
            (lvl.removeOrder st2 r)
        else ⟨st2, keys, tr2, lvl⟩

/-- `OrderBook::matchOrders(incomingOrder, priceLevel)`.  Every loop
iteration that continues pops the front resting order from the queue
(`PriceLevel::removeOrder` keyed by the front pointer `r`), so the
queue length plus one bounds the iteration count and the structural
fuel `lvl.orders.length + 1` never runs out (`matchLoopFuel_congr`
below makes this precise). -/
def matchOrders (incId : Nat) (st : Store) (keys : List Nat)
    (tr : List Trade) (lvl : PriceLevel) : MatchResult :=
  matchLoopFuel incId (lvl.orders.length + 1) st keys tr lvl

/-- Result of the ladder-walking loop inside `addBuyOrder` /
`addSellOrder`: mutated store, keys, trades, and the opposite ladder. -/
structure LoopResult where
  orders : Store
  mapKeys : List Nat
  trades : List Trade
  ladder : List PriceLevel
deriving DecidableEq

/-- The `while` loop of `OrderBook::addBuyOrder`: walk the ask ladder
best (lowest price) first; stop when the incoming order is filled, the
ladder is empty, or the prices no longer cross
(`order->price < bestAsk->price`); after `matchOrders`, erase the level
if it emptied and continue, otherwise stop (the level being non-empty
means the incoming order just filled, so the C++ loop also exits). -/
def addBuyLoop (oid : Nat) (st : Store) (keys : List Nat) (tr : List Trade) :
    List PriceLevel → LoopResult
  | [] => ⟨st, keys, tr, []⟩
  | best :: rest =>
    if (storeGet st oid).isFilled then ⟨st, keys, tr, best :: rest⟩
    else if (storeGet st oid).price < best.price then ⟨st, keys, tr, best :: rest⟩
    else
      let m := matchOrders oid st keys tr best
      if m.level.isEmpty then addBuyLoop oid m.orders m.mapKeys m.trades rest
      else ⟨m.orders, m.mapKeys, m.trades, m.level :: rest⟩

/-- The `while` loop of `OrderBook::addSellOrder` (crossing test is
`order->price > bestBid->price`). -/
def addSellLoop (oid : Nat) (st : Store) (keys : List Nat) (tr : List Trade) :
    List PriceLevel → LoopResult
  | [] => ⟨st, keys, tr, []⟩
  | best :: rest =>
    if (storeGet st oid).isFilled then ⟨st, keys, tr, best :: rest⟩
    else if best.price < (storeGet st oid).price then ⟨st, keys, tr, best :: rest⟩
    else
      let m := matchOrders oid st keys tr best
      if m.level.isEmpty then addSellLoop oid m.orders m.mapKeys m.trades rest
      else ⟨m.orders, m.mapKeys, m.trades, m.level :: rest⟩

/-- `bids[order->price]` + `PriceLevel::addOrder` for the descending
(`std::greater`) bid map: find the level with this price or create it
in sorted position, and push the order at its tail. -/
def ladderInsertDesc (st : Store) (oid p : Nat) : List PriceLevel → List PriceLevel
  | [] => [PriceLevel.addOrder st ⟨p, 0, []⟩ oid]
  | x :: xs =>
    if x.price < p then (PriceLevel.addOrder st ⟨p, 0, []⟩ oid) :: x :: xs
    else if x.price == p then (x.addOrder st oid) :: xs
    else x :: ladderInsertDesc st oid p xs

/-- `asks[order->price]` + `PriceLevel::addOrder` for the ascending
(`std::less`) ask map. -/
def ladderInsertAsc (st : Store) (oid p : Nat) : List PriceLevel → List PriceLevel
  | [] => [PriceLevel.addOrder st ⟨p, 0, []⟩ oid]
  | x :: xs =>
    if p < x.price then (PriceLevel.addOrder st ⟨p, 0, []⟩ oid) :: x :: xs
    else if x.price == p then (x.addOrder st oid) :: xs
    else x :: ladderInsertAsc st oid p xs

/-- `OrderBook::addBuyOrder`: run the matching loop against asks, then
insert the residual into the bid ladder when not fully filled. -/
def OrderBook.addBuyOrder (b : OrderBook) (oid : Nat) : OrderBook :=
  let m := addBuyLoop oid b.orders b.mapKeys b.trades b.asks
  let b1 : OrderBook :=
    { b with orders := m.orders, mapKeys := m.mapKeys, trades := m.trades, asks := m.ladder }
  if (storeGet b1.orders oid).isFilled then b1
  else { b1 with bids := ladderInsertDesc b1.orders oid (storeGet b1.orders oid).price b1.bids }

/-- `OrderBook::addSellOrder`. -/
def OrderBook.addSellOrder (b : OrderBook) (oid : Nat) : OrderBook :=
  let m := addSellLoop oid b.orders b.mapKeys b.trades b.bids
  let b1 : OrderBook :=
    { b with orders := m.orders, mapKeys := m.mapKeys, trades := m.trades, bids := m.ladder }
  if (storeGet b1.orders oid).isFilled then b1
  else { b1 with asks := ladderInsertAsc b1.orders oid (storeGet b1.orders oid).price b1.asks }

/-- `OrderBook::addOrder(price, quantity, side, timestamp)`: mint the
next id, construct the order (uint32/uint64 arguments truncated),
insert it into orderMap, then route to `addBuyOrder` / `addSellOrder`.
Returns the new book and the returned id. -/
def OrderBook.addOrder (b : OrderBook) (price quantity : Nat) (side : OrderSide)
    (timestamp : Nat) : OrderBook × Nat :=
  let oid := b.nextOrderId
  let o : Order := ⟨oid, timestamp % U64MOD, price % U32MOD, quantity % U32MOD, 0,
                    side, OrderType.LIMIT, OrderStatus.NEW⟩
  let b1 : OrderBook :=
    { b with orders := b.orders ++ [(oid, o)], mapKeys := b.mapKeys ++ [oid],
             nextOrderId := b.nextOrderId + 1 }
  let b2 := if side == OrderSide.BUY then b1.addBuyOrder oid else b1.addSellOrder oid
  (b2, oid)

/-- `std::map::find` + `PriceLevel::removeOrder` + erase-if-empty, as in
the private `OrderBook::removeOrder`: at most one level carries the
price (map keys are unique), so the scan stops at the first match. -/
def ladderRemove (st : Store) (oid p : Nat) : List PriceLevel → List PriceLevel
  | [] => []
  | x :: xs =>
    if x.price == p then
      let x2 := x.removeOrder st oid
      if x2.isEmpty then xs else x2 :: xs
    else x :: ladderRemove st oid p xs

/-- The private `OrderBook::removeOrder(order)`: remove the order from
the level at its price on its side, erasing the level if it empties. -/
def OrderBook.removeOrder (b : OrderBook) (oid : Nat) : OrderBook :=
  if (storeGet b.orders oid).side == OrderSide.BUY then
    { b with bids := ladderRemove b.orders oid (storeGet b.orders oid).price b.bids }
  else
    { b with asks := ladderRemove b.orders oid (storeGet b.orders oid).price b.asks }

/-- `OrderBook::cancelOrder(orderId)`: false when the id is not in
orderMap or the order is FILLED or CANCELLED; otherwise remove it from
its ladder, set status CANCELLED, and erase the orderMap entry. -/
def OrderBook.cancelOrder (b : OrderBook) (oid : Nat) : OrderBook × Bool :=
  if b.mapKeys.contains oid then
    let o := storeGet b.orders oid
    if o.status == OrderStatus.FILLED || o.status == OrderStatus.CANCELLED then (b, false)
    else
      let b1 := b.removeOrder oid
      let b2 : OrderBook := { b1 with orders := storeSet b1.orders oid
                                        { o with status := OrderStatus.CANCELLED } }
      let b3 : OrderBook := { b2 with mapKeys := b2.mapKeys.filter (fun k => k != oid) }
      (b3, true)
  else (b, false)

/-- `totalQuantity += delta` at the level keyed `p` (if present), as in
`OrderBook::modifyOrder`; `delta` is already the wrapped uint32
difference. -/
def ladderAdjust (p delta : Nat) : List PriceLevel → List PriceLevel
  | [] => []
  | x :: xs =>
    if x.price == p then { x with totalQuantity := add32 x.totalQuantity delta } :: xs
    else x :: ladderAdjust p delta xs

/-- `OrderBook::modifyOrder(orderId, newQuantity)`: false when the id is
not in orderMap; otherwise set `quantity := newQuantity` and add
`newQuantity - oldQuantity` (uint32 wrap) to the totalQuantity of the
level at the order's price on its side, if such a level exists. -/
def OrderBook.modifyOrder (b : OrderBook) (oid newQuantity : Nat) : OrderBook × Bool :=
  if b.mapKeys.contains oid then
    let o := storeGet b.orders oid
    let oldQuantity := o.quantity
    let nq := newQuantity % U32MOD
    let b1 : OrderBook := { b with orders := storeSet b.orders oid { o with quantity := nq } }
    let delta := sub32 nq oldQuantity
    if o.side == OrderSide.BUY then
      ({ b1 with bids := ladderAdjust o.price delta b1.bids }, true)
    else
      ({ b1 with asks := ladderAdjust o.price delta b1.asks }, true)
  else (b, false)

/-- `OrderBook::getBestBid`: top key of the bid ladder, 0 if empty. -/
def OrderBook.getBestBid (b : OrderBook) : Nat :=
  match b.bids with
  | [] => 0
  | l :: _ => l.price

/-- `OrderBook::getBestAsk`: top key of the ask ladder, 0 if empty. -/
def OrderBook.getBestAsk (b : OrderBook) : Nat :=
  match b.asks with
  | [] => 0
  | l :: _ => l.price

/-- The public mutating operations, for reachability statements. -/
inductive Op where
  | submit (price quantity : Nat) (side : OrderSide) (timestamp : Nat)
  | cancel (orderId : Nat)
  | modify (orderId newQuantity : Nat)
deriving DecidableEq

/-- One operation applied to the book. -/
def step (b : OrderBook) : Op → OrderBook
  | Op.submit p q s ts => (b.addOrder p q s ts).1
  | Op.cancel oid => (b.cancelOrder oid).1
  | Op.modify oid nq => (b.modifyOrder oid nq).1

/-- A sequence of operations applied to the book. -/
def run (b : OrderBook) (ops : List Op) : OrderBook :=
  ops.foldl step b

/-- Sum of the remaining quantities of the orders queued at a level
(the quantity `totalQuantity` is meant to cache). -/
def levelRemainingSum (st : Store) (l : PriceLevel) : Nat :=
  (l.orders.map (fun oid => (storeGet st oid).getRemainingQuantity)).sum

/-- All order ids referenced anywhere in the book (object store,
orderMap, level queues) are below the id counter: true of every book
the engine builds, since ids are minted monotonically from
`nextOrderId`. -/
def idsFresh (b : OrderBook) : Prop :=
  (∀ pr ∈ b.orders, pr.1 < b.nextOrderId) ∧
  (∀ k ∈ b.mapKeys, k < b.nextOrderId) ∧
  (∀ l ∈ b.bids ++ b.asks, ∀ k ∈ l.orders, k < b.nextOrderId)

/-- Every order object in the store has `filledQuantity ≤ quantity`
(so its remaining is exact) and in-range uint32 fields. -/
def fillBounded (st : Store) : Prop :=
  ∀ pr ∈ st, pr.2.filledQuantity ≤ pr.2.quantity ∧ pr.2.quantity < U32MOD

/-- The guard under which `modify` is benign: a modify of a live order
never shrinks the quantity below the already filled quantity
(`goodOp` holds trivially for submit and cancel). -/
def goodOp (b : OrderBook) : Op → Prop
  | Op.modify oid nq => b.mapKeys.contains oid = true →
      (storeGet b.orders oid).filledQuantity ≤ nq % U32MOD
  | _ => True

/-- Every operation of the script satisfies `goodOp` in the state where
it executes. -/
def goodOps : OrderBook → List Op → Prop
  | _, [] => True
  | b, op :: ops => goodOp b op ∧ goodOps (step b op) ops

/-- The id is in orderMap with status NEW and sits in no ladder queue
(the footprint a zero-quantity submission leaves behind). -/
def lingering (b : OrderBook) (oid : Nat) : Prop :=
  b.mapKeys.contains oid = true ∧
  (storeGet b.orders oid).status = OrderStatus.NEW ∧
  (∀ l ∈ b.bids ++ b.asks, oid ∉ l.orders)

/-- Every order object in the store has an in-range uint32 `quantity`.
Unlike `fillBounded`, this holds unconditionally along every run:
submit and modify store `quantity % 2^32`, and fills never touch
`quantity`. -/
def storeU32 (st : Store) : Prop :=
  ∀ pr ∈ st, pr.2.quantity < U32MOD

/-- The book-shape invariant behind (I5): bid ladder strictly
descending by price, ask ladder strictly ascending, every bid level
priced strictly below every ask level, in-range store quantities and
fresh ids. -/
def bookShape (b : OrderBook) : Prop :=
  List.Pairwise (fun x y : PriceLevel => y.price < x.price) b.bids ∧
  List.Pairwise (fun x y : PriceLevel => x.price < y.price) b.asks ∧
  (∀ lb ∈ b.bids, ∀ la ∈ b.asks, lb.price < la.price) ∧
  storeU32 b.orders ∧ idsFresh b

/-- Claim C1: `matchOrders` removes a fully filled resting order only
after filling it, so `PriceLevel::removeOrder` subtracts the post-fill
remaining (zero) and no trade ever decrements `totalQuantity`.  After
SELL 100x50 rests and BUY 100x30 trades 30 against it, the ask level
caches `totalQuantity = 50` while the queued remaining sums to 20. -/
theorem c1_match_leaves_totalQuantity_stale :
    (run emptyBook [Op.submit 100 50 OrderSide.SELL 1,
                    Op.submit 100 30 OrderSide.BUY 2]).asks.map
        (fun l => (l.totalQuantity,
                   levelRemainingSum (run emptyBook [Op.submit 100 50 OrderSide.SELL 1,
                                                     Op.submit 100 30 OrderSide.BUY 2]).orders l))
      = [(50, 20)] ∧
    (run emptyBook [Op.submit 100 50 OrderSide.SELL 1,
                    Op.submit 100 30 OrderSide.BUY 2]).trades.map Trade.quantity = [30] := by
  decide

/-- Claim C4: a reachable zero-quantity trade.  SELL 100x50 rests, BUY
100x30 fills 30 of it, `modify(1, 30)` shrinks the resting order's
quantity to its filled quantity without removing it from the queue, and
the next BUY 100x10 then trades `min(10, 0) = 0` against it: the engine
appends a `Trade` with `quantity = 0`, contradicting the claim that
every emitted trade has quantity strictly greater than zero. -/
theorem c4_zero_quantity_trade_emitted :
    (run emptyBook [Op.submit 100 50 OrderSide.SELL 1,
                    Op.submit 100 30 OrderSide.BUY 2,
                    Op.modify 1 30,
                    Op.submit 100 10 OrderSide.BUY 3]).trades
      = [⟨2, 1, 100, 30, 2⟩, ⟨3, 1, 100, 0, 3⟩] := by
  decide

/-- Claim C2, counterexample: after SELL 100x50 rests and BUY 100x30
fills 30 of it, `modify(1, 10)` has `newQuantity = 10 ≤ filled = 30`,
yet the order's status stays PARTIAL_FILL (not FILLED), it stays in the
ask level queue and in the order index, and its remaining quantity is
the uint32 wrap `2^32 - 20`, not zero. -/
theorem c2_modify_below_filled_counterexample :
    ((run emptyBook [Op.submit 100 50 OrderSide.SELL 1,
                     Op.submit 100 30 OrderSide.BUY 2]).modifyOrder 1 10).2 = true ∧
    (storeGet ((run emptyBook [Op.submit 100 50 OrderSide.SELL 1,
                               Op.submit 100 30 OrderSide.BUY 2]).modifyOrder 1 10).1.orders 1).filledQuantity = 30 ∧
    (storeGet ((run emptyBook [Op.submit 100 50 OrderSide.SELL 1,
                               Op.submit 100 30 OrderSide.BUY 2]).modifyOrder 1 10).1.orders 1).status
      = OrderStatus.PARTIAL_FILL ∧
    ((run emptyBook [Op.submit 100 50 OrderSide.SELL 1,
                     Op.submit 100 30 OrderSide.BUY 2]).modifyOrder 1 10).1.mapKeys = [1, 2] ∧
    ((run emptyBook [Op.submit 100 50 OrderSide.SELL 1,
                     Op.submit 100 30 OrderSide.BUY 2]).modifyOrder 1 10).1.asks.map PriceLevel.orders
      = [[1]] ∧
    (storeGet ((run emptyBook [Op.submit 100 50 OrderSide.SELL 1,
                               Op.submit 100 30 OrderSide.BUY 2]).modifyOrder 1 10).1.orders 1).getRemainingQuantity
      = 4294967276 := by
  decide

/-- Claim C7, counterexample: the same `modify(1, 10)` with
`filled = 30` leaves an order in the book with
`filledQuantity = 30 > quantity = 10`, and its derived remaining is the
uint32 wrap-around `2^32 - 20` instead of the exact `original - filled`
(which does not exist in `Nat`): `0 ≤ filled ≤ original` fails. -/
theorem c7_fill_bound_counterexample :
    (storeGet (run emptyBook [Op.submit 100 50 OrderSide.SELL 1,
                              Op.submit 100 30 OrderSide.BUY 2,
                              Op.modify 1 10]).orders 1).quantity = 10 ∧
    (storeGet (run emptyBook [Op.submit 100 50 OrderSide.SELL 1,
                              Op.submit 100 30 OrderSide.BUY 2,
                              Op.modify 1 10]).orders 1).filledQuantity = 30 ∧
    ¬ ((storeGet (run emptyBook [Op.submit 100 50 OrderSide.SELL 1,
                                 Op.submit 100 30 OrderSide.BUY 2,
                                 Op.modify 1 10]).orders 1).filledQuantity
        ≤ (storeGet (run emptyBook [Op.submit 100 50 OrderSide.SELL 1,
                                    Op.submit 100 30 OrderSide.BUY 2,
                                    Op.modify 1 10]).orders 1).quantity) ∧
    (storeGet (run emptyBook [Op.submit 100 50 OrderSide.SELL 1,
                              Op.submit 100 30 OrderSide.BUY 2,
                              Op.modify 1 10]).orders 1).getRemainingQuantity = 4294967276 ∧
    1 ∈ (run emptyBook [Op.submit 100 50 OrderSide.SELL 1,
                        Op.submit 100 30 OrderSide.BUY 2,
                        Op.modify 1 10]).mapKeys := by
  decide

/-- Claim C3, counterexample: `addOrder` has no pre-validation.  A
submit with `quantity = 0` on the fresh book returns the ordinary fresh
id 1 (not a distinguished zero/invalid id), mutates the order index
(which grows from `[]` to `[1]`), and records the order with status NEW,
never REJECTED. -/
theorem c3_no_prevalidation_counterexample :
    (emptyBook.addOrder 100 0 OrderSide.BUY 5).2 = 1 ∧
    (emptyBook.addOrder 100 0 OrderSide.BUY 5).2 ≠ 0 ∧
    (emptyBook.addOrder 100 0 OrderSide.BUY 5).1.mapKeys = [1] ∧
    (storeGet (emptyBook.addOrder 100 0 OrderSide.BUY 5).1.orders 1).status = OrderStatus.NEW := by
  decide

theorem add32_eq_of_lt (a b : Nat) (h : a + b < U32MOD) : add32 a b = a + b := by
  simp [add32, Nat.mod_eq_of_lt h]

theorem sub32_eq_of_le (a b : Nat) (hb : b ≤ a) (ha : a < U32MOD) : sub32 a b = a - b := by
  have hbM : b < U32MOD := lt_of_le_of_lt hb ha
  have h1 : a % U32MOD = a := Nat.mod_eq_of_lt ha
  have h2 : b % U32MOD = b := Nat.mod_eq_of_lt hbM
  have h3 : a + (U32MOD - b) = U32MOD + (a - b) := by omega
  have h4 : a - b < U32MOD := by omega
  simp [sub32, h1, h2, h3, Nat.add_mod_left, Nat.mod_eq_of_lt h4]

theorem sub32_eq_zero_iff (a b : Nat) (ha : a < U32MOD) (hb : b < U32MOD) :
    sub32 a b = 0 ↔ a = b := by
  have h1 : a % U32MOD = a := Nat.mod_eq_of_lt ha
  have h2 : b % U32MOD = b := Nat.mod_eq_of_lt hb
  rcases le_or_lt b a with hle | hlt
  · have h3 : a + (U32MOD - b) = U32MOD + (a - b) := by omega
    have h4 : a - b < U32MOD := by omega
    simp [sub32, h1, h2, h3, Nat.add_mod_left, Nat.mod_eq_of_lt h4]
    omega
  · have h3 : a + (U32MOD - b) < U32MOD := by omega
    simp [sub32, h1, h2, Nat.mod_eq_of_lt h3]
    omega

theorem storeGet_nil (j : Nat) : storeGet [] j = default := rfl

theorem storeGet_cons (pr : Nat × Order) (tl : Store) (j : Nat) :
    storeGet (pr :: tl) j = if pr.1 = j then pr.2 else storeGet tl j := by
  by_cases h : pr.1 = j
  · have hb : (pr.1 == j) = true := by simp [h]
    simp [storeGet, List.find?_cons, hb, h]
  · have hb : (pr.1 == j) = false := by simp [h]
    simp [storeGet, List.find?_cons, hb, h]

theorem storeSet_cons (pr : Nat × Order) (tl : Store) (oid : Nat) (o : Order) :
    storeSet (pr :: tl) oid o
      = (if pr.1 = oid then (oid, o) else pr) :: storeSet tl oid o := by
  by_cases h : pr.1 = oid <;> simp [storeSet, h]

theorem storeGet_storeSet_self (st : Store) (oid : Nat) (o : Order)
    (h : (st.find? (fun pr => pr.1 == oid)).isSome = true) :
    storeGet (storeSet st oid o) oid = o := by
  induction st with
  | nil => simp [List.find?] at h
  | cons hd tl ih =>
    rw [storeSet_cons]
    by_cases hk : hd.1 = oid
    · simp [storeGet_cons, hk]
    · have hk2 : (hd.1 == oid) = false := by simp [hk]
      simp only [List.find?_cons, hk2, cond_false] at h
      simp [storeGet_cons, hk, ih h]

theorem storeGet_storeSet_ne (st : Store) (oid j : Nat) (o : Order) (hne : j ≠ oid) :
    storeGet (storeSet st oid o) j = storeGet st j := by
  induction st with
  | nil => simp [storeGet, storeSet]
  | cons hd tl ih =>
    rw [storeSet_cons]
    by_cases hk : hd.1 = oid
    · have hj : oid ≠ j := Ne.symm hne
      have hj2 : hd.1 ≠ j := by rw [hk]; exact hj
      simp [storeGet_cons, hk, hj, hj2, ih]
    · rw [if_neg hk, storeGet_cons, storeGet_cons]
      by_cases hj : hd.1 = j
      · simp [hj]
      · simp [hj, ih]

theorem storeGet_append_fresh (st : Store) (oid : Nat) (o : Order)
    (h : ∀ pr ∈ st, pr.1 ≠ oid) :
    storeGet (st ++ [(oid, o)]) oid = o := by
  induction st with
  | nil => simp [storeGet_cons, storeGet_nil]
  | cons hd tl ih =>
    have hk : hd.1 ≠ oid := h hd (by simp)
    rw [List.cons_append, storeGet_cons]
    simp [hk, ih (fun pr hpr => h pr (by simp [hpr]))]

theorem storeGet_append_ne (st : Store) (k j : Nat) (o : Order) (hne : j ≠ k) :
    storeGet (st ++ [(k, o)]) j = storeGet st j := by
  induction st with
  | nil => simp [storeGet_cons, storeGet_nil, Ne.symm hne]
  | cons hd tl ih =>
    rw [List.cons_append, storeGet_cons, storeGet_cons]
    by_cases hj : hd.1 = j <;> simp [hj, ih]

theorem ladderAdjust_map_price (p delta : Nat) (ls : List PriceLevel) :
    (ladderAdjust p delta ls).map PriceLevel.price = ls.map PriceLevel.price := by
  induction ls with
  | nil => simp [ladderAdjust]
  | cons x xs ih =>
    by_cases hx : x.price = p
    · simp [ladderAdjust, hx]
    · have hx2 : (x.price == p) = false := by simp [hx]
      simp [ladderAdjust, hx2, ih]

theorem ladderAdjust_map_orders (p delta : Nat) (ls : List PriceLevel) :
    (ladderAdjust p delta ls).map PriceLevel.orders = ls.map PriceLevel.orders := by
  induction ls with
  | nil => simp [ladderAdjust]
  | cons x xs ih =>
    by_cases hx : x.price = p
    · simp [ladderAdjust, hx]
    · have hx2 : (x.price == p) = false := by simp [hx]
      simp [ladderAdjust, hx2, ih]

theorem ladderAdjust_of_not_mem (p delta : Nat) (ls : List PriceLevel)
    (h : ∀ x ∈ ls, x.price ≠ p) :
    ladderAdjust p delta ls = ls := by
  induction ls with
  | nil => simp [ladderAdjust]
  | cons x xs ih =>
    have hx2 : (x.price == p) = false := by simp [h x (by simp)]
    simp [ladderAdjust, hx2, ih (fun y hy => h y (by simp [hy]))]

theorem ladderAdjust_eq_of_nodup (p delta : Nat) (ls : List PriceLevel)
    (h : (ls.map PriceLevel.price).Nodup) :
    ladderAdjust p delta ls
      = ls.map (fun x => if x.price = p
          then { x with totalQuantity := add32 x.totalQuantity delta } else x) := by
  induction ls with
  | nil => simp [ladderAdjust]
  | cons x xs ih =>
    simp only [List.map_cons, List.nodup_cons] at h
    by_cases hx : x.price = p
    · have hrest : ∀ y ∈ xs, y.price ≠ p := by
        intro y hy hyp
        exact h.1 (by simpa [hyp, hx] using List.mem_map_of_mem PriceLevel.price hy)
      have hmap : xs.map (fun z => if z.price = p
          then { z with totalQuantity := add32 z.totalQuantity delta } else z) = xs := by
        have := List.map_congr_left (l := xs)
          (f := fun z => if z.price = p
            then { z with totalQuantity := add32 z.totalQuantity delta } else z)
          (g := id) (fun y hy => by simp [hrest y hy])
        simpa using this
      simp [ladderAdjust, hx, hmap]
    · have hx2 : (x.price == p) = false := by simp [hx]
      simp [ladderAdjust, hx2, hx, ih h.2]

theorem addBuyLoop_of_filled (oid : Nat) (st : Store) (keys : List Nat) (tr : List Trade)
    (ladder : List PriceLevel) (h : (storeGet st oid).isFilled = true) :
    addBuyLoop oid st keys tr ladder = ⟨st, keys, tr, ladder⟩ := by
  cases ladder <;> simp [addBuyLoop, h]

theorem addSellLoop_of_filled (oid : Nat) (st : Store) (keys : List Nat) (tr : List Trade)
    (ladder : List PriceLevel) (h : (storeGet st oid).isFilled = true) :
    addSellLoop oid st keys tr ladder = ⟨st, keys, tr, ladder⟩ := by
  cases ladder <;> simp [addSellLoop, h]

/-- Claim C10: a `modify` call that returns true changes only the target
order's `quantity` field and, at the (unique) level carrying the order's
price on its side, the cached `totalQuantity`, adjusted by the uint32
difference `newQuantity - oldQuantity`; the order's other fields (status,
filledQuantity, price, side, timestamp), every other order, both ladders'
prices and queues, the orderMap keys, and the trade log are unchanged. -/
theorem c10_modify_frame (b : OrderBook) (oid nq : Nat)
    (hk : b.mapKeys.contains oid = true)
    (hfind : (b.orders.find? (fun pr => pr.1 == oid)).isSome = true)
    (hnb : (b.bids.map PriceLevel.price).Nodup)
    (hna : (b.asks.map PriceLevel.price).Nodup) :
    (b.modifyOrder oid nq).2 = true ∧
    (b.modifyOrder oid nq).1.trades = b.trades ∧
    (b.modifyOrder oid nq).1.mapKeys = b.mapKeys ∧
    (b.modifyOrder oid nq).1.nextOrderId = b.nextOrderId ∧
    storeGet (b.modifyOrder oid nq).1.orders oid
      = { storeGet b.orders oid with quantity := nq % U32MOD } ∧
    (∀ j, j ≠ oid → storeGet (b.modifyOrder oid nq).1.orders j = storeGet b.orders j) ∧
    ((storeGet b.orders oid).side = OrderSide.BUY →
      (b.modifyOrder oid nq).1.asks = b.asks ∧
      (b.modifyOrder oid nq).1.bids
        = b.bids.map (fun x => if x.price = (storeGet b.orders oid).price
            then { x with totalQuantity := add32 x.totalQuantity (sub32 (nq % U32MOD) (storeGet b.orders oid).quantity) }
            else x)) ∧
    ((storeGet b.orders oid).side = OrderSide.SELL →
      (b.modifyOrder oid nq).1.bids = b.bids ∧
      (b.modifyOrder oid nq).1.asks
        = b.asks.map (fun x => if x.price = (storeGet b.orders oid).price
            then { x with totalQuantity := add32 x.totalQuantity (sub32 (nq % U32MOD) (storeGet b.orders oid).quantity) }
            else x)) := by
  have hset := storeGet_storeSet_self b.orders oid
    { storeGet b.orders oid with quantity := nq % U32MOD } hfind
  have hoth := fun j (hj : j ≠ oid) => storeGet_storeSet_ne b.orders oid j
    { storeGet b.orders oid with quantity := nq % U32MOD } hj
  have hmem : oid ∈ b.mapKeys := by simpa using hk
  have hsides : (storeGet b.orders oid).side = OrderSide.BUY ∨
      (storeGet b.orders oid).side = OrderSide.SELL := by
    cases (storeGet b.orders oid).side
    · exact Or.inl rfl
    · exact Or.inr rfl
  rcases hsides with hs | hs
  · have hcond : ((storeGet b.orders oid).side == OrderSide.BUY) = true := by
      simp [hs]
    have hres : b.modifyOrder oid nq
        = ({ b with orders := storeSet b.orders oid { storeGet b.orders oid with quantity := nq % U32MOD }, bids := ladderAdjust (storeGet b.orders oid).price (sub32 (nq % U32MOD) (storeGet b.orders oid).quantity) b.bids }, true) := by
      simp [OrderBook.modifyOrder, hmem, hcond]
    rw [hres]
    refine ⟨rfl, rfl, rfl, rfl, hset, hoth, fun _ => ⟨rfl, ?_⟩,
      fun hcon => absurd (hs.symm.trans hcon) (by decide)⟩
    exact ladderAdjust_eq_of_nodup (storeGet b.orders oid).price
      (sub32 (nq % U32MOD) (storeGet b.orders oid).quantity) b.bids hnb
  · have hcond : ((storeGet b.orders oid).side == OrderSide.BUY) = false := by
      simp [hs]
    have hres : b.modifyOrder oid nq
        = ({ b with orders := storeSet b.orders oid { storeGet b.orders oid with quantity := nq % U32MOD }, asks := ladderAdjust (storeGet b.orders oid).price (sub32 (nq % U32MOD) (storeGet b.orders oid).quantity) b.asks }, true) := by
      simp [OrderBook.modifyOrder, hmem, hcond]
    rw [hres]
    refine ⟨rfl, rfl, rfl, rfl, hset, hoth,
      fun hcon => absurd (hs.symm.trans hcon) (by decide), fun _ => ⟨rfl, ?_⟩⟩
    exact ladderAdjust_eq_of_nodup (storeGet b.orders oid).price
      (sub32 (nq % U32MOD) (storeGet b.orders oid).quantity) b.asks hna

theorem c10_modify_frame_witness :
    (run emptyBook [Op.submit 100 50 OrderSide.SELL 1,
                    Op.submit 90 40 OrderSide.BUY 2]).mapKeys.contains 1 = true ∧
    ((run emptyBook [Op.submit 100 50 OrderSide.SELL 1,
                     Op.submit 90 40 OrderSide.BUY 2]).orders.find?
        (fun pr => pr.1 == 1)).isSome = true ∧
    ((run emptyBook [Op.submit 100 50 OrderSide.SELL 1,
                     Op.submit 90 40 OrderSide.BUY 2]).bids.map PriceLevel.price).Nodup ∧
    ((run emptyBook [Op.submit 100 50 OrderSide.SELL 1,
                     Op.submit 90 40 OrderSide.BUY 2]).asks.map PriceLevel.price).Nodup ∧
    ((run emptyBook [Op.submit 100 50 OrderSide.SELL 1,
                     Op.submit 90 40 OrderSide.BUY 2]).modifyOrder 1 77).1.trades
      = (run emptyBook [Op.submit 100 50 OrderSide.SELL 1,
                        Op.submit 90 40 OrderSide.BUY 2]).trades :=
  ⟨by decide, by decide, by decide, by decide,
   (c10_modify_frame (run emptyBook [Op.submit 100 50 OrderSide.SELL 1,
      Op.submit 90 40 OrderSide.BUY 2]) 1 77
      (by decide) (by decide) (by decide) (by decide)).2.1⟩

/-- Claim C2, amended: `modify(orderId, newQuantity)` with
`newQuantity ≤ filled` on an order in the index returns true, sets the
order's quantity to `newQuantity` (making the `isFilled` predicate
true), but leaves its status unchanged, leaves it in the order index and
in every level queue, appends no trade, and leaves its derived remaining
quantity as the uint32 wrap `(newQuantity - filled) mod 2^32`, which is
zero exactly when `newQuantity = filled`. -/
theorem c2_modify_below_filled_amended (b : OrderBook) (oid nq : Nat)
    (hk : b.mapKeys.contains oid = true)
    (hfind : (b.orders.find? (fun pr => pr.1 == oid)).isSome = true)
    (hnq : nq < U32MOD)
    (hf : (storeGet b.orders oid).filledQuantity < U32MOD)
    (hle : nq ≤ (storeGet b.orders oid).filledQuantity) :
    (b.modifyOrder oid nq).2 = true ∧
    (storeGet (b.modifyOrder oid nq).1.orders oid).status
      = (storeGet b.orders oid).status ∧
    (storeGet (b.modifyOrder oid nq).1.orders oid).filledQuantity
      = (storeGet b.orders oid).filledQuantity ∧
    (storeGet (b.modifyOrder oid nq).1.orders oid).quantity = nq ∧
    (storeGet (b.modifyOrder oid nq).1.orders oid).isFilled = true ∧
    (b.modifyOrder oid nq).1.mapKeys = b.mapKeys ∧
    (b.modifyOrder oid nq).1.trades = b.trades ∧
    (b.modifyOrder oid nq).1.bids.map PriceLevel.orders = b.bids.map PriceLevel.orders ∧
    (b.modifyOrder oid nq).1.asks.map PriceLevel.orders = b.asks.map PriceLevel.orders ∧
    (storeGet (b.modifyOrder oid nq).1.orders oid).getRemainingQuantity
      = sub32 nq (storeGet b.orders oid).filledQuantity ∧
    ((storeGet (b.modifyOrder oid nq).1.orders oid).getRemainingQuantity = 0 ↔
      nq = (storeGet b.orders oid).filledQuantity) := by
  have hmod : nq % U32MOD = nq := Nat.mod_eq_of_lt hnq
  have hset := storeGet_storeSet_self b.orders oid
    { storeGet b.orders oid with quantity := nq % U32MOD } hfind
  have hmem : oid ∈ b.mapKeys := by simpa using hk
  have hsides : (storeGet b.orders oid).side = OrderSide.BUY ∨
      (storeGet b.orders oid).side = OrderSide.SELL := by
    cases (storeGet b.orders oid).side
    · exact Or.inl rfl
    · exact Or.inr rfl
  rcases hsides with hs | hs
  · have hcond : ((storeGet b.orders oid).side == OrderSide.BUY) = true := by
      simp [hs]
    have hres : b.modifyOrder oid nq
        = ({ b with orders := storeSet b.orders oid { storeGet b.orders oid with quantity := nq % U32MOD }, bids := ladderAdjust (storeGet b.orders oid).price (sub32 (nq % U32MOD) (storeGet b.orders oid).quantity) b.bids }, true) := by
      simp [OrderBook.modifyOrder, hmem, hcond]
    rw [hres]
    refine ⟨rfl, ?_, ?_, ?_, ?_, rfl, rfl, ?_, rfl, ?_, ?_⟩
    · rw [hset]
    · rw [hset]
    · rw [hset]
      simpa using hmod
    · rw [hset]
      simp [Order.isFilled, hmod, hle]
    · exact ladderAdjust_map_orders _ _ b.bids
    · rw [hset]
      simp [Order.getRemainingQuantity, hmod]
    · rw [hset]
      simp only [Order.getRemainingQuantity]
      simp only [hmod]
      exact sub32_eq_zero_iff nq (storeGet b.orders oid).filledQuantity hnq hf
  · have hcond : ((storeGet b.orders oid).side == OrderSide.BUY) = false := by
      simp [hs]
    have hres : b.modifyOrder oid nq
        = ({ b with orders := storeSet b.orders oid { storeGet b.orders oid with quantity := nq % U32MOD }, asks := ladderAdjust (storeGet b.orders oid).price (sub32 (nq % U32MOD) (storeGet b.orders oid).quantity) b.asks }, true) := by
      simp [OrderBook.modifyOrder, hmem, hcond]
    rw [hres]
    refine ⟨rfl, ?_, ?_, ?_, ?_, rfl, rfl, rfl, ?_, ?_, ?_⟩
    · rw [hset]
    · rw [hset]
    · rw [hset]
      simpa using hmod
    · rw [hset]
      simp [Order.isFilled, hmod, hle]
    · exact ladderAdjust_map_orders _ _ b.asks
    · rw [hset]
      simp [Order.getRemainingQuantity, hmod]
    · rw [hset]
      simp only [Order.getRemainingQuantity]
      simp only [hmod]
      exact sub32_eq_zero_iff nq (storeGet b.orders oid).filledQuantity hnq hf

theorem c2_modify_below_filled_amended_witness :
    (run emptyBook [Op.submit 100 50 OrderSide.SELL 1,
                    Op.submit 100 30 OrderSide.BUY 2]).mapKeys.contains 1 = true ∧
    ((run emptyBook [Op.submit 100 50 OrderSide.SELL 1,
                     Op.submit 100 30 OrderSide.BUY 2]).orders.find?
        (fun pr => pr.1 == 1)).isSome = true ∧
    10 < U32MOD ∧
    (storeGet (run emptyBook [Op.submit 100 50 OrderSide.SELL 1,
                              Op.submit 100 30 OrderSide.BUY 2]).orders 1).filledQuantity
      < U32MOD ∧
    10 ≤ (storeGet (run emptyBook [Op.submit 100 50 OrderSide.SELL 1,
                                   Op.submit 100 30 OrderSide.BUY 2]).orders 1).filledQuantity ∧
    (storeGet ((run emptyBook [Op.submit 100 50 OrderSide.SELL 1,
                               Op.submit 100 30 OrderSide.BUY 2]).modifyOrder 1 10).1.orders 1).status
      = (storeGet (run emptyBook [Op.submit 100 50 OrderSide.SELL 1,
                                  Op.submit 100 30 OrderSide.BUY 2]).orders 1).status :=
  ⟨by decide, by decide, by decide, by decide, by decide,
   (c2_modify_below_filled_amended (run emptyBook [Op.submit 100 50 OrderSide.SELL 1,
      Op.submit 100 30 OrderSide.BUY 2]) 1 10
      (by decide) (by decide) (by decide) (by decide) (by decide)).2.1⟩

theorem ladderRemove_cons_pos (st : Store) (oid p : Nat) (x : PriceLevel)
    (xs : List PriceLevel) (hx : x.price = p) :
    ladderRemove st oid p (x :: xs)
      = if (x.removeOrder st oid).isEmpty then xs else (x.removeOrder st oid) :: xs := by
  have hb : (x.price == p) = true := by simp [hx]
  simp [ladderRemove, hb]

theorem ladderRemove_cons_neg (st : Store) (oid p : Nat) (x : PriceLevel)
    (xs : List PriceLevel) (hx : x.price ≠ p) :
    ladderRemove st oid p (x :: xs) = x :: ladderRemove st oid p xs := by
  have hb : (x.price == p) = false := by simp [hx]
  simp [ladderRemove, hb]

theorem ladderRemove_not_mem (st : Store) (oid p : Nat) :
    ∀ ls : List PriceLevel, (ls.map PriceLevel.price).Nodup →
      (∀ l ∈ ls, oid ∈ l.orders → l.price = p) →
      ∀ l2 ∈ ladderRemove st oid p ls, oid ∉ l2.orders := by
  intro ls
  induction ls with
  | nil =>
    intro _ _ l2 hl2
    simp [ladderRemove] at hl2
  | cons x xs ih =>
    intro hN hloc l2 hl2
    simp only [List.map_cons, List.nodup_cons] at hN
    by_cases hx : x.price = p
    · have hxs : ∀ l ∈ xs, oid ∉ l.orders := by
        intro l hl hmem
        have hp : l.price = p := hloc l (List.mem_cons_of_mem _ hl) hmem
        exact hN.1 (by simpa [hp, hx] using List.mem_map_of_mem PriceLevel.price hl)
      rw [ladderRemove_cons_pos st oid p x xs hx] at hl2
      by_cases hE : (x.removeOrder st oid).isEmpty = true
      · rw [if_pos hE] at hl2
        exact hxs l2 hl2
      · rw [if_neg hE, List.mem_cons] at hl2
        rcases hl2 with hl2 | hl2
        · subst hl2
          intro hmem
          have h2 := List.of_mem_filter hmem
          simp at h2
        · exact hxs l2 hl2
    · rw [ladderRemove_cons_neg st oid p x xs hx, List.mem_cons] at hl2
      rcases hl2 with hl2 | hl2
      · subst hl2
        intro hmem
        exact hx (hloc l2 (List.mem_cons_self _ _) hmem)
      · exact ih hN.2 (fun l hl => hloc l (List.mem_cons_of_mem _ hl)) l2 hl2

theorem ladderRemove_frame (st : Store) (oid p : Nat) (ls : List PriceLevel) :
    ∀ l ∈ ls, l.price ≠ p → l ∈ ladderRemove st oid p ls := by
  induction ls with
  | nil => simp
  | cons x xs ih =>
    intro l hl hlp
    rw [List.mem_cons] at hl
    by_cases hx : x.price = p
    · rw [ladderRemove_cons_pos st oid p x xs hx]
      have hlx : l ∈ xs := by
        rcases hl with hl | hl
        · exact absurd (hl ▸ hx) hlp
        · exact hl
      by_cases hE : (x.removeOrder st oid).isEmpty = true
      · rw [if_pos hE]
        exact hlx
      · rw [if_neg hE]
        exact List.mem_cons_of_mem _ hlx
    · rw [ladderRemove_cons_neg st oid p x xs hx]
      rcases hl with hl | hl
      · rw [hl]
        exact List.mem_cons_self _ _
      · exact List.mem_cons_of_mem _ (ih l hl hlp)

theorem ladderRemove_at_price (st : Store) (oid p : Nat) :
    ∀ ls : List PriceLevel, (ls.map PriceLevel.price).Nodup →
      ∀ l ∈ ls, l.price = p →
        ((l.removeOrder st oid).isEmpty = true →
          ∀ l2 ∈ ladderRemove st oid p ls, l2.price ≠ p) ∧
        ((l.removeOrder st oid).isEmpty = false →
          (l.removeOrder st oid) ∈ ladderRemove st oid p ls) := by
  intro ls
  induction ls with
  | nil =>
    intro _ l hl
    simp at hl
  | cons x xs ih =>
    intro hN l hl hlp
    simp only [List.map_cons, List.nodup_cons] at hN
    rw [List.mem_cons] at hl
    rcases hl with hl | hl
    · subst hl
      rw [ladderRemove_cons_pos st oid p l xs hlp]
      constructor
      · intro hE l2 hl2
        rw [if_pos hE] at hl2
        intro hl2p
        exact hN.1 (by simpa [hl2p, hlp] using List.mem_map_of_mem PriceLevel.price hl2)
      · intro hE
        rw [if_neg (by simp [hE])]
        exact List.mem_cons_self _ _
    · have hx : x.price ≠ p := by
        intro hxp
        exact hN.1 (by simpa [hlp, hxp] using List.mem_map_of_mem PriceLevel.price hl)
      rw [ladderRemove_cons_neg st oid p x xs hx]
      have hrec := ih hN.2 l hl hlp
      constructor
      · intro hE l2 hl2
        rw [List.mem_cons] at hl2
        rcases hl2 with hl2 | hl2
        · rw [hl2]
          exact hx
        · exact hrec.1 hE l2 hl2
      · intro hE
        exact List.mem_cons_of_mem _ (hrec.2 hE)

theorem removeOrder_orders (b : OrderBook) (oid : Nat) :
    (b.removeOrder oid).orders = b.orders := by
  simp only [OrderBook.removeOrder]
  split <;> rfl

theorem removeOrder_mapKeys (b : OrderBook) (oid : Nat) :
    (b.removeOrder oid).mapKeys = b.mapKeys := by
  simp only [OrderBook.removeOrder]
  split <;> rfl

theorem removeOrder_trades (b : OrderBook) (oid : Nat) :
    (b.removeOrder oid).trades = b.trades := by
  simp only [OrderBook.removeOrder]
  split <;> rfl

theorem removeOrder_of_buy (b : OrderBook) (oid : Nat)
    (hs : (storeGet b.orders oid).side = OrderSide.BUY) :
    (b.removeOrder oid).bids
        = ladderRemove b.orders oid (storeGet b.orders oid).price b.bids ∧
      (b.removeOrder oid).asks = b.asks := by
  have hb : ((storeGet b.orders oid).side == OrderSide.BUY) = true := by simp [hs]
  simp [OrderBook.removeOrder, hb]

theorem removeOrder_of_sell (b : OrderBook) (oid : Nat)
    (hs : (storeGet b.orders oid).side = OrderSide.SELL) :
    (b.removeOrder oid).asks
        = ladderRemove b.orders oid (storeGet b.orders oid).price b.asks ∧
      (b.removeOrder oid).bids = b.bids := by
  have hb : ((storeGet b.orders oid).side == OrderSide.BUY) = false := by simp [hs]
  simp [OrderBook.removeOrder, hb]

/-- Claim C5: `cancelOrder` returns true exactly when the id is in the
order index with status NEW or PARTIAL_FILL (REJECTED never arises, and
a resting order is indexed); on true it removes the order id from every
level queue, erases its level when the queue empties and otherwise
leaves the level with the order filtered out and `totalQuantity`
decremented by the order's remaining quantity
(`PriceLevel.removeOrder`), leaves all other levels, the opposite
ladder, the other orders and the trade log untouched, sets the order's
status to CANCELLED and drops the id from the order index; on false
nothing is mutated. -/
theorem c5_cancel_iff_resting (b : OrderBook) (oid : Nat)
    (hfind : oid ∈ b.mapKeys → (b.orders.find? (fun pr => pr.1 == oid)).isSome = true)
    (hrej : (storeGet b.orders oid).status ≠ OrderStatus.REJECTED)
    (hnb : (b.bids.map PriceLevel.price).Nodup)
    (hna : (b.asks.map PriceLevel.price).Nodup)
    (hlocB : ∀ l ∈ b.bids, oid ∈ l.orders →
        (storeGet b.orders oid).side = OrderSide.BUY ∧
        l.price = (storeGet b.orders oid).price)
    (hlocA : ∀ l ∈ b.asks, oid ∈ l.orders →
        (storeGet b.orders oid).side = OrderSide.SELL ∧
        l.price = (storeGet b.orders oid).price) :
    ((b.cancelOrder oid).2 = true ↔ oid ∈ b.mapKeys ∧
      ((storeGet b.orders oid).status = OrderStatus.NEW ∨
       (storeGet b.orders oid).status = OrderStatus.PARTIAL_FILL)) ∧
    ((b.cancelOrder oid).2 = true →
      oid ∉ (b.cancelOrder oid).1.mapKeys ∧
      (storeGet (b.cancelOrder oid).1.orders oid).status = OrderStatus.CANCELLED ∧
      (∀ j, j ≠ oid → storeGet (b.cancelOrder oid).1.orders j = storeGet b.orders j) ∧
      (b.cancelOrder oid).1.trades = b.trades ∧
      (∀ l ∈ (b.cancelOrder oid).1.bids ++ (b.cancelOrder oid).1.asks, oid ∉ l.orders) ∧
      (∀ l ∈ b.bids ++ b.asks, l.price ≠ (storeGet b.orders oid).price →
          l ∈ (b.cancelOrder oid).1.bids ++ (b.cancelOrder oid).1.asks) ∧
      ((storeGet b.orders oid).side = OrderSide.BUY →
          (b.cancelOrder oid).1.asks = b.asks) ∧
      ((storeGet b.orders oid).side = OrderSide.SELL →
          (b.cancelOrder oid).1.bids = b.bids) ∧
      (∀ l ∈ b.bids, oid ∈ l.orders →
        ((l.removeOrder b.orders oid).isEmpty = true →
          ∀ l2 ∈ (b.cancelOrder oid).1.bids, l2.price ≠ l.price) ∧
        ((l.removeOrder b.orders oid).isEmpty = false →
          (l.removeOrder b.orders oid) ∈ (b.cancelOrder oid).1.bids)) ∧
      (∀ l ∈ b.asks, oid ∈ l.orders →
        ((l.removeOrder b.orders oid).isEmpty = true →
          ∀ l2 ∈ (b.cancelOrder oid).1.asks, l2.price ≠ l.price) ∧
        ((l.removeOrder b.orders oid).isEmpty = false →
          (l.removeOrder b.orders oid) ∈ (b.cancelOrder oid).1.asks))) ∧
    ((b.cancelOrder oid).2 = false → (b.cancelOrder oid).1 = b) := by
  by_cases hmem : oid ∈ b.mapKeys
  · have hcont : b.mapKeys.contains oid = true := by simpa using hmem
    by_cases hterm : (storeGet b.orders oid).status = OrderStatus.FILLED ∨
        (storeGet b.orders oid).status = OrderStatus.CANCELLED
    · have hb : ((storeGet b.orders oid).status == OrderStatus.FILLED ||
          (storeGet b.orders oid).status == OrderStatus.CANCELLED) = true := by
        rcases hterm with h | h <;> simp [h]
      have hres : b.cancelOrder oid = (b, false) := by
        simp [OrderBook.cancelOrder, hcont, hb, hmem]
      rw [hres]
      refine ⟨⟨fun h => absurd h (by simp), fun h2 => ?_⟩,
        fun h => absurd h (by simp), fun _ => rfl⟩
      exfalso
      rcases hterm with h | h <;> rcases h2.2 with h2 | h2 <;> rw [h2] at h <;> exact absurd h (by decide)
    · rcases not_or.mp hterm with ⟨hF, hC⟩
      have hb : ((storeGet b.orders oid).status == OrderStatus.FILLED ||
          (storeGet b.orders oid).status == OrderStatus.CANCELLED) = false := by
        simp [hF, hC]
      have hstat : (storeGet b.orders oid).status = OrderStatus.NEW ∨
          (storeGet b.orders oid).status = OrderStatus.PARTIAL_FILL := by
        cases hsv : (storeGet b.orders oid).status with
        | NEW => exact Or.inl rfl
        | PARTIAL_FILL => exact Or.inr rfl
        | FILLED => exact absurd hsv hF
        | CANCELLED => exact absurd hsv hC
        | REJECTED => exact absurd hsv hrej
      have hZset := storeGet_storeSet_self b.orders oid
        { storeGet b.orders oid with status := OrderStatus.CANCELLED } (hfind hmem)
      have hZoth := fun j (hj : j ≠ oid) => storeGet_storeSet_ne b.orders oid j
        { storeGet b.orders oid with status := OrderStatus.CANCELLED } hj
      have hsides : (storeGet b.orders oid).side = OrderSide.BUY ∨
          (storeGet b.orders oid).side = OrderSide.SELL := by
        cases (storeGet b.orders oid).side
        · exact Or.inl rfl
        · exact Or.inr rfl
      rcases hsides with hs | hs
      · have hsb : ((storeGet b.orders oid).side == OrderSide.BUY) = true := by simp [hs]
        have hres : b.cancelOrder oid
            = ({ bids := ladderRemove b.orders oid (storeGet b.orders oid).price b.bids,
                 asks := b.asks,
                 orders := storeSet b.orders oid { storeGet b.orders oid with status := OrderStatus.CANCELLED },
                 mapKeys := b.mapKeys.filter (fun k => k != oid),
                 trades := b.trades,
                 nextOrderId := b.nextOrderId }, true) := by
          simp [OrderBook.cancelOrder, OrderBook.removeOrder, hcont, hb, hsb, hmem]
        rw [hres]
        refine ⟨⟨fun _ => ⟨hmem, hstat⟩, fun _ => rfl⟩, fun _ => ?_,
          fun h => absurd h (by simp)⟩
        refine ⟨?_, ?_, hZoth, rfl, ?_, ?_, fun _ => rfl,
          fun hcon => absurd (hs.symm.trans hcon) (by decide), ?_, ?_⟩
        · intro hm
          have h2 := List.of_mem_filter hm
          simp at h2
        · rw [hZset]
        · intro l hl
          rw [List.mem_append] at hl
          rcases hl with hl | hl
          · exact ladderRemove_not_mem b.orders oid (storeGet b.orders oid).price b.bids
              hnb (fun l2 hl2 hm2 => (hlocB l2 hl2 hm2).2) l hl
          · intro hm2
            have h2 := (hlocA l hl hm2).1
            rw [hs] at h2
            exact absurd h2 (by decide)
        · intro l hl hlp
          rw [List.mem_append] at hl ⊢
          rcases hl with hl | hl
          · exact Or.inl (ladderRemove_frame b.orders oid (storeGet b.orders oid).price b.bids l hl hlp)
          · exact Or.inr hl
        · intro l hl hm
          have hlp := (hlocB l hl hm).2
          have h2 := ladderRemove_at_price b.orders oid (storeGet b.orders oid).price b.bids hnb l hl hlp
          refine ⟨fun hE l2 hl2 => ?_, fun hE => h2.2 hE⟩
          rw [hlp]
          exact h2.1 hE l2 hl2
        · intro l hl hm
          have h2 := (hlocA l hl hm).1
          rw [hs] at h2
          exact absurd h2 (by decide)
      · have hsb : ((storeGet b.orders oid).side == OrderSide.BUY) = false := by simp [hs]
        have hres : b.cancelOrder oid
            = ({ bids := b.bids,
                 asks := ladderRemove b.orders oid (storeGet b.orders oid).price b.asks,
                 orders := storeSet b.orders oid { storeGet b.orders oid with status := OrderStatus.CANCELLED },
                 mapKeys := b.mapKeys.filter (fun k => k != oid),
                 trades := b.trades,
                 nextOrderId := b.nextOrderId }, true) := by
          simp [OrderBook.cancelOrder, OrderBook.removeOrder, hcont, hb, hsb, hmem]
        rw [hres]
        refine ⟨⟨fun _ => ⟨hmem, hstat⟩, fun _ => rfl⟩, fun _ => ?_,
          fun h => absurd h (by simp)⟩
        refine ⟨?_, ?_, hZoth, rfl, ?_, ?_,
          fun hcon => absurd (hs.symm.trans hcon) (by decide), fun _ => rfl, ?_, ?_⟩
        · intro hm
          have h2 := List.of_mem_filter hm
          simp at h2
        · rw [hZset]
        · intro l hl
          rw [List.mem_append] at hl
          rcases hl with hl | hl
          · intro hm2
            have h2 := (hlocB l hl hm2).1
            rw [hs] at h2
            exact absurd h2 (by decide)
          · exact ladderRemove_not_mem b.orders oid (storeGet b.orders oid).price b.asks
              hna (fun l2 hl2 hm2 => (hlocA l2 hl2 hm2).2) l hl
        · intro l hl hlp
          rw [List.mem_append] at hl ⊢
          rcases hl with hl | hl
          · exact Or.inl hl
          · exact Or.inr (ladderRemove_frame b.orders oid (storeGet b.orders oid).price b.asks l hl hlp)
        · intro l hl hm
          have h2 := (hlocB l hl hm).1
          rw [hs] at h2
          exact absurd h2 (by decide)
        · intro l hl hm
          have hlp := (hlocA l hl hm).2
          have h2 := ladderRemove_at_price b.orders oid (storeGet b.orders oid).price b.asks hna l hl hlp
          refine ⟨fun hE l2 hl2 => ?_, fun hE => h2.2 hE⟩
          rw [hlp]
          exact h2.1 hE l2 hl2
  · have hcont : b.mapKeys.contains oid = false := by
      simpa using hmem
    have hres : b.cancelOrder oid = (b, false) := by
      simp [OrderBook.cancelOrder, hcont, hmem]
    rw [hres]
    exact ⟨⟨fun h => absurd h (by simp), fun h2 => absurd h2.1 hmem⟩,
      fun h => absurd h (by simp), fun _ => rfl⟩

theorem c5_cancel_iff_resting_witness :
    (2 ∈ (run emptyBook [Op.submit 100 50 OrderSide.SELL 1,
                         Op.submit 90 40 OrderSide.BUY 2]).mapKeys →
      ((run emptyBook [Op.submit 100 50 OrderSide.SELL 1,
                       Op.submit 90 40 OrderSide.BUY 2]).orders.find?
          (fun pr => pr.1 == 2)).isSome = true) ∧
    (storeGet (run emptyBook [Op.submit 100 50 OrderSide.SELL 1,
                              Op.submit 90 40 OrderSide.BUY 2]).orders 2).status
      ≠ OrderStatus.REJECTED ∧
    (((run emptyBook [Op.submit 100 50 OrderSide.SELL 1,
                      Op.submit 90 40 OrderSide.BUY 2]).bids.map PriceLevel.price).Nodup) ∧
    (((run emptyBook [Op.submit 100 50 OrderSide.SELL 1,
                      Op.submit 90 40 OrderSide.BUY 2]).asks.map PriceLevel.price).Nodup) ∧
    (((run emptyBook [Op.submit 100 50 OrderSide.SELL 1,
                      Op.submit 90 40 OrderSide.BUY 2]).cancelOrder 2).2 = true ↔
      2 ∈ (run emptyBook [Op.submit 100 50 OrderSide.SELL 1,
                          Op.submit 90 40 OrderSide.BUY 2]).mapKeys ∧
      ((storeGet (run emptyBook [Op.submit 100 50 OrderSide.SELL 1,
                                 Op.submit 90 40 OrderSide.BUY 2]).orders 2).status = OrderStatus.NEW ∨
       (storeGet (run emptyBook [Op.submit 100 50 OrderSide.SELL 1,
                                 Op.submit 90 40 OrderSide.BUY 2]).orders 2).status = OrderStatus.PARTIAL_FILL)) :=
  ⟨by decide, by decide, by decide, by decide,
   (c5_cancel_iff_resting (run emptyBook [Op.submit 100 50 OrderSide.SELL 1,
      Op.submit 90 40 OrderSide.BUY 2]) 2
      (by decide) (by decide) (by decide) (by decide) (by decide) (by decide)).1⟩

theorem sub32_zero (x : Nat) : sub32 x 0 = x % U32MOD := by
  simp [sub32, Nat.add_mod_right]

theorem sub32_self (x : Nat) : sub32 x x = 0 := by
  have h : x % U32MOD < U32MOD := Nat.mod_lt _ (by norm_num [U32MOD])
  have h2 : x % U32MOD + (U32MOD - x % U32MOD) = U32MOD := by omega
  simp [sub32, h2]

theorem fill_orderId (o : Order) (t : Nat) : (o.fill t).orderId = o.orderId := by
  simp only [Order.fill]
  split <;> rfl

theorem fill_timestamp (o : Order) (t : Nat) : (o.fill t).timestamp = o.timestamp := by
  simp only [Order.fill]
  split <;> rfl

theorem fill_price (o : Order) (t : Nat) : (o.fill t).price = o.price := by
  simp only [Order.fill]
  split <;> rfl

theorem fill_quantity (o : Order) (t : Nat) : (o.fill t).quantity = o.quantity := by
  simp only [Order.fill]
  split <;> rfl

theorem fill_side (o : Order) (t : Nat) : (o.fill t).side = o.side := by
  simp only [Order.fill]
  split <;> rfl

theorem fill_filledQuantity (o : Order) (t : Nat) :
    (o.fill t).filledQuantity = add32 o.filledQuantity t := by
  simp only [Order.fill]
  split <;> rfl

theorem find?_isSome_append (st l : Store) (f : Nat × Order → Bool)
    (h : (st.find? f).isSome = true) : ((st ++ l).find? f).isSome = true := by
  induction st with
  | nil => simp [List.find?] at h
  | cons hd tl ih =>
    rw [List.cons_append, List.find?_cons] at *
    cases hf : f hd with
    | true => simp [hf]
    | false =>
      rw [hf] at h
      simp only at h ⊢
      exact ih h

theorem find?_append_self_isSome (st : Store) (k : Nat) (o : Order) :
    ((st ++ [(k, o)]).find? (fun pr => pr.1 == k)).isSome = true := by
  induction st with
  | nil => simp [List.find?]
  | cons hd tl ih =>
    rw [List.cons_append, List.find?_cons]
    cases hf : (hd.1 == k) with
    | true => simp [hf]
    | false =>
      simp only
      exact ih

theorem find?_isSome_storeSet (st : Store) (k j : Nat) (o : Order) :
    ((storeSet st k o).find? (fun pr => pr.1 == j)).isSome
      = (st.find? (fun pr => pr.1 == j)).isSome := by
  induction st with
  | nil => simp [storeSet]
  | cons hd tl ih =>
    rw [storeSet_cons, List.find?_cons, List.find?_cons]
    by_cases hk : hd.1 = k
    · simp only [if_pos hk]
      by_cases hj : k = j
      · have : hd.1 = j := hk.trans hj
        simp [hj, this]
      · have h2 : hd.1 ≠ j := by rw [hk]; exact hj
        simp only [show ((k, o).1 == j) = false by simpa using hj,
          show (hd.1 == j) = false by simpa using h2, cond_false]
        exact ih
    · rw [if_neg hk]
      cases hf : (hd.1 == j) with
      | true => simp [hf]
      | false =>
        simp only [hf, cond_false]
        exact ih

theorem filter_bne_eq_self (rest : List Nat) (a : Nat) (h : a ∉ rest) :
    rest.filter (fun k => k != a) = rest := by
  apply List.filter_eq_self.mpr
  intro k hk
  simp only [bne_iff_ne, ne_eq]
  exact fun he => h (he ▸ hk)

theorem matchLoopFuel_succ_filled (incId fuel : Nat) (st : Store) (keys : List Nat)
    (tr : List Trade) (lvl : PriceLevel) (h : (storeGet st incId).isFilled = true) :
    matchLoopFuel incId (fuel + 1) st keys tr lvl = ⟨st, keys, tr, lvl⟩ := by
  simp [matchLoopFuel, h]

theorem matchLoopFuel_succ_cons (incId fuel : Nat) (st : Store) (keys : List Nat)
    (tr : List Trade) (lvl : PriceLevel) (r : Nat) (rest2 : List Nat)
    (hnf : (storeGet st incId).isFilled = false) (hq : lvl.orders = r :: rest2) :
    matchLoopFuel incId (fuel + 1) st keys tr lvl =
      (let tradeQty := min (storeGet st incId).getRemainingQuantity
                           (storeGet st r).getRemainingQuantity
       let st1 := storeSet st incId ((storeGet st incId).fill tradeQty)
       let st2 := storeSet st1 r ((storeGet st1 r).fill tradeQty)
       let buyId := if (storeGet st2 incId).side == OrderSide.BUY then incId else r
       let sellId := if (storeGet st2 incId).side == OrderSide.SELL then incId else r
       let tr2 := tr ++ [⟨buyId, sellId, (storeGet st2 r).price, tradeQty,
                          (storeGet st2 incId).timestamp⟩]
       if (storeGet st2 r).isFilled then
         matchLoopFuel incId fuel st2 (keys.filter (fun k => k != r)) tr2
           (lvl.removeOrder st2 r)
       else ⟨st2, keys, tr2, lvl⟩) := by
  conv_lhs => rw [matchLoopFuel]
  rw [hnf, hq]
  rfl

theorem addBuyLoop_cons_cross (oid : Nat) (st : Store) (keys : List Nat)
    (tr : List Trade) (best : PriceLevel) (Ls : List PriceLevel)
    (hnf : (storeGet st oid).isFilled = false)
    (hnlt : ¬ (storeGet st oid).price < best.price) :
    addBuyLoop oid st keys tr (best :: Ls) =
      (let m := matchOrders oid st keys tr best
       if m.level.isEmpty then addBuyLoop oid m.orders m.mapKeys m.trades Ls
       else ⟨m.orders, m.mapKeys, m.trades, m.level :: Ls⟩) := by
  simp [addBuyLoop, hnf, hnlt]

theorem addSellLoop_cons_cross (oid : Nat) (st : Store) (keys : List Nat)
    (tr : List Trade) (best : PriceLevel) (Ls : List PriceLevel)
    (hnf : (storeGet st oid).isFilled = false)
    (hnlt : ¬ best.price < (storeGet st oid).price) :
    addSellLoop oid st keys tr (best :: Ls) =
      (let m := matchOrders oid st keys tr best
       if m.level.isEmpty then addSellLoop oid m.orders m.mapKeys m.trades Ls
       else ⟨m.orders, m.mapKeys, m.trades, m.level :: Ls⟩) := by
  simp [addSellLoop, hnf, hnlt]

/-- FIFO at the best opposite level for an incoming BUY: the front
resting order of the lowest-price ask level is the unique counterparty
of a trade of size at most its remaining, at that level's price, and
every later-queued order is untouched and stays queued there. -/
theorem addBuy_fifo_priority (b : OrderBook) (p q ts a : Nat) (L : PriceLevel)
    (Ls : List PriceLevel) (rest : List Nat)
    (hasks : b.asks = L :: Ls)
    (hqueue : L.orders = a :: rest)
    (hbest : ∀ L2 ∈ b.asks, L.price ≤ L2.price)
    (hfreshO : ∀ pr ∈ b.orders, pr.1 < b.nextOrderId)
    (hfreshL : ∀ k ∈ L.orders, k < b.nextOrderId)
    (hafind : (b.orders.find? (fun pr => pr.1 == a)).isSome = true)
    (hAfb : (storeGet b.orders a).filledQuantity ≤ (storeGet b.orders a).quantity)
    (hAqb : (storeGet b.orders a).quantity < U32MOD)
    (hap : (storeGet b.orders a).price = L.price)
    (hanotrest : a ∉ rest)
    (hqpos : 0 < q) (hqb : q < U32MOD) (hpb : p < U32MOD)
    (hqle : q ≤ (storeGet b.orders a).getRemainingQuantity)
    (hcross : L.price ≤ p) :
    (b.addOrder p q OrderSide.BUY ts).1.trades
      = b.trades ++ [⟨b.nextOrderId, a, L.price, q, ts % U64MOD⟩] ∧
    (b.addOrder p q OrderSide.BUY ts).2 = b.nextOrderId ∧
    (∀ i ∈ rest, storeGet (b.addOrder p q OrderSide.BUY ts).1.orders i
      = storeGet b.orders i) ∧
    (∀ i ∈ rest, ∃ l2 ∈ (b.addOrder p q OrderSide.BUY ts).1.asks,
        l2.price = L.price ∧ i ∈ l2.orders) ∧
    (∀ L2 ∈ b.asks, L.price ≤ L2.price) := by
  have hmq : q % U32MOD = q := Nat.mod_eq_of_lt hqb
  have hmp : p % U32MOD = p := Nat.mod_eq_of_lt hpb
  have hane : a ≠ b.nextOrderId :=
    Nat.ne_of_lt (hfreshL a (by rw [hqueue]; exact List.mem_cons_self a rest))
  have hoidfresh : ∀ pr ∈ b.orders, pr.1 ≠ b.nextOrderId :=
    fun pr h => Nat.ne_of_lt (hfreshO pr h)
  have hremA : (storeGet b.orders a).getRemainingQuantity
      = (storeGet b.orders a).quantity - (storeGet b.orders a).filledQuantity := by
    simp only [Order.getRemainingQuantity]
    exact sub32_eq_of_le _ _ hAfb hAqb
  have hqle2 : q ≤ (storeGet b.orders a).quantity - (storeGet b.orders a).filledQuantity :=
    hremA ▸ hqle
  have hOget : storeGet (b.orders ++ [(b.nextOrderId, (⟨b.nextOrderId, ts % U64MOD, p, q, 0, OrderSide.BUY, OrderType.LIMIT, OrderStatus.NEW⟩ : Order))]) b.nextOrderId = (⟨b.nextOrderId, ts % U64MOD, p, q, 0, OrderSide.BUY, OrderType.LIMIT, OrderStatus.NEW⟩ : Order) :=
    storeGet_append_fresh _ _ _ hoidfresh
  have hAget : storeGet (b.orders ++ [(b.nextOrderId, (⟨b.nextOrderId, ts % U64MOD, p, q, 0, OrderSide.BUY, OrderType.LIMIT, OrderStatus.NEW⟩ : Order))]) a = storeGet b.orders a :=
    storeGet_append_ne _ _ _ _ hane
  have hnf : (storeGet (b.orders ++ [(b.nextOrderId, (⟨b.nextOrderId, ts % U64MOD, p, q, 0, OrderSide.BUY, OrderType.LIMIT, OrderStatus.NEW⟩ : Order))]) b.nextOrderId).isFilled = false := by
    rw [hOget]
    simp only [Order.isFilled, decide_eq_false_iff_not]
    omega
  have hrem0 : (storeGet (b.orders ++ [(b.nextOrderId, (⟨b.nextOrderId, ts % U64MOD, p, q, 0, OrderSide.BUY, OrderType.LIMIT, OrderStatus.NEW⟩ : Order))]) b.nextOrderId).getRemainingQuantity = q := by
    rw [hOget]
    simp [Order.getRemainingQuantity, sub32_zero, hmq]
  have htq : min (storeGet (b.orders ++ [(b.nextOrderId, (⟨b.nextOrderId, ts % U64MOD, p, q, 0, OrderSide.BUY, OrderType.LIMIT, OrderStatus.NEW⟩ : Order))]) b.nextOrderId).getRemainingQuantity
      (storeGet (b.orders ++ [(b.nextOrderId, (⟨b.nextOrderId, ts % U64MOD, p, q, 0, OrderSide.BUY, OrderType.LIMIT, OrderStatus.NEW⟩ : Order))]) a).getRemainingQuantity = q := by
    rw [hrem0, hAget]
    exact min_eq_left hqle
  have hOfill : (storeGet (b.orders ++ [(b.nextOrderId, (⟨b.nextOrderId, ts % U64MOD, p, q, 0, OrderSide.BUY, OrderType.LIMIT, OrderStatus.NEW⟩ : Order))]) b.nextOrderId).fill q = (⟨b.nextOrderId, ts % U64MOD, p, q, q, OrderSide.BUY, OrderType.LIMIT, OrderStatus.FILLED⟩ : Order) := by
    rw [hOget]
    simp [Order.fill, Order.isFilled, add32, hmq]
  have hfindO : (((b.orders ++ [(b.nextOrderId, (⟨b.nextOrderId, ts % U64MOD, p, q, 0, OrderSide.BUY, OrderType.LIMIT, OrderStatus.NEW⟩ : Order))])).find? (fun pr => pr.1 == b.nextOrderId)).isSome = true :=
    find?_append_self_isSome _ _ _
  have hfindA : (((b.orders ++ [(b.nextOrderId, (⟨b.nextOrderId, ts % U64MOD, p, q, 0, OrderSide.BUY, OrderType.LIMIT, OrderStatus.NEW⟩ : Order))])).find? (fun pr => pr.1 == a)).isSome = true :=
    find?_isSome_append _ _ _ hafind
  have h1o : storeGet (storeSet (b.orders ++ [(b.nextOrderId, (⟨b.nextOrderId, ts % U64MOD, p, q, 0, OrderSide.BUY, OrderType.LIMIT, OrderStatus.NEW⟩ : Order))]) b.nextOrderId (⟨b.nextOrderId, ts % U64MOD, p, q, q, OrderSide.BUY, OrderType.LIMIT, OrderStatus.FILLED⟩ : Order)) b.nextOrderId = (⟨b.nextOrderId, ts % U64MOD, p, q, q, OrderSide.BUY, OrderType.LIMIT, OrderStatus.FILLED⟩ : Order) :=
    storeGet_storeSet_self _ _ _ hfindO
  have h1a : storeGet (storeSet (b.orders ++ [(b.nextOrderId, (⟨b.nextOrderId, ts % U64MOD, p, q, 0, OrderSide.BUY, OrderType.LIMIT, OrderStatus.NEW⟩ : Order))]) b.nextOrderId (⟨b.nextOrderId, ts % U64MOD, p, q, q, OrderSide.BUY, OrderType.LIMIT, OrderStatus.FILLED⟩ : Order)) a = storeGet b.orders a := by
    rw [storeGet_storeSet_ne _ _ _ _ hane]
    exact hAget
  have hfindA1 : (((storeSet (b.orders ++ [(b.nextOrderId, (⟨b.nextOrderId, ts % U64MOD, p, q, 0, OrderSide.BUY, OrderType.LIMIT, OrderStatus.NEW⟩ : Order))]) b.nextOrderId (⟨b.nextOrderId, ts % U64MOD, p, q, q, OrderSide.BUY, OrderType.LIMIT, OrderStatus.FILLED⟩ : Order))).find? (fun pr => pr.1 == a)).isSome = true := by
    rw [find?_isSome_storeSet]
    exact hfindA
  have h2a : storeGet (storeSet (storeSet (b.orders ++ [(b.nextOrderId, (⟨b.nextOrderId, ts % U64MOD, p, q, 0, OrderSide.BUY, OrderType.LIMIT, OrderStatus.NEW⟩ : Order))]) b.nextOrderId (⟨b.nextOrderId, ts % U64MOD, p, q, q, OrderSide.BUY, OrderType.LIMIT, OrderStatus.FILLED⟩ : Order)) a ((storeGet b.orders a).fill q)) a = ((storeGet b.orders a).fill q) := by
    have h3 := storeGet_storeSet_self (storeSet (b.orders ++ [(b.nextOrderId, (⟨b.nextOrderId, ts % U64MOD, p, q, 0, OrderSide.BUY, OrderType.LIMIT, OrderStatus.NEW⟩ : Order))]) b.nextOrderId (⟨b.nextOrderId, ts % U64MOD, p, q, q, OrderSide.BUY, OrderType.LIMIT, OrderStatus.FILLED⟩ : Order)) a ((storeGet (storeSet (b.orders ++ [(b.nextOrderId, (⟨b.nextOrderId, ts % U64MOD, p, q, 0, OrderSide.BUY, OrderType.LIMIT, OrderStatus.NEW⟩ : Order))]) b.nextOrderId (⟨b.nextOrderId, ts % U64MOD, p, q, q, OrderSide.BUY, OrderType.LIMIT, OrderStatus.FILLED⟩ : Order)) a).fill q) hfindA1
    rw [h1a] at h3
    exact h3
  have h2o : storeGet (storeSet (storeSet (b.orders ++ [(b.nextOrderId, (⟨b.nextOrderId, ts % U64MOD, p, q, 0, OrderSide.BUY, OrderType.LIMIT, OrderStatus.NEW⟩ : Order))]) b.nextOrderId (⟨b.nextOrderId, ts % U64MOD, p, q, q, OrderSide.BUY, OrderType.LIMIT, OrderStatus.FILLED⟩ : Order)) a ((storeGet b.orders a).fill q)) b.nextOrderId = (⟨b.nextOrderId, ts % U64MOD, p, q, q, OrderSide.BUY, OrderType.LIMIT, OrderStatus.FILLED⟩ : Order) := by
    rw [storeGet_storeSet_ne _ _ _ _ (Ne.symm hane)]
    exact h1o
  have hOFfilled : ((⟨b.nextOrderId, ts % U64MOD, p, q, q, OrderSide.BUY, OrderType.LIMIT, OrderStatus.FILLED⟩ : Order)).isFilled = true := by
    simp [Order.isFilled]
  have hfqsum : add32 (storeGet b.orders a).filledQuantity q
      = (storeGet b.orders a).filledQuantity + q :=
    add32_eq_of_lt _ _ (by omega)
  have hstep : matchOrders b.nextOrderId (b.orders ++ [(b.nextOrderId, (⟨b.nextOrderId, ts % U64MOD, p, q, 0, OrderSide.BUY, OrderType.LIMIT, OrderStatus.NEW⟩ : Order))]) (b.mapKeys ++ [b.nextOrderId]) b.trades L
      = (if (((storeGet b.orders a).fill q)).isFilled then
           matchLoopFuel b.nextOrderId ((a :: rest).length) (storeSet (storeSet (b.orders ++ [(b.nextOrderId, (⟨b.nextOrderId, ts % U64MOD, p, q, 0, OrderSide.BUY, OrderType.LIMIT, OrderStatus.NEW⟩ : Order))]) b.nextOrderId (⟨b.nextOrderId, ts % U64MOD, p, q, q, OrderSide.BUY, OrderType.LIMIT, OrderStatus.FILLED⟩ : Order)) a ((storeGet b.orders a).fill q)) ((b.mapKeys ++ [b.nextOrderId]).filter (fun k => k != a)) (b.trades ++ [(⟨b.nextOrderId, a, L.price, q, ts % U64MOD⟩ : Trade)]) (PriceLevel.removeOrder (storeSet (storeSet (b.orders ++ [(b.nextOrderId, (⟨b.nextOrderId, ts % U64MOD, p, q, 0, OrderSide.BUY, OrderType.LIMIT, OrderStatus.NEW⟩ : Order))]) b.nextOrderId (⟨b.nextOrderId, ts % U64MOD, p, q, q, OrderSide.BUY, OrderType.LIMIT, OrderStatus.FILLED⟩ : Order)) a ((storeGet b.orders a).fill q)) L a)
         else ⟨(storeSet (storeSet (b.orders ++ [(b.nextOrderId, (⟨b.nextOrderId, ts % U64MOD, p, q, 0, OrderSide.BUY, OrderType.LIMIT, OrderStatus.NEW⟩ : Order))]) b.nextOrderId (⟨b.nextOrderId, ts % U64MOD, p, q, q, OrderSide.BUY, OrderType.LIMIT, OrderStatus.FILLED⟩ : Order)) a ((storeGet b.orders a).fill q)), (b.mapKeys ++ [b.nextOrderId]), (b.trades ++ [(⟨b.nextOrderId, a, L.price, q, ts % U64MOD⟩ : Trade)]), L⟩) := by
    rw [matchOrders, hqueue, matchLoopFuel_succ_cons _ _ _ _ _ _ a rest hnf hqueue]
    simp only [htq, hOfill, h1a, h2a, h2o]
    have hb1 : (((⟨b.nextOrderId, ts % U64MOD, p, q, q, OrderSide.BUY, OrderType.LIMIT, OrderStatus.FILLED⟩ : Order)).side == OrderSide.BUY) = true := rfl
    have hb2 : (((⟨b.nextOrderId, ts % U64MOD, p, q, q, OrderSide.BUY, OrderType.LIMIT, OrderStatus.FILLED⟩ : Order)).side == OrderSide.SELL) = false := rfl
    simp only [hb1, hb2, if_true, if_false]
    rw [fill_price, hap]
    rfl
  have hnlt : ¬ (storeGet (b.orders ++ [(b.nextOrderId, (⟨b.nextOrderId, ts % U64MOD, p, q, 0, OrderSide.BUY, OrderType.LIMIT, OrderStatus.NEW⟩ : Order))]) b.nextOrderId).price < L.price := by
    rw [hOget]
    simp only [not_lt]
    exact hcross
  have hloop0 : addBuyLoop b.nextOrderId (b.orders ++ [(b.nextOrderId, (⟨b.nextOrderId, ts % U64MOD, p, q, 0, OrderSide.BUY, OrderType.LIMIT, OrderStatus.NEW⟩ : Order))]) (b.mapKeys ++ [b.nextOrderId]) b.trades b.asks =
      (let m := matchOrders b.nextOrderId (b.orders ++ [(b.nextOrderId, (⟨b.nextOrderId, ts % U64MOD, p, q, 0, OrderSide.BUY, OrderType.LIMIT, OrderStatus.NEW⟩ : Order))]) (b.mapKeys ++ [b.nextOrderId]) b.trades L
       if m.level.isEmpty then addBuyLoop b.nextOrderId m.orders m.mapKeys m.trades Ls
       else ⟨m.orders, m.mapKeys, m.trades, m.level :: Ls⟩) := by
    rw [hasks]
    exact addBuyLoop_cons_cross _ _ _ _ _ _ hnf hnlt
  have hunfold : b.addOrder p q OrderSide.BUY ts
      = (OrderBook.addBuyOrder
          { b with orders := (b.orders ++ [(b.nextOrderId, (⟨b.nextOrderId, ts % U64MOD, p, q, 0, OrderSide.BUY, OrderType.LIMIT, OrderStatus.NEW⟩ : Order))]), mapKeys := (b.mapKeys ++ [b.nextOrderId]), nextOrderId := b.nextOrderId + 1 }
          b.nextOrderId, b.nextOrderId) := by
    simp only [OrderBook.addOrder, show (OrderSide.BUY == OrderSide.BUY) = true from rfl,
      if_true, hmq, hmp]
  rcases Nat.lt_or_ge q ((storeGet b.orders a).getRemainingQuantity) with hqlt | hqge
  · -- q < remaining(a): resting order not fully filled, level untouched
    have hqlt2 : q < (storeGet b.orders a).quantity - (storeGet b.orders a).filledQuantity :=
      hremA ▸ hqlt
    have hAfill : (((storeGet b.orders a).fill q)).isFilled = false := by
      simp only [Order.isFilled, fill_quantity, fill_filledQuantity, hfqsum,
        decide_eq_false_iff_not]
      omega
    have hmatch : matchOrders b.nextOrderId (b.orders ++ [(b.nextOrderId, (⟨b.nextOrderId, ts % U64MOD, p, q, 0, OrderSide.BUY, OrderType.LIMIT, OrderStatus.NEW⟩ : Order))]) (b.mapKeys ++ [b.nextOrderId]) b.trades L
        = ⟨(storeSet (storeSet (b.orders ++ [(b.nextOrderId, (⟨b.nextOrderId, ts % U64MOD, p, q, 0, OrderSide.BUY, OrderType.LIMIT, OrderStatus.NEW⟩ : Order))]) b.nextOrderId (⟨b.nextOrderId, ts % U64MOD, p, q, q, OrderSide.BUY, OrderType.LIMIT, OrderStatus.FILLED⟩ : Order)) a ((storeGet b.orders a).fill q)), (b.mapKeys ++ [b.nextOrderId]), (b.trades ++ [(⟨b.nextOrderId, a, L.price, q, ts % U64MOD⟩ : Trade)]), L⟩ := by
      rw [hstep, hAfill]
      simp
    have hLne : L.isEmpty = false := by
      simp [PriceLevel.isEmpty, hqueue]
    have hloop : addBuyLoop b.nextOrderId (b.orders ++ [(b.nextOrderId, (⟨b.nextOrderId, ts % U64MOD, p, q, 0, OrderSide.BUY, OrderType.LIMIT, OrderStatus.NEW⟩ : Order))]) (b.mapKeys ++ [b.nextOrderId]) b.trades b.asks
        = ⟨(storeSet (storeSet (b.orders ++ [(b.nextOrderId, (⟨b.nextOrderId, ts % U64MOD, p, q, 0, OrderSide.BUY, OrderType.LIMIT, OrderStatus.NEW⟩ : Order))]) b.nextOrderId (⟨b.nextOrderId, ts % U64MOD, p, q, q, OrderSide.BUY, OrderType.LIMIT, OrderStatus.FILLED⟩ : Order)) a ((storeGet b.orders a).fill q)), (b.mapKeys ++ [b.nextOrderId]), (b.trades ++ [(⟨b.nextOrderId, a, L.price, q, ts % U64MOD⟩ : Trade)]), L :: Ls⟩ := by
      rw [hloop0, hmatch]
      simp [hLne]
    have hres : b.addOrder p q OrderSide.BUY ts
        = ({ b with orders := (storeSet (storeSet (b.orders ++ [(b.nextOrderId, (⟨b.nextOrderId, ts % U64MOD, p, q, 0, OrderSide.BUY, OrderType.LIMIT, OrderStatus.NEW⟩ : Order))]) b.nextOrderId (⟨b.nextOrderId, ts % U64MOD, p, q, q, OrderSide.BUY, OrderType.LIMIT, OrderStatus.FILLED⟩ : Order)) a ((storeGet b.orders a).fill q)), mapKeys := (b.mapKeys ++ [b.nextOrderId]), trades := (b.trades ++ [(⟨b.nextOrderId, a, L.price, q, ts % U64MOD⟩ : Trade)]), asks := L :: Ls, nextOrderId := b.nextOrderId + 1 }, b.nextOrderId) := by
      rw [hunfold]
      simp only [OrderBook.addBuyOrder, hloop, h2o, hOFfilled]
      rfl
    rw [hres]
    refine ⟨rfl, rfl, ?_, ?_, hbest⟩
    · intro i hi
      have hia : i ≠ a := fun he => hanotrest (he ▸ hi)
      have hioid : i ≠ b.nextOrderId :=
        Nat.ne_of_lt (hfreshL i (by rw [hqueue]; exact List.mem_cons_of_mem a hi))
      show storeGet (storeSet (storeSet (b.orders ++ [(b.nextOrderId, (⟨b.nextOrderId, ts % U64MOD, p, q, 0, OrderSide.BUY, OrderType.LIMIT, OrderStatus.NEW⟩ : Order))]) b.nextOrderId (⟨b.nextOrderId, ts % U64MOD, p, q, q, OrderSide.BUY, OrderType.LIMIT, OrderStatus.FILLED⟩ : Order)) a ((storeGet b.orders a).fill q)) i = storeGet b.orders i
      rw [storeGet_storeSet_ne _ _ _ _ hia, storeGet_storeSet_ne _ _ _ _ hioid,
        storeGet_append_ne _ _ _ _ hioid]
    · intro i hi
      exact ⟨L, List.mem_cons_self L Ls, rfl, by rw [hqueue]; exact List.mem_cons_of_mem a hi⟩
  · -- q = remaining(a): resting order fully filled and popped
    have hqeq : q = (storeGet b.orders a).getRemainingQuantity := le_antisymm hqle hqge
    have hqeq2 : q = (storeGet b.orders a).quantity - (storeGet b.orders a).filledQuantity :=
      hremA ▸ hqeq
    have hAfill : (((storeGet b.orders a).fill q)).isFilled = true := by
      simp only [Order.isFilled, fill_quantity, fill_filledQuantity, hfqsum,
        decide_eq_true_eq]
      omega
    have hlvl2orders : ((PriceLevel.removeOrder (storeSet (storeSet (b.orders ++ [(b.nextOrderId, (⟨b.nextOrderId, ts % U64MOD, p, q, 0, OrderSide.BUY, OrderType.LIMIT, OrderStatus.NEW⟩ : Order))]) b.nextOrderId (⟨b.nextOrderId, ts % U64MOD, p, q, q, OrderSide.BUY, OrderType.LIMIT, OrderStatus.FILLED⟩ : Order)) a ((storeGet b.orders a).fill q)) L a)).orders = rest := by
      simp only [PriceLevel.removeOrder, hqueue]
      rw [List.filter_cons]
      simp only [show (a != a) = false from by simp, if_false]
      exact filter_bne_eq_self rest a hanotrest
    have hmatch : matchOrders b.nextOrderId (b.orders ++ [(b.nextOrderId, (⟨b.nextOrderId, ts % U64MOD, p, q, 0, OrderSide.BUY, OrderType.LIMIT, OrderStatus.NEW⟩ : Order))]) (b.mapKeys ++ [b.nextOrderId]) b.trades L
        = ⟨(storeSet (storeSet (b.orders ++ [(b.nextOrderId, (⟨b.nextOrderId, ts % U64MOD, p, q, 0, OrderSide.BUY, OrderType.LIMIT, OrderStatus.NEW⟩ : Order))]) b.nextOrderId (⟨b.nextOrderId, ts % U64MOD, p, q, q, OrderSide.BUY, OrderType.LIMIT, OrderStatus.FILLED⟩ : Order)) a ((storeGet b.orders a).fill q)), ((b.mapKeys ++ [b.nextOrderId]).filter (fun k => k != a)), (b.trades ++ [(⟨b.nextOrderId, a, L.price, q, ts % U64MOD⟩ : Trade)]), (PriceLevel.removeOrder (storeSet (storeSet (b.orders ++ [(b.nextOrderId, (⟨b.nextOrderId, ts % U64MOD, p, q, 0, OrderSide.BUY, OrderType.LIMIT, OrderStatus.NEW⟩ : Order))]) b.nextOrderId (⟨b.nextOrderId, ts % U64MOD, p, q, q, OrderSide.BUY, OrderType.LIMIT, OrderStatus.FILLED⟩ : Order)) a ((storeGet b.orders a).fill q)) L a)⟩ := by
      rw [hstep, hAfill]
      simp only [if_true]
      have hlen : (a :: rest).length = rest.length + 1 := rfl
      rw [hlen, matchLoopFuel_succ_filled _ _ _ _ _ _ (by rw [h2o]; exact hOFfilled)]
    have hres2 : (OrderBook.addBuyOrder
          { b with orders := (b.orders ++ [(b.nextOrderId, (⟨b.nextOrderId, ts % U64MOD, p, q, 0, OrderSide.BUY, OrderType.LIMIT, OrderStatus.NEW⟩ : Order))]), mapKeys := (b.mapKeys ++ [b.nextOrderId]), nextOrderId := b.nextOrderId + 1 }
          b.nextOrderId)
        = { b with orders := (storeSet (storeSet (b.orders ++ [(b.nextOrderId, (⟨b.nextOrderId, ts % U64MOD, p, q, 0, OrderSide.BUY, OrderType.LIMIT, OrderStatus.NEW⟩ : Order))]) b.nextOrderId (⟨b.nextOrderId, ts % U64MOD, p, q, q, OrderSide.BUY, OrderType.LIMIT, OrderStatus.FILLED⟩ : Order)) a ((storeGet b.orders a).fill q)), mapKeys := ((b.mapKeys ++ [b.nextOrderId]).filter (fun k => k != a)), trades := (b.trades ++ [(⟨b.nextOrderId, a, L.price, q, ts % U64MOD⟩ : Trade)]), asks := (if ((PriceLevel.removeOrder (storeSet (storeSet (b.orders ++ [(b.nextOrderId, (⟨b.nextOrderId, ts % U64MOD, p, q, 0, OrderSide.BUY, OrderType.LIMIT, OrderStatus.NEW⟩ : Order))]) b.nextOrderId (⟨b.nextOrderId, ts % U64MOD, p, q, q, OrderSide.BUY, OrderType.LIMIT, OrderStatus.FILLED⟩ : Order)) a ((storeGet b.orders a).fill q)) L a)).isEmpty then Ls else (PriceLevel.removeOrder (storeSet (storeSet (b.orders ++ [(b.nextOrderId, (⟨b.nextOrderId, ts % U64MOD, p, q, 0, OrderSide.BUY, OrderType.LIMIT, OrderStatus.NEW⟩ : Order))]) b.nextOrderId (⟨b.nextOrderId, ts % U64MOD, p, q, q, OrderSide.BUY, OrderType.LIMIT, OrderStatus.FILLED⟩ : Order)) a ((storeGet b.orders a).fill q)) L a) :: Ls), nextOrderId := b.nextOrderId + 1 } := by
      by_cases hE : ((PriceLevel.removeOrder (storeSet (storeSet (b.orders ++ [(b.nextOrderId, (⟨b.nextOrderId, ts % U64MOD, p, q, 0, OrderSide.BUY, OrderType.LIMIT, OrderStatus.NEW⟩ : Order))]) b.nextOrderId (⟨b.nextOrderId, ts % U64MOD, p, q, q, OrderSide.BUY, OrderType.LIMIT, OrderStatus.FILLED⟩ : Order)) a ((storeGet b.orders a).fill q)) L a)).isEmpty = true
      · simp only [OrderBook.addBuyOrder, hloop0, hmatch]
        simp only [hE, if_true]
        rw [addBuyLoop_of_filled _ _ _ _ _ (by rw [h2o]; exact hOFfilled)]
        simp only [h2o, hOFfilled, if_true]
      · simp only [OrderBook.addBuyOrder, hloop0, hmatch]
        simp only [hE, if_false, Bool.false_eq_true]
        simp only [h2o, hOFfilled, if_true]
    rw [hunfold, hres2]
    refine ⟨rfl, rfl, ?_, ?_, hbest⟩
    · intro i hi
      have hia : i ≠ a := fun he => hanotrest (he ▸ hi)
      have hioid : i ≠ b.nextOrderId :=
        Nat.ne_of_lt (hfreshL i (by rw [hqueue]; exact List.mem_cons_of_mem a hi))
      show storeGet (storeSet (storeSet (b.orders ++ [(b.nextOrderId, (⟨b.nextOrderId, ts % U64MOD, p, q, 0, OrderSide.BUY, OrderType.LIMIT, OrderStatus.NEW⟩ : Order))]) b.nextOrderId (⟨b.nextOrderId, ts % U64MOD, p, q, q, OrderSide.BUY, OrderType.LIMIT, OrderStatus.FILLED⟩ : Order)) a ((storeGet b.orders a).fill q)) i = storeGet b.orders i
      rw [storeGet_storeSet_ne _ _ _ _ hia, storeGet_storeSet_ne _ _ _ _ hioid,
        storeGet_append_ne _ _ _ _ hioid]
    · intro i hi
      have hrne : rest ≠ [] := fun hr => by
        rw [hr] at hi
        exact absurd hi (List.not_mem_nil i)
      have hE : ((PriceLevel.removeOrder (storeSet (storeSet (b.orders ++ [(b.nextOrderId, (⟨b.nextOrderId, ts % U64MOD, p, q, 0, OrderSide.BUY, OrderType.LIMIT, OrderStatus.NEW⟩ : Order))]) b.nextOrderId (⟨b.nextOrderId, ts % U64MOD, p, q, q, OrderSide.BUY, OrderType.LIMIT, OrderStatus.FILLED⟩ : Order)) a ((storeGet b.orders a).fill q)) L a)).isEmpty = false := by
        simp [PriceLevel.isEmpty, hlvl2orders, hrne]
      refine ⟨(PriceLevel.removeOrder (storeSet (storeSet (b.orders ++ [(b.nextOrderId, (⟨b.nextOrderId, ts % U64MOD, p, q, 0, OrderSide.BUY, OrderType.LIMIT, OrderStatus.NEW⟩ : Order))]) b.nextOrderId (⟨b.nextOrderId, ts % U64MOD, p, q, q, OrderSide.BUY, OrderType.LIMIT, OrderStatus.FILLED⟩ : Order)) a ((storeGet b.orders a).fill q)) L a), ?_, rfl, ?_⟩
      · simp only [hE, Bool.false_eq_true, if_false]
        exact List.mem_cons_self _ _
      · rw [hlvl2orders]
        exact hi

theorem storeGet_bounded (st : Store) (oid : Nat) (h : fillBounded st) :
    (storeGet st oid).filledQuantity ≤ (storeGet st oid).quantity ∧
    (storeGet st oid).quantity < U32MOD := by
  unfold storeGet
  cases hf : st.find? (fun pr => pr.1 == oid) with
  | none =>
    constructor
    · decide
    · decide
  | some pr =>
    have hmem : pr ∈ st := List.mem_of_find?_eq_some hf
    exact h pr hmem

theorem fill_bound (o : Order) (t : Nat)
    (hb : o.filledQuantity ≤ o.quantity ∧ o.quantity < U32MOD)
    (ht : t ≤ o.getRemainingQuantity) :
    (o.fill t).filledQuantity ≤ (o.fill t).quantity ∧ (o.fill t).quantity < U32MOD := by
  have hrem : o.getRemainingQuantity = o.quantity - o.filledQuantity := by
    simp only [Order.getRemainingQuantity]
    exact sub32_eq_of_le _ _ hb.1 hb.2
  rw [hrem] at ht
  have hsum : o.filledQuantity + t < U32MOD := by omega
  rw [fill_quantity, fill_filledQuantity, add32_eq_of_lt _ _ hsum]
  exact ⟨by omega, hb.2⟩

theorem storeSet_fillBounded (st : Store) (k : Nat) (o : Order) (h : fillBounded st)
    (ho : o.filledQuantity ≤ o.quantity ∧ o.quantity < U32MOD) :
    fillBounded (storeSet st k o) := by
  intro pr hpr
  rcases List.mem_map.mp hpr with ⟨pr0, hpr0, heq⟩
  by_cases hk : pr0.1 = k
  · have : pr = (k, o) := by rw [← heq]; simp [hk]
    rw [this]
    exact ho
  · have : pr = pr0 := by rw [← heq]; simp [hk]
    rw [this]
    exact h pr0 hpr0

theorem storeSet_idsBelow (st : Store) (k : Nat) (o : Order) (n : Nat)
    (h : ∀ pr ∈ st, pr.1 < n) : ∀ pr ∈ storeSet st k o, pr.1 < n := by
  intro pr hpr
  rcases List.mem_map.mp hpr with ⟨pr0, hpr0, heq⟩
  by_cases hk : pr0.1 = k
  · have h2 : pr = (k, o) := by rw [← heq]; simp [hk]
    rw [h2]
    exact hk ▸ h pr0 hpr0
  · have h2 : pr = pr0 := by rw [← heq]; simp [hk]
    rw [h2]
    exact h pr0 hpr0

theorem matchLoopFuel_succ_nil (incId fuel : Nat) (st : Store) (keys : List Nat)
    (tr : List Trade) (lvl : PriceLevel)
    (hq : lvl.orders = []) :
    matchLoopFuel incId (fuel + 1) st keys tr lvl = ⟨st, keys, tr, lvl⟩ := by
  conv_lhs => rw [matchLoopFuel]
  rw [hq]
  by_cases hf : (storeGet st incId).isFilled = true <;> simp [hf]

theorem matchLoopFuel_succ_cons_explicit (incId fuel : Nat) (st : Store)
    (keys : List Nat) (tr : List Trade) (lvl : PriceLevel) (r : Nat) (rest2 : List Nat)
    (hnf : (storeGet st incId).isFilled = false) (hq : lvl.orders = r :: rest2) :
    matchLoopFuel incId (fuel + 1) st keys tr lvl =
      (if (storeGet (storeSet (storeSet st incId ((storeGet st incId).fill (min (storeGet st incId).getRemainingQuantity (storeGet st r).getRemainingQuantity))) r ((storeGet (storeSet st incId ((storeGet st incId).fill (min (storeGet st incId).getRemainingQuantity (storeGet st r).getRemainingQuantity))) r).fill (min (storeGet st incId).getRemainingQuantity (storeGet st r).getRemainingQuantity))) r).isFilled then
        matchLoopFuel incId fuel (storeSet (storeSet st incId ((storeGet st incId).fill (min (storeGet st incId).getRemainingQuantity (storeGet st r).getRemainingQuantity))) r ((storeGet (storeSet st incId ((storeGet st incId).fill (min (storeGet st incId).getRemainingQuantity (storeGet st r).getRemainingQuantity))) r).fill (min (storeGet st incId).getRemainingQuantity (storeGet st r).getRemainingQuantity))) (keys.filter (fun k => k != r)) (tr ++ [(⟨(if (storeGet (storeSet (storeSet st incId ((storeGet st incId).fill (min (storeGet st incId).getRemainingQuantity (storeGet st r).getRemainingQuantity))) r ((storeGet (storeSet st incId ((storeGet st incId).fill (min (storeGet st incId).getRemainingQuantity (storeGet st r).getRemainingQuantity))) r).fill (min (storeGet st incId).getRemainingQuantity (storeGet st r).getRemainingQuantity))) incId).side == OrderSide.BUY then incId else r), (if (storeGet (storeSet (storeSet st incId ((storeGet st incId).fill (min (storeGet st incId).getRemainingQuantity (storeGet st r).getRemainingQuantity))) r ((storeGet (storeSet st incId ((storeGet st incId).fill (min (storeGet st incId).getRemainingQuantity (storeGet st r).getRemainingQuantity))) r).fill (min (storeGet st incId).getRemainingQuantity (storeGet st r).getRemainingQuantity))) incId).side == OrderSide.SELL then incId else r), (storeGet (storeSet (storeSet st incId ((storeGet st incId).fill (min (storeGet st incId).getRemainingQuantity (storeGet st r).getRemainingQuantity))) r ((storeGet (storeSet st incId ((storeGet st incId).fill (min (storeGet st incId).getRemainingQuantity (storeGet st r).getRemainingQuantity))) r).fill (min (storeGet st incId).getRemainingQuantity (storeGet st r).getRemainingQuantity))) r).price, (min (storeGet st incId).getRemainingQuantity (storeGet st r).getRemainingQuantity), (storeGet (storeSet (storeSet st incId ((storeGet st incId).fill (min (storeGet st incId).getRemainingQuantity (storeGet st r).getRemainingQuantity))) r ((storeGet (storeSet st incId ((storeGet st incId).fill (min (storeGet st incId).getRemainingQuantity (storeGet st r).getRemainingQuantity))) r).fill (min (storeGet st incId).getRemainingQuantity (storeGet st r).getRemainingQuantity))) incId).timestamp⟩ : Trade)])
          (lvl.removeOrder (storeSet (storeSet st incId ((storeGet st incId).fill (min (storeGet st incId).getRemainingQuantity (storeGet st r).getRemainingQuantity))) r ((storeGet (storeSet st incId ((storeGet st incId).fill (min (storeGet st incId).getRemainingQuantity (storeGet st r).getRemainingQuantity))) r).fill (min (storeGet st incId).getRemainingQuantity (storeGet st r).getRemainingQuantity))) r)
      else ⟨(storeSet (storeSet st incId ((storeGet st incId).fill (min (storeGet st incId).getRemainingQuantity (storeGet st r).getRemainingQuantity))) r ((storeGet (storeSet st incId ((storeGet st incId).fill (min (storeGet st incId).getRemainingQuantity (storeGet st r).getRemainingQuantity))) r).fill (min (storeGet st incId).getRemainingQuantity (storeGet st r).getRemainingQuantity))), keys, (tr ++ [(⟨(if (storeGet (storeSet (storeSet st incId ((storeGet st incId).fill (min (storeGet st incId).getRemainingQuantity (storeGet st r).getRemainingQuantity))) r ((storeGet (storeSet st incId ((storeGet st incId).fill (min (storeGet st incId).getRemainingQuantity (storeGet st r).getRemainingQuantity))) r).fill (min (storeGet st incId).getRemainingQuantity (storeGet st r).getRemainingQuantity))) incId).side == OrderSide.BUY then incId else r), (if (storeGet (storeSet (storeSet st incId ((storeGet st incId).fill (min (storeGet st incId).getRemainingQuantity (storeGet st r).getRemainingQuantity))) r ((storeGet (storeSet st incId ((storeGet st incId).fill (min (storeGet st incId).getRemainingQuantity (storeGet st r).getRemainingQuantity))) r).fill (min (storeGet st incId).getRemainingQuantity (storeGet st r).getRemainingQuantity))) incId).side == OrderSide.SELL then incId else r), (storeGet (storeSet (storeSet st incId ((storeGet st incId).fill (min (storeGet st incId).getRemainingQuantity (storeGet st r).getRemainingQuantity))) r ((storeGet (storeSet st incId ((storeGet st incId).fill (min (storeGet st incId).getRemainingQuantity (storeGet st r).getRemainingQuantity))) r).fill (min (storeGet st incId).getRemainingQuantity (storeGet st r).getRemainingQuantity))) r).price, (min (storeGet st incId).getRemainingQuantity (storeGet st r).getRemainingQuantity), (storeGet (storeSet (storeSet st incId ((storeGet st incId).fill (min (storeGet st incId).getRemainingQuantity (storeGet st r).getRemainingQuantity))) r ((storeGet (storeSet st incId ((storeGet st incId).fill (min (storeGet st incId).getRemainingQuantity (storeGet st r).getRemainingQuantity))) r).fill (min (storeGet st incId).getRemainingQuantity (storeGet st r).getRemainingQuantity))) incId).timestamp⟩ : Trade)]), lvl⟩) := by
  conv_lhs => rw [matchLoopFuel]
  rw [hnf, hq]
  rfl

theorem storeSet_map_fst (st : Store) (k : Nat) (o : Order) :
    (storeSet st k o).map Prod.fst = st.map Prod.fst := by
  unfold storeSet
  rw [List.map_map]
  apply List.map_congr_left
  intro p _
  by_cases hk : p.1 = k <;> simp [hk]

theorem storeGet_storeSet_none (st : Store) (k : Nat) (o : Order)
    (h : st.find? (fun pr => pr.1 == k) = none) :
    storeGet (storeSet st k o) k = storeGet st k := by
  induction st with
  | nil => rfl
  | cons hd tl ih =>
    rw [List.find?_cons] at h
    cases hf : (hd.1 == k) with
    | true => rw [hf] at h; simp at h
    | false =>
      rw [hf] at h
      simp only at h
      have hk : hd.1 ≠ k := by simpa using hf
      rw [storeSet_cons, if_neg hk, storeGet_cons, storeGet_cons, if_neg hk, if_neg hk]
      exact ih h

theorem storeGet_storeSet_self_or (st : Store) (k : Nat) (o : Order) :
    storeGet (storeSet st k o) k = o ∨ storeGet (storeSet st k o) k = storeGet st k := by
  cases hf : st.find? (fun pr => pr.1 == k) with
  | some pr =>
    exact Or.inl (storeGet_storeSet_self st k o (by rw [hf]; rfl))
  | none =>
    exact Or.inr (storeGet_storeSet_none st k o hf)

theorem storeGet_price_after_fillSet (st : Store) (k : Nat) (t : Nat) :
    (storeGet (storeSet st k ((storeGet st k).fill t)) k).price = (storeGet st k).price := by
  rcases storeGet_storeSet_self_or st k ((storeGet st k).fill t) with h | h
  · rw [h, fill_price]
  · rw [h]

/-- Bundled frame and boundedness facts for one `matchOrders` run: store
stays fill-bounded, the level's queue only loses orders and keeps its
price, orderMap keys are only removed, and only removed for orders in
the queue, and orders outside the queue other than the incoming one are
untouched. -/
theorem matchLoop_inv (incId : Nat) :
    ∀ (fuel : Nat) (st : Store) (keys : List Nat) (tr : List Trade) (lvl : PriceLevel),
      fillBounded st → incId ∉ lvl.orders →
      fillBounded (matchLoopFuel incId fuel st keys tr lvl).orders ∧
      (∀ k ∈ (matchLoopFuel incId fuel st keys tr lvl).level.orders, k ∈ lvl.orders) ∧
      (∀ k ∈ (matchLoopFuel incId fuel st keys tr lvl).mapKeys, k ∈ keys) ∧
      (∀ k ∈ keys, k ∉ lvl.orders → k ∈ (matchLoopFuel incId fuel st keys tr lvl).mapKeys) ∧
      (matchLoopFuel incId fuel st keys tr lvl).level.price = lvl.price ∧
      (∀ j, j ≠ incId → j ∉ lvl.orders →
        storeGet (matchLoopFuel incId fuel st keys tr lvl).orders j = storeGet st j) ∧
      (matchLoopFuel incId fuel st keys tr lvl).orders.map Prod.fst = st.map Prod.fst ∧
      (storeGet (matchLoopFuel incId fuel st keys tr lvl).orders incId).price
        = (storeGet st incId).price := by
  intro fuel
  induction fuel with
  | zero =>
    intro st keys tr lvl hB _
    exact ⟨hB, fun k hk => hk, fun k hk => hk, fun k hk _ => hk, rfl, fun j _ _ => rfl, rfl, rfl⟩
  | succ fuel ih =>
    intro st keys tr lvl hB hni
    by_cases hf : (storeGet st incId).isFilled = true
    · rw [matchLoopFuel_succ_filled _ _ _ _ _ _ hf]
      exact ⟨hB, fun k hk => hk, fun k hk => hk, fun k hk _ => hk, rfl, fun j _ _ => rfl, rfl, rfl⟩
    · have hf2 : (storeGet st incId).isFilled = false := by
        revert hf
        cases (storeGet st incId).isFilled <;> simp
      have hsplit : lvl.orders = [] ∨ ∃ r rest2, lvl.orders = r :: rest2 := by
        cases lvl.orders with
        | nil => exact Or.inl rfl
        | cons x xs => exact Or.inr ⟨x, xs, rfl⟩
      rcases hsplit with hq | ⟨r, rest2, hq⟩
      · rw [matchLoopFuel_succ_nil _ _ _ _ _ _ hq]
        exact ⟨hB, fun k hk => hk, fun k hk => hk, fun k hk _ => hk, rfl, fun j _ _ => rfl, rfl, rfl⟩
      · have hrin : r ∈ lvl.orders := by rw [hq]; exact List.mem_cons_self _ _
        have hrne : r ≠ incId := fun he => hni (he ▸ hrin)
        have hBinc := storeGet_bounded st incId hB
        have hBr := storeGet_bounded st r hB
        have h1B : fillBounded (storeSet st incId ((storeGet st incId).fill (min (storeGet st incId).getRemainingQuantity (storeGet st r).getRemainingQuantity))) :=
          storeSet_fillBounded _ _ _ hB (fill_bound _ _ hBinc (min_le_left _ _))
        have hg1r : storeGet (storeSet st incId ((storeGet st incId).fill (min (storeGet st incId).getRemainingQuantity (storeGet st r).getRemainingQuantity))) r = storeGet st r :=
          storeGet_storeSet_ne _ _ _ _ hrne
        have h2B : fillBounded (storeSet (storeSet st incId ((storeGet st incId).fill (min (storeGet st incId).getRemainingQuantity (storeGet st r).getRemainingQuantity))) r ((storeGet (storeSet st incId ((storeGet st incId).fill (min (storeGet st incId).getRemainingQuantity (storeGet st r).getRemainingQuantity))) r).fill (min (storeGet st incId).getRemainingQuantity (storeGet st r).getRemainingQuantity))) := by
          apply storeSet_fillBounded _ _ _ h1B
          rw [hg1r]
          exact fill_bound _ _ hBr (min_le_right _ _)
        have hframe2 : ∀ j, j ≠ incId → j ≠ r → storeGet (storeSet (storeSet st incId ((storeGet st incId).fill (min (storeGet st incId).getRemainingQuantity (storeGet st r).getRemainingQuantity))) r ((storeGet (storeSet st incId ((storeGet st incId).fill (min (storeGet st incId).getRemainingQuantity (storeGet st r).getRemainingQuantity))) r).fill (min (storeGet st incId).getRemainingQuantity (storeGet st r).getRemainingQuantity))) j = storeGet st j := by
          intro j hji hjr
          rw [storeGet_storeSet_ne _ _ _ _ hjr, storeGet_storeSet_ne _ _ _ _ hji]
        rw [matchLoopFuel_succ_cons_explicit _ _ _ _ _ _ r rest2 hf2 hq]
        by_cases hRf : (storeGet (storeSet (storeSet st incId ((storeGet st incId).fill (min (storeGet st incId).getRemainingQuantity (storeGet st r).getRemainingQuantity))) r ((storeGet (storeSet st incId ((storeGet st incId).fill (min (storeGet st incId).getRemainingQuantity (storeGet st r).getRemainingQuantity))) r).fill (min (storeGet st incId).getRemainingQuantity (storeGet st r).getRemainingQuantity))) r).isFilled = true
        · rw [if_pos hRf]
          have hsub : ∀ k ∈ (lvl.removeOrder (storeSet (storeSet st incId ((storeGet st incId).fill (min (storeGet st incId).getRemainingQuantity (storeGet st r).getRemainingQuantity))) r ((storeGet (storeSet st incId ((storeGet st incId).fill (min (storeGet st incId).getRemainingQuantity (storeGet st r).getRemainingQuantity))) r).fill (min (storeGet st incId).getRemainingQuantity (storeGet st r).getRemainingQuantity))) r).orders, k ∈ lvl.orders := by
            intro k hk
            exact List.mem_of_mem_filter hk
          have hni2 : incId ∉ (lvl.removeOrder (storeSet (storeSet st incId ((storeGet st incId).fill (min (storeGet st incId).getRemainingQuantity (storeGet st r).getRemainingQuantity))) r ((storeGet (storeSet st incId ((storeGet st incId).fill (min (storeGet st incId).getRemainingQuantity (storeGet st r).getRemainingQuantity))) r).fill (min (storeGet st incId).getRemainingQuantity (storeGet st r).getRemainingQuantity))) r).orders :=
            fun hmem => hni (hsub _ hmem)
          have hrec := ih (storeSet (storeSet st incId ((storeGet st incId).fill (min (storeGet st incId).getRemainingQuantity (storeGet st r).getRemainingQuantity))) r ((storeGet (storeSet st incId ((storeGet st incId).fill (min (storeGet st incId).getRemainingQuantity (storeGet st r).getRemainingQuantity))) r).fill (min (storeGet st incId).getRemainingQuantity (storeGet st r).getRemainingQuantity))) (keys.filter (fun k => k != r)) (tr ++ [(⟨(if (storeGet (storeSet (storeSet st incId ((storeGet st incId).fill (min (storeGet st incId).getRemainingQuantity (storeGet st r).getRemainingQuantity))) r ((storeGet (storeSet st incId ((storeGet st incId).fill (min (storeGet st incId).getRemainingQuantity (storeGet st r).getRemainingQuantity))) r).fill (min (storeGet st incId).getRemainingQuantity (storeGet st r).getRemainingQuantity))) incId).side == OrderSide.BUY then incId else r), (if (storeGet (storeSet (storeSet st incId ((storeGet st incId).fill (min (storeGet st incId).getRemainingQuantity (storeGet st r).getRemainingQuantity))) r ((storeGet (storeSet st incId ((storeGet st incId).fill (min (storeGet st incId).getRemainingQuantity (storeGet st r).getRemainingQuantity))) r).fill (min (storeGet st incId).getRemainingQuantity (storeGet st r).getRemainingQuantity))) incId).side == OrderSide.SELL then incId else r), (storeGet (storeSet (storeSet st incId ((storeGet st incId).fill (min (storeGet st incId).getRemainingQuantity (storeGet st r).getRemainingQuantity))) r ((storeGet (storeSet st incId ((storeGet st incId).fill (min (storeGet st incId).getRemainingQuantity (storeGet st r).getRemainingQuantity))) r).fill (min (storeGet st incId).getRemainingQuantity (storeGet st r).getRemainingQuantity))) r).price, (min (storeGet st incId).getRemainingQuantity (storeGet st r).getRemainingQuantity), (storeGet (storeSet (storeSet st incId ((storeGet st incId).fill (min (storeGet st incId).getRemainingQuantity (storeGet st r).getRemainingQuantity))) r ((storeGet (storeSet st incId ((storeGet st incId).fill (min (storeGet st incId).getRemainingQuantity (storeGet st r).getRemainingQuantity))) r).fill (min (storeGet st incId).getRemainingQuantity (storeGet st r).getRemainingQuantity))) incId).timestamp⟩ : Trade)])
            (lvl.removeOrder (storeSet (storeSet st incId ((storeGet st incId).fill (min (storeGet st incId).getRemainingQuantity (storeGet st r).getRemainingQuantity))) r ((storeGet (storeSet st incId ((storeGet st incId).fill (min (storeGet st incId).getRemainingQuantity (storeGet st r).getRemainingQuantity))) r).fill (min (storeGet st incId).getRemainingQuantity (storeGet st r).getRemainingQuantity))) r) h2B hni2
          refine ⟨hrec.1, ?_, ?_, ?_, ?_, ?_, ?_, ?_⟩
          · intro k hk
            exact hsub _ (hrec.2.1 k hk)
          · intro k hk
            exact List.mem_of_mem_filter (hrec.2.2.1 k hk)
          · intro k hk hkl
            have hkr : k ≠ r := fun he => hkl (he ▸ hrin)
            have hkf : k ∈ keys.filter (fun k2 => k2 != r) := by
              rw [List.mem_filter]
              exact ⟨hk, by simpa using hkr⟩
            have hkl2 : k ∉ (lvl.removeOrder (storeSet (storeSet st incId ((storeGet st incId).fill (min (storeGet st incId).getRemainingQuantity (storeGet st r).getRemainingQuantity))) r ((storeGet (storeSet st incId ((storeGet st incId).fill (min (storeGet st incId).getRemainingQuantity (storeGet st r).getRemainingQuantity))) r).fill (min (storeGet st incId).getRemainingQuantity (storeGet st r).getRemainingQuantity))) r).orders :=
              fun hmem => hkl (hsub _ hmem)
            exact hrec.2.2.2.1 k hkf hkl2
          · rw [hrec.2.2.2.2.1]
            rfl
          · intro j hji hjl
            have hjr : j ≠ r := fun he => hjl (he ▸ hrin)
            have hjl2 : j ∉ (lvl.removeOrder (storeSet (storeSet st incId ((storeGet st incId).fill (min (storeGet st incId).getRemainingQuantity (storeGet st r).getRemainingQuantity))) r ((storeGet (storeSet st incId ((storeGet st incId).fill (min (storeGet st incId).getRemainingQuantity (storeGet st r).getRemainingQuantity))) r).fill (min (storeGet st incId).getRemainingQuantity (storeGet st r).getRemainingQuantity))) r).orders :=
              fun hmem => hjl (hsub _ hmem)
            rw [hrec.2.2.2.2.2.1 j hji hjl2]
            exact hframe2 j hji hjr
          · rw [hrec.2.2.2.2.2.2.1, storeSet_map_fst, storeSet_map_fst]
          · rw [hrec.2.2.2.2.2.2.2,
              storeGet_storeSet_ne _ _ _ _ (Ne.symm hrne)]
            exact storeGet_price_after_fillSet st incId (min (storeGet st incId).getRemainingQuantity (storeGet st r).getRemainingQuantity)
        · rw [if_neg hRf]
          refine ⟨h2B, fun k hk => hk, fun k hk => hk, fun k hk _ => hk, rfl, ?_, ?_, ?_⟩
          · intro j hji hjl
            have hjr : j ≠ r := fun he => hjl (he ▸ hrin)
            exact hframe2 j hji hjr
          · rw [storeSet_map_fst, storeSet_map_fst]
          · rw [storeGet_storeSet_ne _ _ _ _ (Ne.symm hrne)]
            exact storeGet_price_after_fillSet st incId (min (storeGet st incId).getRemainingQuantity (storeGet st r).getRemainingQuantity)

theorem matchOrders_inv (incId : Nat) (st : Store) (keys : List Nat) (tr : List Trade)
    (lvl : PriceLevel) (hB : fillBounded st) (hni : incId ∉ lvl.orders) :
    fillBounded (matchOrders incId st keys tr lvl).orders ∧
    (∀ k ∈ (matchOrders incId st keys tr lvl).level.orders, k ∈ lvl.orders) ∧
    (∀ k ∈ (matchOrders incId st keys tr lvl).mapKeys, k ∈ keys) ∧
    (∀ k ∈ keys, k ∉ lvl.orders → k ∈ (matchOrders incId st keys tr lvl).mapKeys) ∧
    (matchOrders incId st keys tr lvl).level.price = lvl.price ∧
    (∀ j, j ≠ incId → j ∉ lvl.orders →
      storeGet (matchOrders incId st keys tr lvl).orders j = storeGet st j) ∧
    (matchOrders incId st keys tr lvl).orders.map Prod.fst = st.map Prod.fst ∧
    (storeGet (matchOrders incId st keys tr lvl).orders incId).price
      = (storeGet st incId).price :=
  matchLoop_inv incId (lvl.orders.length + 1) st keys tr lvl hB hni

/-- Bundled frame facts for the ladder-walking loop of `addBuyOrder`:
store stays fill-bounded and its key set is unchanged, every order id
still queued somewhere was queued before, orderMap keys are only
removed, and only for queued orders, orders other than the incoming one
that rest in no touched level are unchanged, the incoming order's price
is stable, and every surviving level carries a price the ladder already
had. -/
theorem addBuyLoop_inv (oid : Nat) :
    ∀ (ladder : List PriceLevel) (st : Store) (keys : List Nat) (tr : List Trade),
      fillBounded st → (∀ l ∈ ladder, oid ∉ l.orders) →
      fillBounded (addBuyLoop oid st keys tr ladder).orders ∧
      (∀ l2 ∈ (addBuyLoop oid st keys tr ladder).ladder, ∀ k ∈ l2.orders,
        ∃ l ∈ ladder, k ∈ l.orders) ∧
      (∀ k ∈ (addBuyLoop oid st keys tr ladder).mapKeys, k ∈ keys) ∧
      (∀ k ∈ keys, (∀ l ∈ ladder, k ∉ l.orders) →
        k ∈ (addBuyLoop oid st keys tr ladder).mapKeys) ∧
      (∀ j, j ≠ oid → (∀ l ∈ ladder, j ∉ l.orders) →
        storeGet (addBuyLoop oid st keys tr ladder).orders j = storeGet st j) ∧
      (addBuyLoop oid st keys tr ladder).orders.map Prod.fst = st.map Prod.fst ∧
      (storeGet (addBuyLoop oid st keys tr ladder).orders oid).price
        = (storeGet st oid).price ∧
      (∀ l2 ∈ (addBuyLoop oid st keys tr ladder).ladder, ∃ l ∈ ladder,
        l2.price = l.price) := by
  intro ladder
  induction ladder with
  | nil =>
    intro st keys tr hB _
    exact ⟨hB, by simp [addBuyLoop], fun k hk => hk, fun k hk _ => hk,
      fun j _ _ => rfl, rfl, rfl, by simp [addBuyLoop]⟩
  | cons best rest ih =>
    intro st keys tr hB hlad
    have hnibest : oid ∉ best.orders := hlad best (List.mem_cons_self _ _)
    obtain ⟨hm1, hm2, hm3, hm4, hm5, hm6, hm7, hm8⟩ :=
      matchOrders_inv oid st keys tr best hB hnibest
    by_cases hf : (storeGet st oid).isFilled = true
    · rw [show addBuyLoop oid st keys tr (best :: rest) = ⟨st, keys, tr, best :: rest⟩
        from by simp [addBuyLoop, hf]]
      exact ⟨hB, fun l2 hl2 k hk => ⟨l2, hl2, hk⟩, fun k hk => hk, fun k hk _ => hk,
        fun j _ _ => rfl, rfl, rfl, fun l2 hl2 => ⟨l2, hl2, rfl⟩⟩
    · have hf2 : (storeGet st oid).isFilled = false := by
        revert hf
        cases (storeGet st oid).isFilled <;> simp
      by_cases hlt : (storeGet st oid).price < best.price
      · rw [show addBuyLoop oid st keys tr (best :: rest) = ⟨st, keys, tr, best :: rest⟩
          from by simp [addBuyLoop, hf2, hlt]]
        exact ⟨hB, fun l2 hl2 k hk => ⟨l2, hl2, hk⟩, fun k hk => hk, fun k hk _ => hk,
          fun j _ _ => rfl, rfl, rfl, fun l2 hl2 => ⟨l2, hl2, rfl⟩⟩
      · rw [show addBuyLoop oid st keys tr (best :: rest)
            = (if (matchOrders oid st keys tr best).level.isEmpty then
                addBuyLoop oid (matchOrders oid st keys tr best).orders (matchOrders oid st keys tr best).mapKeys (matchOrders oid st keys tr best).trades rest
              else ⟨(matchOrders oid st keys tr best).orders, (matchOrders oid st keys tr best).mapKeys, (matchOrders oid st keys tr best).trades, (matchOrders oid st keys tr best).level :: rest⟩)
          from by simp [addBuyLoop, hf2, hlt]]
        by_cases hEmp : ((matchOrders oid st keys tr best)).level.isEmpty = true
        · rw [if_pos hEmp]
          have hrest : ∀ l ∈ rest, oid ∉ l.orders :=
            fun l hl => hlad l (List.mem_cons_of_mem _ hl)
          obtain ⟨hr1, hr2, hr3, hr4, hr5, hr6, hr7, hr8⟩ :=
            ih (matchOrders oid st keys tr best).orders (matchOrders oid st keys tr best).mapKeys (matchOrders oid st keys tr best).trades hm1 hrest
          refine ⟨hr1, ?_, ?_, ?_, ?_, ?_, ?_, ?_⟩
          · intro l2 hl2 k hk
            obtain ⟨l, hl, hkl⟩ := hr2 l2 hl2 k hk
            exact ⟨l, List.mem_cons_of_mem _ hl, hkl⟩
          · intro k hk
            exact hm3 k (hr3 k hk)
          · intro k hk hkn
            exact hr4 k (hm4 k hk (hkn best (List.mem_cons_self _ _)))
              (fun l hl => hkn l (List.mem_cons_of_mem _ hl))
          · intro j hj hjn
            rw [hr5 j hj (fun l hl => hjn l (List.mem_cons_of_mem _ hl))]
            exact hm6 j hj (hjn best (List.mem_cons_self _ _))
          · rw [hr6, hm7]
          · rw [hr7, hm8]
          · intro l2 hl2
            obtain ⟨l, hl, hpl⟩ := hr8 l2 hl2
            exact ⟨l, List.mem_cons_of_mem _ hl, hpl⟩
        · rw [if_neg hEmp]
          refine ⟨hm1, ?_, hm3, ?_, ?_, hm7, hm8, ?_⟩
          · intro l2 hl2 k hk
            rw [List.mem_cons] at hl2
            rcases hl2 with hl2 | hl2
            · exact ⟨best, List.mem_cons_self _ _, hm2 k (hl2 ▸ hk)⟩
            · exact ⟨l2, List.mem_cons_of_mem _ hl2, hk⟩
          · intro k hk hkn
            exact hm4 k hk (hkn best (List.mem_cons_self _ _))
          · intro j hj hjn
            exact hm6 j hj (hjn best (List.mem_cons_self _ _))
          · intro l2 hl2
            rw [List.mem_cons] at hl2
            rcases hl2 with hl2 | hl2
            · exact ⟨best, List.mem_cons_self _ _, hl2 ▸ hm5⟩
            · exact ⟨l2, List.mem_cons_of_mem _ hl2, rfl⟩

theorem addSellLoop_inv (oid : Nat) :
    ∀ (ladder : List PriceLevel) (st : Store) (keys : List Nat) (tr : List Trade),
      fillBounded st → (∀ l ∈ ladder, oid ∉ l.orders) →
      fillBounded (addSellLoop oid st keys tr ladder).orders ∧
      (∀ l2 ∈ (addSellLoop oid st keys tr ladder).ladder, ∀ k ∈ l2.orders,
        ∃ l ∈ ladder, k ∈ l.orders) ∧
      (∀ k ∈ (addSellLoop oid st keys tr ladder).mapKeys, k ∈ keys) ∧
      (∀ k ∈ keys, (∀ l ∈ ladder, k ∉ l.orders) →
        k ∈ (addSellLoop oid st keys tr ladder).mapKeys) ∧
      (∀ j, j ≠ oid → (∀ l ∈ ladder, j ∉ l.orders) →
        storeGet (addSellLoop oid st keys tr ladder).orders j = storeGet st j) ∧
      (addSellLoop oid st keys tr ladder).orders.map Prod.fst = st.map Prod.fst ∧
      (storeGet (addSellLoop oid st keys tr ladder).orders oid).price
        = (storeGet st oid).price ∧
      (∀ l2 ∈ (addSellLoop oid st keys tr ladder).ladder, ∃ l ∈ ladder,
        l2.price = l.price) := by
  intro ladder
  induction ladder with
  | nil =>
    intro st keys tr hB _
    exact ⟨hB, by simp [addSellLoop], fun k hk => hk, fun k hk _ => hk,
      fun j _ _ => rfl, rfl, rfl, by simp [addSellLoop]⟩
  | cons best rest ih =>
    intro st keys tr hB hlad
    have hnibest : oid ∉ best.orders := hlad best (List.mem_cons_self _ _)
    obtain ⟨hm1, hm2, hm3, hm4, hm5, hm6, hm7, hm8⟩ :=
      matchOrders_inv oid st keys tr best hB hnibest
    by_cases hf : (storeGet st oid).isFilled = true
    · rw [show addSellLoop oid st keys tr (best :: rest) = ⟨st, keys, tr, best :: rest⟩
        from by simp [addSellLoop, hf]]
      exact ⟨hB, fun l2 hl2 k hk => ⟨l2, hl2, hk⟩, fun k hk => hk, fun k hk _ => hk,
        fun j _ _ => rfl, rfl, rfl, fun l2 hl2 => ⟨l2, hl2, rfl⟩⟩
    · have hf2 : (storeGet st oid).isFilled = false := by
        revert hf
        cases (storeGet st oid).isFilled <;> simp
      by_cases hlt : best.price < (storeGet st oid).price
      · rw [show addSellLoop oid st keys tr (best :: rest) = ⟨st, keys, tr, best :: rest⟩
          from by simp [addSellLoop, hf2, hlt]]
        exact ⟨hB, fun l2 hl2 k hk => ⟨l2, hl2, hk⟩, fun k hk => hk, fun k hk _ => hk,
          fun j _ _ => rfl, rfl, rfl, fun l2 hl2 => ⟨l2, hl2, rfl⟩⟩
      · rw [show addSellLoop oid st keys tr (best :: rest)
            = (if (matchOrders oid st keys tr best).level.isEmpty then
                addSellLoop oid (matchOrders oid st keys tr best).orders (matchOrders oid st keys tr best).mapKeys (matchOrders oid st keys tr best).trades rest
              else ⟨(matchOrders oid st keys tr best).orders, (matchOrders oid st keys tr best).mapKeys, (matchOrders oid st keys tr best).trades, (matchOrders oid st keys tr best).level :: rest⟩)
          from by simp [addSellLoop, hf2, hlt]]
        by_cases hEmp : ((matchOrders oid st keys tr best)).level.isEmpty = true
        · rw [if_pos hEmp]
          have hrest : ∀ l ∈ rest, oid ∉ l.orders :=
            fun l hl => hlad l (List.mem_cons_of_mem _ hl)
          obtain ⟨hr1, hr2, hr3, hr4, hr5, hr6, hr7, hr8⟩ :=
            ih (matchOrders oid st keys tr best).orders (matchOrders oid st keys tr best).mapKeys (matchOrders oid st keys tr best).trades hm1 hrest
          refine ⟨hr1, ?_, ?_, ?_, ?_, ?_, ?_, ?_⟩
          · intro l2 hl2 k hk
            obtain ⟨l, hl, hkl⟩ := hr2 l2 hl2 k hk
            exact ⟨l, List.mem_cons_of_mem _ hl, hkl⟩
          · intro k hk
            exact hm3 k (hr3 k hk)
          · intro k hk hkn
            exact hr4 k (hm4 k hk (hkn best (List.mem_cons_self _ _)))
              (fun l hl => hkn l (List.mem_cons_of_mem _ hl))
          · intro j hj hjn
            rw [hr5 j hj (fun l hl => hjn l (List.mem_cons_of_mem _ hl))]
            exact hm6 j hj (hjn best (List.mem_cons_self _ _))
          · rw [hr6, hm7]
          · rw [hr7, hm8]
          · intro l2 hl2
            obtain ⟨l, hl, hpl⟩ := hr8 l2 hl2
            exact ⟨l, List.mem_cons_of_mem _ hl, hpl⟩
        · rw [if_neg hEmp]
          refine ⟨hm1, ?_, hm3, ?_, ?_, hm7, hm8, ?_⟩
          · intro l2 hl2 k hk
            rw [List.mem_cons] at hl2
            rcases hl2 with hl2 | hl2
            · exact ⟨best, List.mem_cons_self _ _, hm2 k (hl2 ▸ hk)⟩
            · exact ⟨l2, List.mem_cons_of_mem _ hl2, hk⟩
          · intro k hk hkn
            exact hm4 k hk (hkn best (List.mem_cons_self _ _))
          · intro j hj hjn
            exact hm6 j hj (hjn best (List.mem_cons_self _ _))
          · intro l2 hl2
            rw [List.mem_cons] at hl2
            rcases hl2 with hl2 | hl2
            · exact ⟨best, List.mem_cons_self _ _, hl2 ▸ hm5⟩
            · exact ⟨l2, List.mem_cons_of_mem _ hl2, rfl⟩

theorem ladderInsertDesc_mem (st : Store) (oid p : Nat) :
    ∀ ls : List PriceLevel, ∀ l2 ∈ ladderInsertDesc st oid p ls, ∀ k ∈ l2.orders,
      (∃ l ∈ ls, k ∈ l.orders) ∨ k = oid := by
  intro ls
  induction ls with
  | nil =>
    intro l2 hl2 k hk
    simp [ladderInsertDesc] at hl2
    rw [hl2] at hk
    simp [PriceLevel.addOrder] at hk
    exact Or.inr hk
  | cons x xs ih =>
    intro l2 hl2 k hk
    by_cases h1 : x.price < p
    · rw [show ladderInsertDesc st oid p (x :: xs)
          = (PriceLevel.addOrder st ⟨p, 0, []⟩ oid) :: x :: xs
        from by simp [ladderInsertDesc, h1]] at hl2
      rw [List.mem_cons, List.mem_cons] at hl2
      rcases hl2 with hl2 | hl2 | hl2
      · rw [hl2] at hk
        simp [PriceLevel.addOrder] at hk
        exact Or.inr hk
      · exact Or.inl ⟨x, List.mem_cons_self _ _, hl2 ▸ hk⟩
      · exact Or.inl ⟨l2, List.mem_cons_of_mem _ hl2, hk⟩
    · by_cases h2 : x.price = p
      · rw [show ladderInsertDesc st oid p (x :: xs) = (x.addOrder st oid) :: xs
          from by simp [ladderInsertDesc, h1, h2]] at hl2
        rw [List.mem_cons] at hl2
        rcases hl2 with hl2 | hl2
        · rw [hl2] at hk
          simp only [PriceLevel.addOrder, List.mem_append, List.mem_singleton] at hk
          rcases hk with hk | hk
          · exact Or.inl ⟨x, List.mem_cons_self _ _, hk⟩
          · exact Or.inr hk
        · exact Or.inl ⟨l2, List.mem_cons_of_mem _ hl2, hk⟩
      · rw [show ladderInsertDesc st oid p (x :: xs) = x :: ladderInsertDesc st oid p xs
          from by simp [ladderInsertDesc, h1, h2]] at hl2
        rw [List.mem_cons] at hl2
        rcases hl2 with hl2 | hl2
        · exact Or.inl ⟨x, List.mem_cons_self _ _, hl2 ▸ hk⟩
        · rcases ih l2 hl2 k hk with ⟨l, hl, hkl⟩ | hko
          · exact Or.inl ⟨l, List.mem_cons_of_mem _ hl, hkl⟩
          · exact Or.inr hko

theorem ladderInsertDesc_price (st : Store) (oid p : Nat) :
    ∀ ls : List PriceLevel, ∀ l2 ∈ ladderInsertDesc st oid p ls,
      l2.price = p ∨ ∃ l ∈ ls, l2.price = l.price := by
  intro ls
  induction ls with
  | nil =>
    intro l2 hl2
    simp [ladderInsertDesc] at hl2
    rw [hl2]
    exact Or.inl rfl
  | cons x xs ih =>
    intro l2 hl2
    by_cases h1 : x.price < p
    · rw [show ladderInsertDesc st oid p (x :: xs)
          = (PriceLevel.addOrder st ⟨p, 0, []⟩ oid) :: x :: xs
        from by simp [ladderInsertDesc, h1]] at hl2
      rw [List.mem_cons, List.mem_cons] at hl2
      rcases hl2 with hl2 | hl2 | hl2
      · rw [hl2]
        exact Or.inl rfl
      · exact Or.inr ⟨x, List.mem_cons_self _ _, hl2 ▸ rfl⟩
      · exact Or.inr ⟨l2, List.mem_cons_of_mem _ hl2, rfl⟩
    · by_cases h2 : x.price = p
      · rw [show ladderInsertDesc st oid p (x :: xs) = (x.addOrder st oid) :: xs
          from by simp [ladderInsertDesc, h1, h2]] at hl2
        rw [List.mem_cons] at hl2
        rcases hl2 with hl2 | hl2
        · exact Or.inr ⟨x, List.mem_cons_self _ _, hl2 ▸ rfl⟩
        · exact Or.inr ⟨l2, List.mem_cons_of_mem _ hl2, rfl⟩
      · rw [show ladderInsertDesc st oid p (x :: xs) = x :: ladderInsertDesc st oid p xs
          from by simp [ladderInsertDesc, h1, h2]] at hl2
        rw [List.mem_cons] at hl2
        rcases hl2 with hl2 | hl2
        · exact Or.inr ⟨x, List.mem_cons_self _ _, hl2 ▸ rfl⟩
        · rcases ih l2 hl2 with hp | ⟨l, hl, hpl⟩
          · exact Or.inl hp
          · exact Or.inr ⟨l, List.mem_cons_of_mem _ hl, hpl⟩

theorem ladderRemove_mem (st : Store) (oid p : Nat) :
    ∀ ls : List PriceLevel, ∀ l2 ∈ ladderRemove st oid p ls, ∀ k ∈ l2.orders,
      ∃ l ∈ ls, k ∈ l.orders := by
  intro ls
  induction ls with
  | nil =>
    intro l2 hl2
    simp [ladderRemove] at hl2
  | cons x xs ih =>
    intro l2 hl2 k hk
    by_cases hx : x.price = p
    · rw [ladderRemove_cons_pos st oid p x xs hx] at hl2
      by_cases hE : (x.removeOrder st oid).isEmpty = true
      · rw [if_pos hE] at hl2
        exact ⟨l2, List.mem_cons_of_mem _ hl2, hk⟩
      · rw [if_neg hE, List.mem_cons] at hl2
        rcases hl2 with hl2 | hl2
        · rw [hl2] at hk
          exact ⟨x, List.mem_cons_self _ _, List.mem_of_mem_filter hk⟩
        · exact ⟨l2, List.mem_cons_of_mem _ hl2, hk⟩
    · rw [ladderRemove_cons_neg st oid p x xs hx, List.mem_cons] at hl2
      rcases hl2 with hl2 | hl2
      · exact ⟨x, List.mem_cons_self _ _, hl2 ▸ hk⟩
      · obtain ⟨l, hl, hkl⟩ := ih l2 hl2 k hk
        exact ⟨l, List.mem_cons_of_mem _ hl, hkl⟩

theorem ladderAdjust_mem_orders (p delta : Nat) (ls : List PriceLevel) :
    ∀ l2 ∈ ladderAdjust p delta ls, ∃ l ∈ ls, l2.orders = l.orders := by
  intro l2 hl2
  have h := ladderAdjust_map_orders p delta ls
  have h2 : l2.orders ∈ (ladderAdjust p delta ls).map PriceLevel.orders :=
    List.mem_map_of_mem _ hl2
  rw [h] at h2
  obtain ⟨l, hl, hp⟩ := List.mem_map.mp h2
  exact ⟨l, hl, hp.symm⟩

theorem ladderInsertAsc_mem (st : Store) (oid p : Nat) :
    ∀ ls : List PriceLevel, ∀ l2 ∈ ladderInsertAsc st oid p ls, ∀ k ∈ l2.orders,
      (∃ l ∈ ls, k ∈ l.orders) ∨ k = oid := by
  intro ls
  induction ls with
  | nil =>
    intro l2 hl2 k hk
    simp [ladderInsertAsc] at hl2
    rw [hl2] at hk
    simp [PriceLevel.addOrder] at hk
    exact Or.inr hk
  | cons x xs ih =>
    intro l2 hl2 k hk
    by_cases h1 : p < x.price
    · rw [show ladderInsertAsc st oid p (x :: xs)
          = (PriceLevel.addOrder st ⟨p, 0, []⟩ oid) :: x :: xs
        from by simp [ladderInsertAsc, h1]] at hl2
      rw [List.mem_cons, List.mem_cons] at hl2
      rcases hl2 with hl2 | hl2 | hl2
      · rw [hl2] at hk
        simp [PriceLevel.addOrder] at hk
        exact Or.inr hk
      · exact Or.inl ⟨x, List.mem_cons_self _ _, hl2 ▸ hk⟩
      · exact Or.inl ⟨l2, List.mem_cons_of_mem _ hl2, hk⟩
    · by_cases h2 : x.price = p
      · rw [show ladderInsertAsc st oid p (x :: xs) = (x.addOrder st oid) :: xs
          from by simp [ladderInsertAsc, h1, h2]] at hl2
        rw [List.mem_cons] at hl2
        rcases hl2 with hl2 | hl2
        · rw [hl2] at hk
          simp only [PriceLevel.addOrder, List.mem_append, List.mem_singleton] at hk
          rcases hk with hk | hk
          · exact Or.inl ⟨x, List.mem_cons_self _ _, hk⟩
          · exact Or.inr hk
        · exact Or.inl ⟨l2, List.mem_cons_of_mem _ hl2, hk⟩
      · rw [show ladderInsertAsc st oid p (x :: xs) = x :: ladderInsertAsc st oid p xs
          from by simp [ladderInsertAsc, h1, h2]] at hl2
        rw [List.mem_cons] at hl2
        rcases hl2 with hl2 | hl2
        · exact Or.inl ⟨x, List.mem_cons_self _ _, hl2 ▸ hk⟩
        · rcases ih l2 hl2 k hk with ⟨l, hl, hkl⟩ | hko
          · exact Or.inl ⟨l, List.mem_cons_of_mem _ hl, hkl⟩
          · exact Or.inr hko

theorem ladderInsertAsc_price (st : Store) (oid p : Nat) :
    ∀ ls : List PriceLevel, ∀ l2 ∈ ladderInsertAsc st oid p ls,
      l2.price = p ∨ ∃ l ∈ ls, l2.price = l.price := by
  intro ls
  induction ls with
  | nil =>
    intro l2 hl2
    simp [ladderInsertAsc] at hl2
    rw [hl2]
    exact Or.inl rfl
  | cons x xs ih =>
    intro l2 hl2
    by_cases h1 : p < x.price
    · rw [show ladderInsertAsc st oid p (x :: xs)
          = (PriceLevel.addOrder st ⟨p, 0, []⟩ oid) :: x :: xs
        from by simp [ladderInsertAsc, h1]] at hl2
      rw [List.mem_cons, List.mem_cons] at hl2
      rcases hl2 with hl2 | hl2 | hl2
      · rw [hl2]
        exact Or.inl rfl
      · exact Or.inr ⟨x, List.mem_cons_self _ _, hl2 ▸ rfl⟩
      · exact Or.inr ⟨l2, List.mem_cons_of_mem _ hl2, rfl⟩
    · by_cases h2 : x.price = p
      · rw [show ladderInsertAsc st oid p (x :: xs) = (x.addOrder st oid) :: xs
          from by simp [ladderInsertAsc, h1, h2]] at hl2
        rw [List.mem_cons] at hl2
        rcases hl2 with hl2 | hl2
        · exact Or.inr ⟨x, List.mem_cons_self _ _, hl2 ▸ rfl⟩
        · exact Or.inr ⟨l2, List.mem_cons_of_mem _ hl2, rfl⟩
      · rw [show ladderInsertAsc st oid p (x :: xs) = x :: ladderInsertAsc st oid p xs
          from by simp [ladderInsertAsc, h1, h2]] at hl2
        rw [List.mem_cons] at hl2
        rcases hl2 with hl2 | hl2
        · exact Or.inr ⟨x, List.mem_cons_self _ _, hl2 ▸ rfl⟩
        · rcases ih l2 hl2 with hp | ⟨l, hl, hpl⟩
          · exact Or.inl hp
          · exact Or.inr ⟨l, List.mem_cons_of_mem _ hl, hpl⟩

theorem idsBelow_of_map_fst (st st2 : Store) (n : Nat)
    (hmap : st2.map Prod.fst = st.map Prod.fst)
    (h : ∀ pr ∈ st, pr.1 < n) : ∀ pr ∈ st2, pr.1 < n := by
  intro pr hpr
  have h1 : pr.1 ∈ st2.map Prod.fst := List.mem_map_of_mem _ hpr
  rw [hmap] at h1
  obtain ⟨pr0, hpr0, he⟩ := List.mem_map.mp h1
  exact he ▸ h pr0 hpr0

theorem fillBounded_append (st : Store) (k : Nat) (o : Order)
    (h : fillBounded st) (ho : o.filledQuantity ≤ o.quantity ∧ o.quantity < U32MOD) :
    fillBounded (st ++ [(k, o)]) := by
  intro pr hpr
  rw [List.mem_append, List.mem_singleton] at hpr
  rcases hpr with hpr | hpr
  · exact h pr hpr
  · rw [hpr]
    exact ho

theorem addBuyOrder_eq (b : OrderBook) (oid : Nat) :
    b.addBuyOrder oid = { b with orders := (addBuyLoop oid b.orders b.mapKeys b.trades b.asks).orders, mapKeys := (addBuyLoop oid b.orders b.mapKeys b.trades b.asks).mapKeys, trades := (addBuyLoop oid b.orders b.mapKeys b.trades b.asks).trades, asks := (addBuyLoop oid b.orders b.mapKeys b.trades b.asks).ladder } ∨
    b.addBuyOrder oid = { b with orders := (addBuyLoop oid b.orders b.mapKeys b.trades b.asks).orders, mapKeys := (addBuyLoop oid b.orders b.mapKeys b.trades b.asks).mapKeys, trades := (addBuyLoop oid b.orders b.mapKeys b.trades b.asks).trades, asks := (addBuyLoop oid b.orders b.mapKeys b.trades b.asks).ladder, bids := ladderInsertDesc (addBuyLoop oid b.orders b.mapKeys b.trades b.asks).orders oid (storeGet (addBuyLoop oid b.orders b.mapKeys b.trades b.asks).orders oid).price b.bids } := by
  unfold OrderBook.addBuyOrder
  by_cases hf : (storeGet (addBuyLoop oid b.orders b.mapKeys b.trades b.asks).orders oid).isFilled = true
  · left
    simp [hf]
  · right
    simp [hf]

theorem addSellOrder_eq (b : OrderBook) (oid : Nat) :
    b.addSellOrder oid = { b with orders := (addSellLoop oid b.orders b.mapKeys b.trades b.bids).orders, mapKeys := (addSellLoop oid b.orders b.mapKeys b.trades b.bids).mapKeys, trades := (addSellLoop oid b.orders b.mapKeys b.trades b.bids).trades, bids := (addSellLoop oid b.orders b.mapKeys b.trades b.bids).ladder } ∨
    b.addSellOrder oid = { b with orders := (addSellLoop oid b.orders b.mapKeys b.trades b.bids).orders, mapKeys := (addSellLoop oid b.orders b.mapKeys b.trades b.bids).mapKeys, trades := (addSellLoop oid b.orders b.mapKeys b.trades b.bids).trades, bids := (addSellLoop oid b.orders b.mapKeys b.trades b.bids).ladder, asks := ladderInsertAsc (addSellLoop oid b.orders b.mapKeys b.trades b.bids).orders oid (storeGet (addSellLoop oid b.orders b.mapKeys b.trades b.bids).orders oid).price b.asks } := by
  unfold OrderBook.addSellOrder
  by_cases hf : (storeGet (addSellLoop oid b.orders b.mapKeys b.trades b.bids).orders oid).isFilled = true
  · left
    simp [hf]
  · right
    simp [hf]

theorem addBuyOrder_fill_below (b : OrderBook) (oid N : Nat)
    (hB : fillBounded b.orders)
    (hni : ∀ l ∈ b.asks, oid ∉ l.orders)
    (hst : ∀ pr ∈ b.orders, pr.1 < N)
    (hkeys : ∀ k ∈ b.mapKeys, k < N)
    (hbids : ∀ l ∈ b.bids, ∀ k ∈ l.orders, k < N)
    (hasks : ∀ l ∈ b.asks, ∀ k ∈ l.orders, k < N)
    (hoid : oid < N) :
    fillBounded (b.addBuyOrder oid).orders ∧
    (∀ pr ∈ (b.addBuyOrder oid).orders, pr.1 < N) ∧
    (∀ k ∈ (b.addBuyOrder oid).mapKeys, k < N) ∧
    (∀ l ∈ (b.addBuyOrder oid).bids, ∀ k ∈ l.orders, k < N) ∧
    (∀ l ∈ (b.addBuyOrder oid).asks, ∀ k ∈ l.orders, k < N) ∧
    (b.addBuyOrder oid).nextOrderId = b.nextOrderId := by
  obtain ⟨h1, h2, h3, _, _, h6, _, _⟩ :=
    addBuyLoop_inv oid b.asks b.orders b.mapKeys b.trades hB hni
  have hstL : ∀ pr ∈ (addBuyLoop oid b.orders b.mapKeys b.trades b.asks).orders, pr.1 < N :=
    idsBelow_of_map_fst b.orders _ N h6 hst
  have hkeysL : ∀ k ∈ (addBuyLoop oid b.orders b.mapKeys b.trades b.asks).mapKeys, k < N :=
    fun k hk => hkeys k (h3 k hk)
  have hladL : ∀ l ∈ (addBuyLoop oid b.orders b.mapKeys b.trades b.asks).ladder,
      ∀ k ∈ l.orders, k < N := by
    intro l hl k hk
    obtain ⟨l0, hl0, hkl0⟩ := h2 l hl k hk
    exact hasks l0 hl0 k hkl0
  rcases addBuyOrder_eq b oid with he | he
  · rw [he]
    exact ⟨h1, hstL, hkeysL, hbids, hladL, rfl⟩
  · rw [he]
    refine ⟨h1, hstL, hkeysL, ?_, hladL, rfl⟩
    intro l hl k hk
    rcases ladderInsertDesc_mem _ oid _ b.bids l hl k hk with ⟨l0, hl0, hkl0⟩ | hko
    · exact hbids l0 hl0 k hkl0
    · exact hko ▸ hoid

theorem addSellOrder_fill_below (b : OrderBook) (oid N : Nat)
    (hB : fillBounded b.orders)
    (hni : ∀ l ∈ b.bids, oid ∉ l.orders)
    (hst : ∀ pr ∈ b.orders, pr.1 < N)
    (hkeys : ∀ k ∈ b.mapKeys, k < N)
    (hbids : ∀ l ∈ b.bids, ∀ k ∈ l.orders, k < N)
    (hasks : ∀ l ∈ b.asks, ∀ k ∈ l.orders, k < N)
    (hoid : oid < N) :
    fillBounded (b.addSellOrder oid).orders ∧
    (∀ pr ∈ (b.addSellOrder oid).orders, pr.1 < N) ∧
    (∀ k ∈ (b.addSellOrder oid).mapKeys, k < N) ∧
    (∀ l ∈ (b.addSellOrder oid).bids, ∀ k ∈ l.orders, k < N) ∧
    (∀ l ∈ (b.addSellOrder oid).asks, ∀ k ∈ l.orders, k < N) ∧
    (b.addSellOrder oid).nextOrderId = b.nextOrderId := by
  obtain ⟨h1, h2, h3, _, _, h6, _, _⟩ :=
    addSellLoop_inv oid b.bids b.orders b.mapKeys b.trades hB hni
  have hstL : ∀ pr ∈ (addSellLoop oid b.orders b.mapKeys b.trades b.bids).orders, pr.1 < N :=
    idsBelow_of_map_fst b.orders _ N h6 hst
  have hkeysL : ∀ k ∈ (addSellLoop oid b.orders b.mapKeys b.trades b.bids).mapKeys, k < N :=
    fun k hk => hkeys k (h3 k hk)
  have hladL : ∀ l ∈ (addSellLoop oid b.orders b.mapKeys b.trades b.bids).ladder,
      ∀ k ∈ l.orders, k < N := by
    intro l hl k hk
    obtain ⟨l0, hl0, hkl0⟩ := h2 l hl k hk
    exact hbids l0 hl0 k hkl0
  rcases addSellOrder_eq b oid with he | he
  · rw [he]
    exact ⟨h1, hstL, hkeysL, hladL, hasks, rfl⟩
  · rw [he]
    refine ⟨h1, hstL, hkeysL, hladL, ?_, rfl⟩
    intro l hl k hk
    rcases ladderInsertAsc_mem _ oid _ b.asks l hl k hk with ⟨l0, hl0, hkl0⟩ | hko
    · exact hasks l0 hl0 k hkl0
    · exact hko ▸ hoid

theorem addOrder_fill_fresh (b : OrderBook) (p q : Nat) (s : OrderSide) (ts : Nat)
    (hB : fillBounded b.orders) (hF : idsFresh b) :
    fillBounded ((b.addOrder p q s ts).1).orders ∧ idsFresh (b.addOrder p q s ts).1 := by
  obtain ⟨hFst, hFkeys, hFlad⟩ := hF
  have hFbids : ∀ l ∈ b.bids, ∀ k ∈ l.orders, k < b.nextOrderId := by
    intro l hl
    exact hFlad l (List.mem_append_left _ hl)
  have hFasks : ∀ l ∈ b.asks, ∀ k ∈ l.orders, k < b.nextOrderId := by
    intro l hl
    exact hFlad l (List.mem_append_right _ hl)
  set oid := b.nextOrderId with hoiddef
  set o : Order := ⟨oid, ts % U64MOD, p % U32MOD, q % U32MOD, 0, s, OrderType.LIMIT, OrderStatus.NEW⟩ with hodef
  set b1 : OrderBook := { b with orders := b.orders ++ [(oid, o)], mapKeys := b.mapKeys ++ [oid], nextOrderId := b.nextOrderId + 1 } with hb1def
  have hB1 : fillBounded b1.orders := by
    apply fillBounded_append _ _ _ hB
    constructor
    · exact Nat.zero_le _
    · exact Nat.mod_lt _ (by decide)
  have hst1 : ∀ pr ∈ b1.orders, pr.1 < b.nextOrderId + 1 := by
    intro pr hpr
    rw [show b1.orders = b.orders ++ [(oid, o)] from rfl, List.mem_append,
      List.mem_singleton] at hpr
    rcases hpr with hpr | hpr
    · exact Nat.lt_succ_of_lt (hFst pr hpr)
    · rw [hpr]
      exact Nat.lt_succ_self _
  have hkeys1 : ∀ k ∈ b1.mapKeys, k < b.nextOrderId + 1 := by
    intro k hk
    rw [show b1.mapKeys = b.mapKeys ++ [oid] from rfl, List.mem_append,
      List.mem_singleton] at hk
    rcases hk with hk | hk
    · exact Nat.lt_succ_of_lt (hFkeys k hk)
    · rw [hk]
      exact Nat.lt_succ_self _
  have hbids1 : ∀ l ∈ b1.bids, ∀ k ∈ l.orders, k < b.nextOrderId + 1 :=
    fun l hl k hk => Nat.lt_succ_of_lt (hFbids l hl k hk)
  have hasks1 : ∀ l ∈ b1.asks, ∀ k ∈ l.orders, k < b.nextOrderId + 1 :=
    fun l hl k hk => Nat.lt_succ_of_lt (hFasks l hl k hk)
  have hnib : ∀ l ∈ b1.bids, oid ∉ l.orders :=
    fun l hl hk => Nat.lt_irrefl _ (hFbids l hl oid hk)
  have hnia : ∀ l ∈ b1.asks, oid ∉ l.orders :=
    fun l hl hk => Nat.lt_irrefl _ (hFasks l hl oid hk)
  have hoid1 : oid < b.nextOrderId + 1 := Nat.lt_succ_self _
  have hres : (b.addOrder p q s ts).1
      = if s == OrderSide.BUY then b1.addBuyOrder oid else b1.addSellOrder oid := rfl
  cases s with
  | BUY =>
    rw [hres]
    simp only [show (OrderSide.BUY == OrderSide.BUY) = true from rfl, if_pos]
    obtain ⟨g1, g2, g3, g4, g5, g6⟩ :=
      addBuyOrder_fill_below b1 oid (b.nextOrderId + 1) hB1 hnia hst1 hkeys1 hbids1 hasks1 hoid1
    have hN : (b1.addBuyOrder oid).nextOrderId = b.nextOrderId + 1 := g6
    refine ⟨g1, ?_, ?_, ?_⟩
    · rw [hN]
      exact g2
    · rw [hN]
      exact g3
    · rw [hN]
      intro l hl
      rw [List.mem_append] at hl
      rcases hl with hl | hl
      · exact g4 l hl
      · exact g5 l hl
  | SELL =>
    rw [hres]
    simp only [show (OrderSide.SELL == OrderSide.BUY) = false from rfl, Bool.false_eq_true,
      if_false]
    obtain ⟨g1, g2, g3, g4, g5, g6⟩ :=
      addSellOrder_fill_below b1 oid (b.nextOrderId + 1) hB1 hnib hst1 hkeys1 hbids1 hasks1 hoid1
    have hN : (b1.addSellOrder oid).nextOrderId = b.nextOrderId + 1 := g6
    refine ⟨g1, ?_, ?_, ?_⟩
    · rw [hN]
      exact g2
    · rw [hN]
      exact g3
    · rw [hN]
      intro l hl
      rw [List.mem_append] at hl
      rcases hl with hl | hl
      · exact g4 l hl
      · exact g5 l hl

theorem removeOrder_nextOrderId (b : OrderBook) (oid : Nat) :
    (b.removeOrder oid).nextOrderId = b.nextOrderId := by
  simp only [OrderBook.removeOrder]
  split <;> rfl

theorem removeOrder_below (b : OrderBook) (oid N : Nat)
    (hbids : ∀ l ∈ b.bids, ∀ k ∈ l.orders, k < N)
    (hasks : ∀ l ∈ b.asks, ∀ k ∈ l.orders, k < N) :
    (∀ l ∈ (b.removeOrder oid).bids, ∀ k ∈ l.orders, k < N) ∧
    (∀ l ∈ (b.removeOrder oid).asks, ∀ k ∈ l.orders, k < N) := by
  have hsides : (storeGet b.orders oid).side = OrderSide.BUY ∨
      (storeGet b.orders oid).side = OrderSide.SELL := by
    cases (storeGet b.orders oid).side
    · exact Or.inl rfl
    · exact Or.inr rfl
  rcases hsides with hs | hs
  · obtain ⟨hb, ha⟩ := removeOrder_of_buy b oid hs
    rw [hb, ha]
    refine ⟨?_, hasks⟩
    intro l hl k hk
    obtain ⟨l0, hl0, hkl0⟩ := ladderRemove_mem b.orders oid _ b.bids l hl k hk
    exact hbids l0 hl0 k hkl0
  · obtain ⟨ha, hb⟩ := removeOrder_of_sell b oid hs
    rw [hb, ha]
    refine ⟨hbids, ?_⟩
    intro l hl k hk
    obtain ⟨l0, hl0, hkl0⟩ := ladderRemove_mem b.orders oid _ b.asks l hl k hk
    exact hasks l0 hl0 k hkl0

theorem cancelOrder_cases (b : OrderBook) (oid : Nat) :
    (b.cancelOrder oid).1 = b ∨
    (b.cancelOrder oid).1 = { b.removeOrder oid with orders := storeSet (b.removeOrder oid).orders oid { storeGet b.orders oid with status := OrderStatus.CANCELLED }, mapKeys := (b.removeOrder oid).mapKeys.filter (fun k => k != oid) } := by
  unfold OrderBook.cancelOrder
  by_cases hc : b.mapKeys.contains oid = true
  · rw [if_pos hc]
    by_cases ht : ((storeGet b.orders oid).status == OrderStatus.FILLED
        || (storeGet b.orders oid).status == OrderStatus.CANCELLED) = true
    · left
      rw [if_pos ht]
    · right
      rw [if_neg ht]
  · left
    rw [if_neg hc]

theorem cancelOrder_fill_fresh (b : OrderBook) (oid : Nat)
    (hB : fillBounded b.orders) (hF : idsFresh b) :
    fillBounded ((b.cancelOrder oid).1).orders ∧ idsFresh (b.cancelOrder oid).1 := by
  obtain ⟨hFst, hFkeys, hFlad⟩ := hF
  rcases cancelOrder_cases b oid with he | he
  · rw [he]
    exact ⟨hB, hFst, hFkeys, hFlad⟩
  · rw [he]
    have horders : (b.removeOrder oid).orders = b.orders := removeOrder_orders b oid
    have hkeys : (b.removeOrder oid).mapKeys = b.mapKeys := removeOrder_mapKeys b oid
    have hbound := storeGet_bounded b.orders oid hB
    refine ⟨?_, ?_, ?_, ?_⟩
    · show fillBounded (storeSet (b.removeOrder oid).orders oid _)
      rw [horders]
      exact storeSet_fillBounded _ _ _ hB hbound
    · show ∀ pr ∈ storeSet (b.removeOrder oid).orders oid _, pr.1 < (b.removeOrder oid).nextOrderId
      rw [horders, removeOrder_nextOrderId]
      exact storeSet_idsBelow _ _ _ _ hFst
    · show ∀ k ∈ (b.removeOrder oid).mapKeys.filter _, k < (b.removeOrder oid).nextOrderId
      rw [hkeys, removeOrder_nextOrderId]
      intro k hk
      exact hFkeys k (List.mem_of_mem_filter hk)
    · show ∀ l ∈ (b.removeOrder oid).bids ++ (b.removeOrder oid).asks,
        ∀ k ∈ l.orders, k < (b.removeOrder oid).nextOrderId
      rw [removeOrder_nextOrderId]
      have hbids : ∀ l ∈ b.bids, ∀ k ∈ l.orders, k < b.nextOrderId :=
        fun l hl => hFlad l (List.mem_append_left _ hl)
      have hasks : ∀ l ∈ b.asks, ∀ k ∈ l.orders, k < b.nextOrderId :=
        fun l hl => hFlad l (List.mem_append_right _ hl)
      obtain ⟨g1, g2⟩ := removeOrder_below b oid b.nextOrderId hbids hasks
      intro l hl
      rw [List.mem_append] at hl
      rcases hl with hl | hl
      · exact g1 l hl
      · exact g2 l hl

theorem modifyOrder_cases (b : OrderBook) (oid nq : Nat) :
    ((b.modifyOrder oid nq).1 = b ∧ b.mapKeys.contains oid = false) ∨
    (b.mapKeys.contains oid = true ∧
      ((b.modifyOrder oid nq).1 = { b with orders := storeSet b.orders oid { storeGet b.orders oid with quantity := nq % U32MOD }, bids := ladderAdjust (storeGet b.orders oid).price (sub32 (nq % U32MOD) (storeGet b.orders oid).quantity) b.bids } ∨
       (b.modifyOrder oid nq).1 = { b with orders := storeSet b.orders oid { storeGet b.orders oid with quantity := nq % U32MOD }, asks := ladderAdjust (storeGet b.orders oid).price (sub32 (nq % U32MOD) (storeGet b.orders oid).quantity) b.asks })) := by
  unfold OrderBook.modifyOrder
  by_cases hc : b.mapKeys.contains oid = true
  · right
    refine ⟨hc, ?_⟩
    rw [if_pos hc]
    by_cases hs : ((storeGet b.orders oid).side == OrderSide.BUY) = true
    · left
      rw [if_pos hs]
    · right
      rw [if_neg hs]
  · left
    refine ⟨?_, by simpa using hc⟩
    rw [if_neg hc]

theorem modifyOrder_fill_fresh (b : OrderBook) (oid nq : Nat)
    (hB : fillBounded b.orders) (hF : idsFresh b)
    (hg : b.mapKeys.contains oid = true →
      (storeGet b.orders oid).filledQuantity ≤ nq % U32MOD) :
    fillBounded ((b.modifyOrder oid nq).1).orders ∧ idsFresh (b.modifyOrder oid nq).1 := by
  obtain ⟨hFst, hFkeys, hFlad⟩ := hF
  rcases modifyOrder_cases b oid nq with ⟨he, _⟩ | ⟨hc, he | he⟩
  · rw [he]
    exact ⟨hB, hFst, hFkeys, hFlad⟩
  · rw [he]
    have ho : ({ storeGet b.orders oid with quantity := nq % U32MOD } : Order).filledQuantity
          ≤ ({ storeGet b.orders oid with quantity := nq % U32MOD } : Order).quantity ∧
        ({ storeGet b.orders oid with quantity := nq % U32MOD } : Order).quantity < U32MOD :=
      ⟨hg hc, Nat.mod_lt _ (by decide)⟩
    refine ⟨storeSet_fillBounded _ _ _ hB ho, storeSet_idsBelow _ _ _ _ hFst, hFkeys, ?_⟩
    intro l hl
    rw [List.mem_append] at hl
    rcases hl with hl | hl
    · obtain ⟨l0, hl0, heq⟩ := ladderAdjust_mem_orders _ _ b.bids l hl
      rw [heq]
      exact hFlad l0 (List.mem_append_left _ hl0)
    · exact hFlad l (List.mem_append_right _ hl)
  · rw [he]
    have ho : ({ storeGet b.orders oid with quantity := nq % U32MOD } : Order).filledQuantity
          ≤ ({ storeGet b.orders oid with quantity := nq % U32MOD } : Order).quantity ∧
        ({ storeGet b.orders oid with quantity := nq % U32MOD } : Order).quantity < U32MOD :=
      ⟨hg hc, Nat.mod_lt _ (by decide)⟩
    refine ⟨storeSet_fillBounded _ _ _ hB ho, storeSet_idsBelow _ _ _ _ hFst, hFkeys, ?_⟩
    intro l hl
    rw [List.mem_append] at hl
    rcases hl with hl | hl
    · exact hFlad l (List.mem_append_left _ hl)
    · obtain ⟨l0, hl0, heq⟩ := ladderAdjust_mem_orders _ _ b.asks l hl
      rw [heq]
      exact hFlad l0 (List.mem_append_right _ hl0)

theorem step_fill_fresh (b : OrderBook) (op : Op)
    (hB : fillBounded b.orders) (hF : idsFresh b) (hg : goodOp b op) :
    fillBounded (step b op).orders ∧ idsFresh (step b op) := by
  cases op with
  | submit p q s ts => exact addOrder_fill_fresh b p q s ts hB hF
  | cancel oid => exact cancelOrder_fill_fresh b oid hB hF
  | modify oid nq => exact modifyOrder_fill_fresh b oid nq hB hF hg

theorem run_fill_fresh : ∀ (ops : List Op) (b : OrderBook),
    fillBounded b.orders → idsFresh b → goodOps b ops →
    fillBounded (run b ops).orders ∧ idsFresh (run b ops) := by
  intro ops
  induction ops with
  | nil =>
    intro b hB hF _
    exact ⟨hB, hF⟩
  | cons op ops ih =>
    intro b hB hF hg
    obtain ⟨h1, h2⟩ := step_fill_fresh b op hB hF hg.1
    have hrun : run b (op :: ops) = run (step b op) ops := by
      simp [run, List.foldl]
    rw [hrun]
    exact ih (step b op) h1 h2 hg.2

theorem emptyBook_fillBounded : fillBounded emptyBook.orders := by
  intro pr hpr
  simp [emptyBook] at hpr

theorem emptyBook_idsFresh : idsFresh emptyBook := by
  refine ⟨?_, ?_, ?_⟩ <;> intro x hx <;> simp [emptyBook] at hx

/-- Claim C7 (amended): in every book state reachable from the empty
book by a script whose modify calls never shrink an order's quantity
below its filled quantity at call time (`goodOps`; submits and cancels
are unrestricted), every order object satisfies
0 ≤ filledQuantity ≤ quantity, and its derived remaining quantity is
exactly quantity − filledQuantity, with no uint32 wrap-around. -/
theorem c7_fill_bound_amended (ops : List Op) (hg : goodOps emptyBook ops) :
    ∀ pr ∈ (run emptyBook ops).orders,
      0 ≤ pr.2.filledQuantity ∧
      pr.2.filledQuantity ≤ pr.2.quantity ∧
      pr.2.getRemainingQuantity = pr.2.quantity - pr.2.filledQuantity := by
  obtain ⟨h1, _⟩ := run_fill_fresh ops emptyBook emptyBook_fillBounded emptyBook_idsFresh hg
  intro pr hpr
  obtain ⟨hb1, hb2⟩ := h1 pr hpr
  refine ⟨Nat.zero_le _, hb1, ?_⟩
  simp only [Order.getRemainingQuantity]
  exact sub32_eq_of_le _ _ hb1 hb2

theorem c7_fill_bound_amended_witness :
    0 ≤ ((1, (⟨1, 1, 100, 50, 30, OrderSide.SELL, OrderType.LIMIT, OrderStatus.PARTIAL_FILL⟩ : Order)) : Nat × Order).2.filledQuantity ∧
    ((1, (⟨1, 1, 100, 50, 30, OrderSide.SELL, OrderType.LIMIT, OrderStatus.PARTIAL_FILL⟩ : Order)) : Nat × Order).2.filledQuantity ≤ ((1, (⟨1, 1, 100, 50, 30, OrderSide.SELL, OrderType.LIMIT, OrderStatus.PARTIAL_FILL⟩ : Order)) : Nat × Order).2.quantity ∧
    ((1, (⟨1, 1, 100, 50, 30, OrderSide.SELL, OrderType.LIMIT, OrderStatus.PARTIAL_FILL⟩ : Order)) : Nat × Order).2.getRemainingQuantity = ((1, (⟨1, 1, 100, 50, 30, OrderSide.SELL, OrderType.LIMIT, OrderStatus.PARTIAL_FILL⟩ : Order)) : Nat × Order).2.quantity - ((1, (⟨1, 1, 100, 50, 30, OrderSide.SELL, OrderType.LIMIT, OrderStatus.PARTIAL_FILL⟩ : Order)) : Nat × Order).2.filledQuantity :=
  c7_fill_bound_amended
    [Op.submit 100 50 OrderSide.SELL 1, Op.submit 100 30 OrderSide.BUY 2]
    (by simp [goodOps, goodOp])
    ((1, (⟨1, 1, 100, 50, 30, OrderSide.SELL, OrderType.LIMIT, OrderStatus.PARTIAL_FILL⟩ : Order)) : Nat × Order)
    (by decide)

/-- The frame components of `matchLoop_inv` proved without the
`fillBounded` hypothesis: they hold for a store in any state, which is
what a reachability argument over unrestricted operation scripts
needs. -/
theorem matchLoop_frame (incId : Nat) :
    ∀ (fuel : Nat) (st : Store) (keys : List Nat) (tr : List Trade) (lvl : PriceLevel),
      incId ∉ lvl.orders →
      (∀ k ∈ (matchLoopFuel incId fuel st keys tr lvl).level.orders, k ∈ lvl.orders) ∧
      (∀ k ∈ (matchLoopFuel incId fuel st keys tr lvl).mapKeys, k ∈ keys) ∧
      (∀ k ∈ keys, k ∉ lvl.orders → k ∈ (matchLoopFuel incId fuel st keys tr lvl).mapKeys) ∧
      (matchLoopFuel incId fuel st keys tr lvl).level.price = lvl.price ∧
      (∀ j, j ≠ incId → j ∉ lvl.orders →
        storeGet (matchLoopFuel incId fuel st keys tr lvl).orders j = storeGet st j) ∧
      (matchLoopFuel incId fuel st keys tr lvl).orders.map Prod.fst = st.map Prod.fst ∧
      (storeGet (matchLoopFuel incId fuel st keys tr lvl).orders incId).price
        = (storeGet st incId).price := by
  intro fuel
  induction fuel with
  | zero =>
    intro st keys tr lvl _
    exact ⟨fun k hk => hk, fun k hk => hk, fun k hk _ => hk, rfl, fun j _ _ => rfl, rfl, rfl⟩
  | succ fuel ih =>
    intro st keys tr lvl hni
    by_cases hf : (storeGet st incId).isFilled = true
    · rw [matchLoopFuel_succ_filled _ _ _ _ _ _ hf]
      exact ⟨fun k hk => hk, fun k hk => hk, fun k hk _ => hk, rfl, fun j _ _ => rfl, rfl, rfl⟩
    · have hf2 : (storeGet st incId).isFilled = false := by
        revert hf
        cases (storeGet st incId).isFilled <;> simp
      have hsplit : lvl.orders = [] ∨ ∃ r rest2, lvl.orders = r :: rest2 := by
        cases lvl.orders with
        | nil => exact Or.inl rfl
        | cons x xs => exact Or.inr ⟨x, xs, rfl⟩
      rcases hsplit with hq | ⟨r, rest2, hq⟩
      · rw [matchLoopFuel_succ_nil _ _ _ _ _ _ hq]
        exact ⟨fun k hk => hk, fun k hk => hk, fun k hk _ => hk, rfl, fun j _ _ => rfl, rfl, rfl⟩
      · have hrin : r ∈ lvl.orders := by rw [hq]; exact List.mem_cons_self _ _
        have hrne : r ≠ incId := fun he => hni (he ▸ hrin)
        have hframe2 : ∀ j, j ≠ incId → j ≠ r → storeGet (storeSet (storeSet st incId ((storeGet st incId).fill (min (storeGet st incId).getRemainingQuantity (storeGet st r).getRemainingQuantity))) r ((storeGet (storeSet st incId ((storeGet st incId).fill (min (storeGet st incId).getRemainingQuantity (storeGet st r).getRemainingQuantity))) r).fill (min (storeGet st incId).getRemainingQuantity (storeGet st r).getRemainingQuantity))) j = storeGet st j := by
          intro j hji hjr
          rw [storeGet_storeSet_ne _ _ _ _ hjr, storeGet_storeSet_ne _ _ _ _ hji]
        rw [matchLoopFuel_succ_cons_explicit _ _ _ _ _ _ r rest2 hf2 hq]
        by_cases hRf : (storeGet (storeSet (storeSet st incId ((storeGet st incId).fill (min (storeGet st incId).getRemainingQuantity (storeGet st r).getRemainingQuantity))) r ((storeGet (storeSet st incId ((storeGet st incId).fill (min (storeGet st incId).getRemainingQuantity (storeGet st r).getRemainingQuantity))) r).fill (min (storeGet st incId).getRemainingQuantity (storeGet st r).getRemainingQuantity))) r).isFilled = true
        · rw [if_pos hRf]
          have hsub : ∀ k ∈ (lvl.removeOrder (storeSet (storeSet st incId ((storeGet st incId).fill (min (storeGet st incId).getRemainingQuantity (storeGet st r).getRemainingQuantity))) r ((storeGet (storeSet st incId ((storeGet st incId).fill (min (storeGet st incId).getRemainingQuantity (storeGet st r).getRemainingQuantity))) r).fill (min (storeGet st incId).getRemainingQuantity (storeGet st r).getRemainingQuantity))) r).orders, k ∈ lvl.orders := by
            intro k hk
            exact List.mem_of_mem_filter hk
          have hni2 : incId ∉ (lvl.removeOrder (storeSet (storeSet st incId ((storeGet st incId).fill (min (storeGet st incId).getRemainingQuantity (storeGet st r).getRemainingQuantity))) r ((storeGet (storeSet st incId ((storeGet st incId).fill (min (storeGet st incId).getRemainingQuantity (storeGet st r).getRemainingQuantity))) r).fill (min (storeGet st incId).getRemainingQuantity (storeGet st r).getRemainingQuantity))) r).orders :=
            fun hmem => hni (hsub _ hmem)
          have hrec := ih (storeSet (storeSet st incId ((storeGet st incId).fill (min (storeGet st incId).getRemainingQuantity (storeGet st r).getRemainingQuantity))) r ((storeGet (storeSet st incId ((storeGet st incId).fill (min (storeGet st incId).getRemainingQuantity (storeGet st r).getRemainingQuantity))) r).fill (min (storeGet st incId).getRemainingQuantity (storeGet st r).getRemainingQuantity))) (keys.filter (fun k => k != r)) (tr ++ [(⟨(if (storeGet (storeSet (storeSet st incId ((storeGet st incId).fill (min (storeGet st incId).getRemainingQuantity (storeGet st r).getRemainingQuantity))) r ((storeGet (storeSet st incId ((storeGet st incId).fill (min (storeGet st incId).getRemainingQuantity (storeGet st r).getRemainingQuantity))) r).fill (min (storeGet st incId).getRemainingQuantity (storeGet st r).getRemainingQuantity))) incId).side == OrderSide.BUY then incId else r), (if (storeGet (storeSet (storeSet st incId ((storeGet st incId).fill (min (storeGet st incId).getRemainingQuantity (storeGet st r).getRemainingQuantity))) r ((storeGet (storeSet st incId ((storeGet st incId).fill (min (storeGet st incId).getRemainingQuantity (storeGet st r).getRemainingQuantity))) r).fill (min (storeGet st incId).getRemainingQuantity (storeGet st r).getRemainingQuantity))) incId).side == OrderSide.SELL then incId else r), (storeGet (storeSet (storeSet st incId ((storeGet st incId).fill (min (storeGet st incId).getRemainingQuantity (storeGet st r).getRemainingQuantity))) r ((storeGet (storeSet st incId ((storeGet st incId).fill (min (storeGet st incId).getRemainingQuantity (storeGet st r).getRemainingQuantity))) r).fill (min (storeGet st incId).getRemainingQuantity (storeGet st r).getRemainingQuantity))) r).price, (min (storeGet st incId).getRemainingQuantity (storeGet st r).getRemainingQuantity), (storeGet (storeSet (storeSet st incId ((storeGet st incId).fill (min (storeGet st incId).getRemainingQuantity (storeGet st r).getRemainingQuantity))) r ((storeGet (storeSet st incId ((storeGet st incId).fill (min (storeGet st incId).getRemainingQuantity (storeGet st r).getRemainingQuantity))) r).fill (min (storeGet st incId).getRemainingQuantity (storeGet st r).getRemainingQuantity))) incId).timestamp⟩ : Trade)]) (lvl.removeOrder (storeSet (storeSet st incId ((storeGet st incId).fill (min (storeGet st incId).getRemainingQuantity (storeGet st r).getRemainingQuantity))) r ((storeGet (storeSet st incId ((storeGet st incId).fill (min (storeGet st incId).getRemainingQuantity (storeGet st r).getRemainingQuantity))) r).fill (min (storeGet st incId).getRemainingQuantity (storeGet st r).getRemainingQuantity))) r) hni2
          refine ⟨?_, ?_, ?_, ?_, ?_, ?_, ?_⟩
          · intro k hk
            exact hsub _ (hrec.1 k hk)
          · intro k hk
            exact List.mem_of_mem_filter (hrec.2.1 k hk)
          · intro k hk hkl
            have hkr : k ≠ r := fun he => hkl (he ▸ hrin)
            have hkf : k ∈ keys.filter (fun k2 => k2 != r) := by
              rw [List.mem_filter]
              exact ⟨hk, by simpa using hkr⟩
            have hkl2 : k ∉ (lvl.removeOrder (storeSet (storeSet st incId ((storeGet st incId).fill (min (storeGet st incId).getRemainingQuantity (storeGet st r).getRemainingQuantity))) r ((storeGet (storeSet st incId ((storeGet st incId).fill (min (storeGet st incId).getRemainingQuantity (storeGet st r).getRemainingQuantity))) r).fill (min (storeGet st incId).getRemainingQuantity (storeGet st r).getRemainingQuantity))) r).orders :=
              fun hmem => hkl (hsub _ hmem)
            exact hrec.2.2.1 k hkf hkl2
          · rw [hrec.2.2.2.1]
            rfl
          · intro j hji hjl
            have hjr : j ≠ r := fun he => hjl (he ▸ hrin)
            have hjl2 : j ∉ (lvl.removeOrder (storeSet (storeSet st incId ((storeGet st incId).fill (min (storeGet st incId).getRemainingQuantity (storeGet st r).getRemainingQuantity))) r ((storeGet (storeSet st incId ((storeGet st incId).fill (min (storeGet st incId).getRemainingQuantity (storeGet st r).getRemainingQuantity))) r).fill (min (storeGet st incId).getRemainingQuantity (storeGet st r).getRemainingQuantity))) r).orders :=
              fun hmem => hjl (hsub _ hmem)
            rw [hrec.2.2.2.2.1 j hji hjl2]
            exact hframe2 j hji hjr
          · rw [hrec.2.2.2.2.2.1, storeSet_map_fst, storeSet_map_fst]
          · rw [hrec.2.2.2.2.2.2,
              storeGet_storeSet_ne _ _ _ _ (Ne.symm hrne)]
            exact storeGet_price_after_fillSet st incId (min (storeGet st incId).getRemainingQuantity (storeGet st r).getRemainingQuantity)
        · rw [if_neg hRf]
          refine ⟨fun k hk => hk, fun k hk => hk, fun k hk _ => hk, rfl, ?_, ?_, ?_⟩
          · intro j hji hjl
            have hjr : j ≠ r := fun he => hjl (he ▸ hrin)
            exact hframe2 j hji hjr
          · rw [storeSet_map_fst, storeSet_map_fst]
          · rw [storeGet_storeSet_ne _ _ _ _ (Ne.symm hrne)]
            exact storeGet_price_after_fillSet st incId (min (storeGet st incId).getRemainingQuantity (storeGet st r).getRemainingQuantity)

theorem matchOrders_frame (incId : Nat) (st : Store) (keys : List Nat) (tr : List Trade)
    (lvl : PriceLevel) (hni : incId ∉ lvl.orders) :
    (∀ k ∈ (matchOrders incId st keys tr lvl).level.orders, k ∈ lvl.orders) ∧
    (∀ k ∈ (matchOrders incId st keys tr lvl).mapKeys, k ∈ keys) ∧
    (∀ k ∈ keys, k ∉ lvl.orders → k ∈ (matchOrders incId st keys tr lvl).mapKeys) ∧
    (matchOrders incId st keys tr lvl).level.price = lvl.price ∧
    (∀ j, j ≠ incId → j ∉ lvl.orders →
      storeGet (matchOrders incId st keys tr lvl).orders j = storeGet st j) ∧
    (matchOrders incId st keys tr lvl).orders.map Prod.fst = st.map Prod.fst ∧
    (storeGet (matchOrders incId st keys tr lvl).orders incId).price
      = (storeGet st incId).price :=
  matchLoop_frame incId (lvl.orders.length + 1) st keys tr lvl hni

theorem addBuyLoop_frame (oid : Nat) :
    ∀ (ladder : List PriceLevel) (st : Store) (keys : List Nat) (tr : List Trade),
      (∀ l ∈ ladder, oid ∉ l.orders) →
      (∀ l2 ∈ (addBuyLoop oid st keys tr ladder).ladder, ∀ k ∈ l2.orders,
        ∃ l ∈ ladder, k ∈ l.orders) ∧
      (∀ k ∈ (addBuyLoop oid st keys tr ladder).mapKeys, k ∈ keys) ∧
      (∀ k ∈ keys, (∀ l ∈ ladder, k ∉ l.orders) →
        k ∈ (addBuyLoop oid st keys tr ladder).mapKeys) ∧
      (∀ j, j ≠ oid → (∀ l ∈ ladder, j ∉ l.orders) →
        storeGet (addBuyLoop oid st keys tr ladder).orders j = storeGet st j) ∧
      (addBuyLoop oid st keys tr ladder).orders.map Prod.fst = st.map Prod.fst ∧
      (storeGet (addBuyLoop oid st keys tr ladder).orders oid).price
        = (storeGet st oid).price ∧
      (∀ l2 ∈ (addBuyLoop oid st keys tr ladder).ladder, ∃ l ∈ ladder,
        l2.price = l.price) := by
  intro ladder
  induction ladder with
  | nil =>
    intro st keys tr _
    exact ⟨by simp [addBuyLoop], fun k hk => hk, fun k hk _ => hk,
      fun j _ _ => rfl, rfl, rfl, by simp [addBuyLoop]⟩
  | cons best rest ih =>
    intro st keys tr hlad
    have hnibest : oid ∉ best.orders := hlad best (List.mem_cons_self _ _)
    obtain ⟨hm2, hm3, hm4, hm5, hm6, hm7, hm8⟩ :=
      matchOrders_frame oid st keys tr best hnibest
    by_cases hf : (storeGet st oid).isFilled = true
    · rw [show addBuyLoop oid st keys tr (best :: rest) = ⟨st, keys, tr, best :: rest⟩
        from by simp [addBuyLoop, hf]]
      exact ⟨fun l2 hl2 k hk => ⟨l2, hl2, hk⟩, fun k hk => hk, fun k hk _ => hk,
        fun j _ _ => rfl, rfl, rfl, fun l2 hl2 => ⟨l2, hl2, rfl⟩⟩
    · have hf2 : (storeGet st oid).isFilled = false := by
        revert hf
        cases (storeGet st oid).isFilled <;> simp
      by_cases hlt : (storeGet st oid).price < best.price
      · rw [show addBuyLoop oid st keys tr (best :: rest) = ⟨st, keys, tr, best :: rest⟩
          from by simp [addBuyLoop, hf2, hlt]]
        exact ⟨fun l2 hl2 k hk => ⟨l2, hl2, hk⟩, fun k hk => hk, fun k hk _ => hk,
          fun j _ _ => rfl, rfl, rfl, fun l2 hl2 => ⟨l2, hl2, rfl⟩⟩
      · rw [show addBuyLoop oid st keys tr (best :: rest)
            = (if (matchOrders oid st keys tr best).level.isEmpty then
                addBuyLoop oid (matchOrders oid st keys tr best).orders (matchOrders oid st keys tr best).mapKeys (matchOrders oid st keys tr best).trades rest
              else ⟨(matchOrders oid st keys tr best).orders, (matchOrders oid st keys tr best).mapKeys, (matchOrders oid st keys tr best).trades, (matchOrders oid st keys tr best).level :: rest⟩)
          from by simp [addBuyLoop, hf2, hlt]]
        by_cases hEmp : ((matchOrders oid st keys tr best)).level.isEmpty = true
        · rw [if_pos hEmp]
          have hrest : ∀ l ∈ rest, oid ∉ l.orders :=
            fun l hl => hlad l (List.mem_cons_of_mem _ hl)
          obtain ⟨hr2, hr3, hr4, hr5, hr6, hr7, hr8⟩ :=
            ih (matchOrders oid st keys tr best).orders (matchOrders oid st keys tr best).mapKeys (matchOrders oid st keys tr best).trades hrest
          refine ⟨?_, ?_, ?_, ?_, ?_, ?_, ?_⟩
          · intro l2 hl2 k hk
            obtain ⟨l, hl, hkl⟩ := hr2 l2 hl2 k hk
            exact ⟨l, List.mem_cons_of_mem _ hl, hkl⟩
          · intro k hk
            exact hm3 k (hr3 k hk)
          · intro k hk hkn
            exact hr4 k (hm4 k hk (hkn best (List.mem_cons_self _ _)))
              (fun l hl => hkn l (List.mem_cons_of_mem _ hl))
          · intro j hj hjn
            rw [hr5 j hj (fun l hl => hjn l (List.mem_cons_of_mem _ hl))]
            exact hm6 j hj (hjn best (List.mem_cons_self _ _))
          · rw [hr6, hm7]
          · rw [hr7, hm8]
          · intro l2 hl2
            obtain ⟨l, hl, hpl⟩ := hr8 l2 hl2
            exact ⟨l, List.mem_cons_of_mem _ hl, hpl⟩
        · rw [if_neg hEmp]
          refine ⟨?_, hm3, ?_, ?_, hm7, hm8, ?_⟩
          · intro l2 hl2 k hk
            rw [List.mem_cons] at hl2
            rcases hl2 with hl2 | hl2
            · exact ⟨best, List.mem_cons_self _ _, hm2 k (hl2 ▸ hk)⟩
            · exact ⟨l2, List.mem_cons_of_mem _ hl2, hk⟩
          · intro k hk hkn
            exact hm4 k hk (hkn best (List.mem_cons_self _ _))
          · intro j hj hjn
            exact hm6 j hj (hjn best (List.mem_cons_self _ _))
          · intro l2 hl2
            rw [List.mem_cons] at hl2
            rcases hl2 with hl2 | hl2
            · exact ⟨best, List.mem_cons_self _ _, hl2 ▸ hm5⟩
            · exact ⟨l2, List.mem_cons_of_mem _ hl2, rfl⟩

theorem addSellLoop_frame (oid : Nat) :
    ∀ (ladder : List PriceLevel) (st : Store) (keys : List Nat) (tr : List Trade),
      (∀ l ∈ ladder, oid ∉ l.orders) →
      (∀ l2 ∈ (addSellLoop oid st keys tr ladder).ladder, ∀ k ∈ l2.orders,
        ∃ l ∈ ladder, k ∈ l.orders) ∧
      (∀ k ∈ (addSellLoop oid st keys tr ladder).mapKeys, k ∈ keys) ∧
      (∀ k ∈ keys, (∀ l ∈ ladder, k ∉ l.orders) →
        k ∈ (addSellLoop oid st keys tr ladder).mapKeys) ∧
      (∀ j, j ≠ oid → (∀ l ∈ ladder, j ∉ l.orders) →
        storeGet (addSellLoop oid st keys tr ladder).orders j = storeGet st j) ∧
      (addSellLoop oid st keys tr ladder).orders.map Prod.fst = st.map Prod.fst ∧
      (storeGet (addSellLoop oid st keys tr ladder).orders oid).price
        = (storeGet st oid).price ∧
      (∀ l2 ∈ (addSellLoop oid st keys tr ladder).ladder, ∃ l ∈ ladder,
        l2.price = l.price) := by
  intro ladder
  induction ladder with
  | nil =>
    intro st keys tr _
    exact ⟨by simp [addSellLoop], fun k hk => hk, fun k hk _ => hk,
      fun j _ _ => rfl, rfl, rfl, by simp [addSellLoop]⟩
  | cons best rest ih =>
    intro st keys tr hlad
    have hnibest : oid ∉ best.orders := hlad best (List.mem_cons_self _ _)
    obtain ⟨hm2, hm3, hm4, hm5, hm6, hm7, hm8⟩ :=
      matchOrders_frame oid st keys tr best hnibest
    by_cases hf : (storeGet st oid).isFilled = true
    · rw [show addSellLoop oid st keys tr (best :: rest) = ⟨st, keys, tr, best :: rest⟩
        from by simp [addSellLoop, hf]]
      exact ⟨fun l2 hl2 k hk => ⟨l2, hl2, hk⟩, fun k hk => hk, fun k hk _ => hk,
        fun j _ _ => rfl, rfl, rfl, fun l2 hl2 => ⟨l2, hl2, rfl⟩⟩
    · have hf2 : (storeGet st oid).isFilled = false := by
        revert hf
        cases (storeGet st oid).isFilled <;> simp
      by_cases hlt : best.price < (storeGet st oid).price
      · rw [show addSellLoop oid st keys tr (best :: rest) = ⟨st, keys, tr, best :: rest⟩
          from by simp [addSellLoop, hf2, hlt]]
        exact ⟨fun l2 hl2 k hk => ⟨l2, hl2, hk⟩, fun k hk => hk, fun k hk _ => hk,
          fun j _ _ => rfl, rfl, rfl, fun l2 hl2 => ⟨l2, hl2, rfl⟩⟩
      · rw [show addSellLoop oid st keys tr (best :: rest)
            = (if (matchOrders oid st keys tr best).level.isEmpty then
                addSellLoop oid (matchOrders oid st keys tr best).orders (matchOrders oid st keys tr best).mapKeys (matchOrders oid st keys tr best).trades rest
              else ⟨(matchOrders oid st keys tr best).orders, (matchOrders oid st keys tr best).mapKeys, (matchOrders oid st keys tr best).trades, (matchOrders oid st keys tr best).level :: rest⟩)
          from by simp [addSellLoop, hf2, hlt]]
        by_cases hEmp : ((matchOrders oid st keys tr best)).level.isEmpty = true
        · rw [if_pos hEmp]
          have hrest : ∀ l ∈ rest, oid ∉ l.orders :=
            fun l hl => hlad l (List.mem_cons_of_mem _ hl)
          obtain ⟨hr2, hr3, hr4, hr5, hr6, hr7, hr8⟩ :=
            ih (matchOrders oid st keys tr best).orders (matchOrders oid st keys tr best).mapKeys (matchOrders oid st keys tr best).trades hrest
          refine ⟨?_, ?_, ?_, ?_, ?_, ?_, ?_⟩
          · intro l2 hl2 k hk
            obtain ⟨l, hl, hkl⟩ := hr2 l2 hl2 k hk
            exact ⟨l, List.mem_cons_of_mem _ hl, hkl⟩
          · intro k hk
            exact hm3 k (hr3 k hk)
          · intro k hk hkn
            exact hr4 k (hm4 k hk (hkn best (List.mem_cons_self _ _)))
              (fun l hl => hkn l (List.mem_cons_of_mem _ hl))
          · intro j hj hjn
            rw [hr5 j hj (fun l hl => hjn l (List.mem_cons_of_mem _ hl))]
            exact hm6 j hj (hjn best (List.mem_cons_self _ _))
          · rw [hr6, hm7]
          · rw [hr7, hm8]
          · intro l2 hl2
            obtain ⟨l, hl, hpl⟩ := hr8 l2 hl2
            exact ⟨l, List.mem_cons_of_mem _ hl, hpl⟩
        · rw [if_neg hEmp]
          refine ⟨?_, hm3, ?_, ?_, hm7, hm8, ?_⟩
          · intro l2 hl2 k hk
            rw [List.mem_cons] at hl2
            rcases hl2 with hl2 | hl2
            · exact ⟨best, List.mem_cons_self _ _, hm2 k (hl2 ▸ hk)⟩
            · exact ⟨l2, List.mem_cons_of_mem _ hl2, hk⟩
          · intro k hk hkn
            exact hm4 k hk (hkn best (List.mem_cons_self _ _))
          · intro j hj hjn
            exact hm6 j hj (hjn best (List.mem_cons_self _ _))
          · intro l2 hl2
            rw [List.mem_cons] at hl2
            rcases hl2 with hl2 | hl2
            · exact ⟨best, List.mem_cons_self _ _, hl2 ▸ hm5⟩
            · exact ⟨l2, List.mem_cons_of_mem _ hl2, rfl⟩

theorem addBuyOrder_below (b : OrderBook) (oid N : Nat)
    (hni : ∀ l ∈ b.asks, oid ∉ l.orders)
    (hst : ∀ pr ∈ b.orders, pr.1 < N)
    (hkeys : ∀ k ∈ b.mapKeys, k < N)
    (hbids : ∀ l ∈ b.bids, ∀ k ∈ l.orders, k < N)
    (hasks : ∀ l ∈ b.asks, ∀ k ∈ l.orders, k < N)
    (hoid : oid < N) :
    (∀ pr ∈ (b.addBuyOrder oid).orders, pr.1 < N) ∧
    (∀ k ∈ (b.addBuyOrder oid).mapKeys, k < N) ∧
    (∀ l ∈ (b.addBuyOrder oid).bids, ∀ k ∈ l.orders, k < N) ∧
    (∀ l ∈ (b.addBuyOrder oid).asks, ∀ k ∈ l.orders, k < N) ∧
    (b.addBuyOrder oid).nextOrderId = b.nextOrderId := by
  obtain ⟨g1, g2, _, _, g5, _, _⟩ :=
    addBuyLoop_frame oid b.asks b.orders b.mapKeys b.trades hni
  have hstL : ∀ pr ∈ (addBuyLoop oid b.orders b.mapKeys b.trades b.asks).orders, pr.1 < N :=
    idsBelow_of_map_fst b.orders _ N g5 hst
  have hkeysL : ∀ k ∈ (addBuyLoop oid b.orders b.mapKeys b.trades b.asks).mapKeys, k < N :=
    fun k hk => hkeys k (g2 k hk)
  have hladL : ∀ l ∈ (addBuyLoop oid b.orders b.mapKeys b.trades b.asks).ladder,
      ∀ k ∈ l.orders, k < N := by
    intro l hl k hk
    obtain ⟨l0, hl0, hkl0⟩ := g1 l hl k hk
    exact hasks l0 hl0 k hkl0
  rcases addBuyOrder_eq b oid with he | he
  · rw [he]
    exact ⟨hstL, hkeysL, hbids, hladL, rfl⟩
  · rw [he]
    refine ⟨hstL, hkeysL, ?_, hladL, rfl⟩
    intro l hl k hk
    rcases ladderInsertDesc_mem _ oid _ b.bids l hl k hk with ⟨l0, hl0, hkl0⟩ | hko
    · exact hbids l0 hl0 k hkl0
    · exact hko ▸ hoid

theorem addSellOrder_below (b : OrderBook) (oid N : Nat)
    (hni : ∀ l ∈ b.bids, oid ∉ l.orders)
    (hst : ∀ pr ∈ b.orders, pr.1 < N)
    (hkeys : ∀ k ∈ b.mapKeys, k < N)
    (hbids : ∀ l ∈ b.bids, ∀ k ∈ l.orders, k < N)
    (hasks : ∀ l ∈ b.asks, ∀ k ∈ l.orders, k < N)
    (hoid : oid < N) :
    (∀ pr ∈ (b.addSellOrder oid).orders, pr.1 < N) ∧
    (∀ k ∈ (b.addSellOrder oid).mapKeys, k < N) ∧
    (∀ l ∈ (b.addSellOrder oid).bids, ∀ k ∈ l.orders, k < N) ∧
    (∀ l ∈ (b.addSellOrder oid).asks, ∀ k ∈ l.orders, k < N) ∧
    (b.addSellOrder oid).nextOrderId = b.nextOrderId := by
  obtain ⟨g1, g2, _, _, g5, _, _⟩ :=
    addSellLoop_frame oid b.bids b.orders b.mapKeys b.trades hni
  have hstL : ∀ pr ∈ (addSellLoop oid b.orders b.mapKeys b.trades b.bids).orders, pr.1 < N :=
    idsBelow_of_map_fst b.orders _ N g5 hst
  have hkeysL : ∀ k ∈ (addSellLoop oid b.orders b.mapKeys b.trades b.bids).mapKeys, k < N :=
    fun k hk => hkeys k (g2 k hk)
  have hladL : ∀ l ∈ (addSellLoop oid b.orders b.mapKeys b.trades b.bids).ladder,
      ∀ k ∈ l.orders, k < N := by
    intro l hl k hk
    obtain ⟨l0, hl0, hkl0⟩ := g1 l hl k hk
    exact hbids l0 hl0 k hkl0
  rcases addSellOrder_eq b oid with he | he
  · rw [he]
    exact ⟨hstL, hkeysL, hladL, hasks, rfl⟩
  · rw [he]
    refine ⟨hstL, hkeysL, hladL, ?_, rfl⟩
    intro l hl k hk
    rcases ladderInsertAsc_mem _ oid _ b.asks l hl k hk with ⟨l0, hl0, hkl0⟩ | hko
    · exact hasks l0 hl0 k hkl0
    · exact hko ▸ hoid

theorem step_idsFresh (b : OrderBook) (op : Op) (hF : idsFresh b) :
    idsFresh (step b op) := by
  obtain ⟨hFst, hFkeys, hFlad⟩ := hF
  have hFbids : ∀ l ∈ b.bids, ∀ k ∈ l.orders, k < b.nextOrderId :=
    fun l hl => hFlad l (List.mem_append_left _ hl)
  have hFasks : ∀ l ∈ b.asks, ∀ k ∈ l.orders, k < b.nextOrderId :=
    fun l hl => hFlad l (List.mem_append_right _ hl)
  cases op with
  | submit p q s ts =>
    set oid := b.nextOrderId with hoiddef
    set o : Order := ⟨oid, ts % U64MOD, p % U32MOD, q % U32MOD, 0, s, OrderType.LIMIT, OrderStatus.NEW⟩ with hodef
    set b1 : OrderBook := { b with orders := b.orders ++ [(oid, o)], mapKeys := b.mapKeys ++ [oid], nextOrderId := b.nextOrderId + 1 } with hb1def
    have hst1 : ∀ pr ∈ b1.orders, pr.1 < b.nextOrderId + 1 := by
      intro pr hpr
      rw [show b1.orders = b.orders ++ [(oid, o)] from rfl, List.mem_append,
        List.mem_singleton] at hpr
      rcases hpr with hpr | hpr
      · exact Nat.lt_succ_of_lt (hFst pr hpr)
      · rw [hpr]
        exact Nat.lt_succ_self _
    have hkeys1 : ∀ k ∈ b1.mapKeys, k < b.nextOrderId + 1 := by
      intro k hk
      rw [show b1.mapKeys = b.mapKeys ++ [oid] from rfl, List.mem_append,
        List.mem_singleton] at hk
      rcases hk with hk | hk
      · exact Nat.lt_succ_of_lt (hFkeys k hk)
      · rw [hk]
        exact Nat.lt_succ_self _
    have hbids1 : ∀ l ∈ b1.bids, ∀ k ∈ l.orders, k < b.nextOrderId + 1 :=
      fun l hl k hk => Nat.lt_succ_of_lt (hFbids l hl k hk)
    have hasks1 : ∀ l ∈ b1.asks, ∀ k ∈ l.orders, k < b.nextOrderId + 1 :=
      fun l hl k hk => Nat.lt_succ_of_lt (hFasks l hl k hk)
    have hnib : ∀ l ∈ b1.bids, oid ∉ l.orders :=
      fun l hl hk => Nat.lt_irrefl _ (hFbids l hl oid hk)
    have hnia : ∀ l ∈ b1.asks, oid ∉ l.orders :=
      fun l hl hk => Nat.lt_irrefl _ (hFasks l hl oid hk)
    have hoid1 : oid < b.nextOrderId + 1 := Nat.lt_succ_self _
    have hres : step b (Op.submit p q s ts)
        = if s == OrderSide.BUY then b1.addBuyOrder oid else b1.addSellOrder oid := rfl
    cases s with
    | BUY =>
      rw [hres]
      simp only [show (OrderSide.BUY == OrderSide.BUY) = true from rfl, if_pos]
      obtain ⟨g2, g3, g4, g5, g6⟩ :=
        addBuyOrder_below b1 oid (b.nextOrderId + 1) hnia hst1 hkeys1 hbids1 hasks1 hoid1
      have hN : (b1.addBuyOrder oid).nextOrderId = b.nextOrderId + 1 := g6
      refine ⟨?_, ?_, ?_⟩
      · rw [hN]
        exact g2
      · rw [hN]
        exact g3
      · rw [hN]
        intro l hl
        rw [List.mem_append] at hl
        rcases hl with hl | hl
        · exact g4 l hl
        · exact g5 l hl
    | SELL =>
      rw [hres]
      simp only [show (OrderSide.SELL == OrderSide.BUY) = false from rfl, Bool.false_eq_true,
        if_false]
      obtain ⟨g2, g3, g4, g5, g6⟩ :=
        addSellOrder_below b1 oid (b.nextOrderId + 1) hnib hst1 hkeys1 hbids1 hasks1 hoid1
      have hN : (b1.addSellOrder oid).nextOrderId = b.nextOrderId + 1 := g6
      refine ⟨?_, ?_, ?_⟩
      · rw [hN]
        exact g2
      · rw [hN]
        exact g3
      · rw [hN]
        intro l hl
        rw [List.mem_append] at hl
        rcases hl with hl | hl
        · exact g4 l hl
        · exact g5 l hl
  | cancel oid =>
    show idsFresh (b.cancelOrder oid).1
    rcases cancelOrder_cases b oid with he | he
    · rw [he]
      exact ⟨hFst, hFkeys, hFlad⟩
    · rw [he]
      refine ⟨?_, ?_, ?_⟩
      · show ∀ pr ∈ storeSet (b.removeOrder oid).orders oid _, pr.1 < (b.removeOrder oid).nextOrderId
        rw [removeOrder_orders, removeOrder_nextOrderId]
        exact storeSet_idsBelow _ _ _ _ hFst
      · show ∀ k ∈ (b.removeOrder oid).mapKeys.filter _, k < (b.removeOrder oid).nextOrderId
        rw [removeOrder_mapKeys, removeOrder_nextOrderId]
        intro k hk
        exact hFkeys k (List.mem_of_mem_filter hk)
      · show ∀ l ∈ (b.removeOrder oid).bids ++ (b.removeOrder oid).asks,
          ∀ k ∈ l.orders, k < (b.removeOrder oid).nextOrderId
        rw [removeOrder_nextOrderId]
        obtain ⟨g1, g2⟩ := removeOrder_below b oid b.nextOrderId hFbids hFasks
        intro l hl
        rw [List.mem_append] at hl
        rcases hl with hl | hl
        · exact g1 l hl
        · exact g2 l hl
  | modify oid nq =>
    show idsFresh (b.modifyOrder oid nq).1
    rcases modifyOrder_cases b oid nq with ⟨he, _⟩ | ⟨hc, he | he⟩
    · rw [he]
      exact ⟨hFst, hFkeys, hFlad⟩
    · rw [he]
      refine ⟨storeSet_idsBelow _ _ _ _ hFst, hFkeys, ?_⟩
      intro l hl
      rw [List.mem_append] at hl
      rcases hl with hl | hl
      · obtain ⟨l0, hl0, heq⟩ := ladderAdjust_mem_orders _ _ b.bids l hl
        rw [heq]
        exact hFbids l0 hl0
      · exact hFasks l hl
    · rw [he]
      refine ⟨storeSet_idsBelow _ _ _ _ hFst, hFkeys, ?_⟩
      intro l hl
      rw [List.mem_append] at hl
      rcases hl with hl | hl
      · exact hFbids l hl
      · obtain ⟨l0, hl0, heq⟩ := ladderAdjust_mem_orders _ _ b.asks l hl
        rw [heq]
        exact hFasks l0 hl0

theorem contains_of_mem (l : List Nat) (a : Nat) (h : a ∈ l) : l.contains a = true := by
  simpa using h

theorem mem_of_contains (l : List Nat) (a : Nat) (h : l.contains a = true) : a ∈ l := by
  simpa using h

theorem removeOrder_level_mem (b : OrderBook) (j : Nat) :
    ∀ l ∈ (b.removeOrder j).bids ++ (b.removeOrder j).asks, ∀ k ∈ l.orders,
      ∃ l0 ∈ b.bids ++ b.asks, k ∈ l0.orders := by
  have hsides : (storeGet b.orders j).side = OrderSide.BUY ∨
      (storeGet b.orders j).side = OrderSide.SELL := by
    cases (storeGet b.orders j).side
    · exact Or.inl rfl
    · exact Or.inr rfl
  rcases hsides with hs | hs
  · obtain ⟨hb, ha⟩ := removeOrder_of_buy b j hs
    intro l hl k hk
    rw [List.mem_append, hb, ha] at hl
    rcases hl with hl | hl
    · obtain ⟨l0, hl0, hkl0⟩ := ladderRemove_mem b.orders j _ b.bids l hl k hk
      exact ⟨l0, List.mem_append_left _ hl0, hkl0⟩
    · exact ⟨l, List.mem_append_right _ hl, hk⟩
  · obtain ⟨ha, hb⟩ := removeOrder_of_sell b j hs
    intro l hl k hk
    rw [List.mem_append, hb, ha] at hl
    rcases hl with hl | hl
    · exact ⟨l, List.mem_append_left _ hl, hk⟩
    · obtain ⟨l0, hl0, hkl0⟩ := ladderRemove_mem b.orders j _ b.asks l hl k hk
      exact ⟨l0, List.mem_append_right _ hl0, hkl0⟩

theorem step_lingering (b : OrderBook) (op : Op) (oid : Nat)
    (hF : idsFresh b) (hL : lingering b oid) (hne : op ≠ Op.cancel oid) :
    lingering (step b op) oid := by
  obtain ⟨hFst, hFkeys, hFlad⟩ := hF
  have hFbids : ∀ l ∈ b.bids, ∀ k ∈ l.orders, k < b.nextOrderId :=
    fun l hl => hFlad l (List.mem_append_left _ hl)
  have hFasks : ∀ l ∈ b.asks, ∀ k ∈ l.orders, k < b.nextOrderId :=
    fun l hl => hFlad l (List.mem_append_right _ hl)
  obtain ⟨hc, hstat, hlad⟩ := hL
  have hmem : oid ∈ b.mapKeys := mem_of_contains _ _ hc
  cases op with
  | submit p q s ts =>
    have holt : oid < b.nextOrderId := hFkeys oid hmem
    have hone : oid ≠ b.nextOrderId := Nat.ne_of_lt holt
    set n := b.nextOrderId with hndef
    set o : Order := ⟨n, ts % U64MOD, p % U32MOD, q % U32MOD, 0, s, OrderType.LIMIT, OrderStatus.NEW⟩ with hodef
    set b1 : OrderBook := { b with orders := b.orders ++ [(n, o)], mapKeys := b.mapKeys ++ [n], nextOrderId := b.nextOrderId + 1 } with hb1def
    have hmem1 : oid ∈ b1.mapKeys := List.mem_append_left _ hmem
    have hget1 : storeGet b1.orders oid = storeGet b.orders oid :=
      storeGet_append_ne _ _ _ _ hone
    have hnia : ∀ l ∈ b1.asks, n ∉ l.orders :=
      fun l hl hk => Nat.lt_irrefl _ (hFasks l hl n hk)
    have hnib : ∀ l ∈ b1.bids, n ∉ l.orders :=
      fun l hl hk => Nat.lt_irrefl _ (hFbids l hl n hk)
    have hoaskn : ∀ l ∈ b1.asks, oid ∉ l.orders :=
      fun l hl => hlad l (List.mem_append_right _ hl)
    have hobidn : ∀ l ∈ b1.bids, oid ∉ l.orders :=
      fun l hl => hlad l (List.mem_append_left _ hl)
    cases s with
    | BUY =>
      have hres : step b (Op.submit p q OrderSide.BUY ts) = b1.addBuyOrder n := rfl
      rw [hres]
      obtain ⟨g1, g2, g3, g4, g5, g6, g7⟩ :=
        addBuyLoop_frame n b1.asks b1.orders b1.mapKeys b1.trades hnia
      have hkeymem : oid ∈ (addBuyLoop n b1.orders b1.mapKeys b1.trades b1.asks).mapKeys :=
        g3 oid hmem1 hoaskn
      have hgetm : storeGet (addBuyLoop n b1.orders b1.mapKeys b1.trades b1.asks).orders oid
          = storeGet b1.orders oid :=
        g4 oid hone hoaskn
      have hmlad : ∀ l2 ∈ (addBuyLoop n b1.orders b1.mapKeys b1.trades b1.asks).ladder,
          oid ∉ l2.orders := by
        intro l2 hl2 hk
        obtain ⟨l0, hl0, hkl0⟩ := g1 l2 hl2 oid hk
        exact hoaskn l0 hl0 hkl0
      rcases addBuyOrder_eq b1 n with he | he
      · rw [he]
        refine ⟨contains_of_mem _ _ hkeymem, ?_, ?_⟩
        · rw [show storeGet ({ b1 with orders := (addBuyLoop n b1.orders b1.mapKeys b1.trades b1.asks).orders, mapKeys := (addBuyLoop n b1.orders b1.mapKeys b1.trades b1.asks).mapKeys, trades := (addBuyLoop n b1.orders b1.mapKeys b1.trades b1.asks).trades, asks := (addBuyLoop n b1.orders b1.mapKeys b1.trades b1.asks).ladder } : OrderBook).orders oid = storeGet b.orders oid from by rw [show ({ b1 with orders := (addBuyLoop n b1.orders b1.mapKeys b1.trades b1.asks).orders, mapKeys := (addBuyLoop n b1.orders b1.mapKeys b1.trades b1.asks).mapKeys, trades := (addBuyLoop n b1.orders b1.mapKeys b1.trades b1.asks).trades, asks := (addBuyLoop n b1.orders b1.mapKeys b1.trades b1.asks).ladder } : OrderBook).orders = (addBuyLoop n b1.orders b1.mapKeys b1.trades b1.asks).orders from rfl, hgetm, hget1]]
          exact hstat
        · intro l hl
          rw [List.mem_append] at hl
          rcases hl with hl | hl
          · exact hobidn l hl
          · exact hmlad l hl
      · rw [he]
        refine ⟨contains_of_mem _ _ hkeymem, ?_, ?_⟩
        · rw [show storeGet ({ b1 with orders := (addBuyLoop n b1.orders b1.mapKeys b1.trades b1.asks).orders, mapKeys := (addBuyLoop n b1.orders b1.mapKeys b1.trades b1.asks).mapKeys, trades := (addBuyLoop n b1.orders b1.mapKeys b1.trades b1.asks).trades, asks := (addBuyLoop n b1.orders b1.mapKeys b1.trades b1.asks).ladder, bids := ladderInsertDesc (addBuyLoop n b1.orders b1.mapKeys b1.trades b1.asks).orders n (storeGet (addBuyLoop n b1.orders b1.mapKeys b1.trades b1.asks).orders n).price b1.bids } : OrderBook).orders oid = storeGet b.orders oid from by rw [show ({ b1 with orders := (addBuyLoop n b1.orders b1.mapKeys b1.trades b1.asks).orders, mapKeys := (addBuyLoop n b1.orders b1.mapKeys b1.trades b1.asks).mapKeys, trades := (addBuyLoop n b1.orders b1.mapKeys b1.trades b1.asks).trades, asks := (addBuyLoop n b1.orders b1.mapKeys b1.trades b1.asks).ladder, bids := ladderInsertDesc (addBuyLoop n b1.orders b1.mapKeys b1.trades b1.asks).orders n (storeGet (addBuyLoop n b1.orders b1.mapKeys b1.trades b1.asks).orders n).price b1.bids } : OrderBook).orders = (addBuyLoop n b1.orders b1.mapKeys b1.trades b1.asks).orders from rfl, hgetm, hget1]]
          exact hstat
        · intro l hl
          rw [List.mem_append] at hl
          rcases hl with hl | hl
          · intro hk
            rcases ladderInsertDesc_mem _ n _ b1.bids l hl oid hk with ⟨l0, hl0, hkl0⟩ | hko
            · exact hobidn l0 hl0 hkl0
            · exact hone hko
          · exact hmlad l hl
    | SELL =>
      have hres : step b (Op.submit p q OrderSide.SELL ts) = b1.addSellOrder n := rfl
      rw [hres]
      obtain ⟨g1, g2, g3, g4, g5, g6, g7⟩ :=
        addSellLoop_frame n b1.bids b1.orders b1.mapKeys b1.trades hnib
      have hkeymem : oid ∈ (addSellLoop n b1.orders b1.mapKeys b1.trades b1.bids).mapKeys :=
        g3 oid hmem1 hobidn
      have hgetm : storeGet (addSellLoop n b1.orders b1.mapKeys b1.trades b1.bids).orders oid
          = storeGet b1.orders oid :=
        g4 oid hone hobidn
      have hmlad : ∀ l2 ∈ (addSellLoop n b1.orders b1.mapKeys b1.trades b1.bids).ladder,
          oid ∉ l2.orders := by
        intro l2 hl2 hk
        obtain ⟨l0, hl0, hkl0⟩ := g1 l2 hl2 oid hk
        exact hobidn l0 hl0 hkl0
      rcases addSellOrder_eq b1 n with he | he
      · rw [he]
        refine ⟨contains_of_mem _ _ hkeymem, ?_, ?_⟩
        · rw [show storeGet ({ b1 with orders := (addSellLoop n b1.orders b1.mapKeys b1.trades b1.bids).orders, mapKeys := (addSellLoop n b1.orders b1.mapKeys b1.trades b1.bids).mapKeys, trades := (addSellLoop n b1.orders b1.mapKeys b1.trades b1.bids).trades, bids := (addSellLoop n b1.orders b1.mapKeys b1.trades b1.bids).ladder } : OrderBook).orders oid = storeGet b.orders oid from by rw [show ({ b1 with orders := (addSellLoop n b1.orders b1.mapKeys b1.trades b1.bids).orders, mapKeys := (addSellLoop n b1.orders b1.mapKeys b1.trades b1.bids).mapKeys, trades := (addSellLoop n b1.orders b1.mapKeys b1.trades b1.bids).trades, bids := (addSellLoop n b1.orders b1.mapKeys b1.trades b1.bids).ladder } : OrderBook).orders = (addSellLoop n b1.orders b1.mapKeys b1.trades b1.bids).orders from rfl, hgetm, hget1]]
          exact hstat
        · intro l hl
          rw [List.mem_append] at hl
          rcases hl with hl | hl
          · exact hmlad l hl
          · exact hoaskn l hl
      · rw [he]
        refine ⟨contains_of_mem _ _ hkeymem, ?_, ?_⟩
        · rw [show storeGet ({ b1 with orders := (addSellLoop n b1.orders b1.mapKeys b1.trades b1.bids).orders, mapKeys := (addSellLoop n b1.orders b1.mapKeys b1.trades b1.bids).mapKeys, trades := (addSellLoop n b1.orders b1.mapKeys b1.trades b1.bids).trades, bids := (addSellLoop n b1.orders b1.mapKeys b1.trades b1.bids).ladder, asks := ladderInsertAsc (addSellLoop n b1.orders b1.mapKeys b1.trades b1.bids).orders n (storeGet (addSellLoop n b1.orders b1.mapKeys b1.trades b1.bids).orders n).price b1.asks } : OrderBook).orders oid = storeGet b.orders oid from by rw [show ({ b1 with orders := (addSellLoop n b1.orders b1.mapKeys b1.trades b1.bids).orders, mapKeys := (addSellLoop n b1.orders b1.mapKeys b1.trades b1.bids).mapKeys, trades := (addSellLoop n b1.orders b1.mapKeys b1.trades b1.bids).trades, bids := (addSellLoop n b1.orders b1.mapKeys b1.trades b1.bids).ladder, asks := ladderInsertAsc (addSellLoop n b1.orders b1.mapKeys b1.trades b1.bids).orders n (storeGet (addSellLoop n b1.orders b1.mapKeys b1.trades b1.bids).orders n).price b1.asks } : OrderBook).orders = (addSellLoop n b1.orders b1.mapKeys b1.trades b1.bids).orders from rfl, hgetm, hget1]]
          exact hstat
        · intro l hl
          rw [List.mem_append] at hl
          rcases hl with hl | hl
          · exact hmlad l hl
          · intro hk
            rcases ladderInsertAsc_mem _ n _ b1.asks l hl oid hk with ⟨l0, hl0, hkl0⟩ | hko
            · exact hoaskn l0 hl0 hkl0
            · exact hone hko
  | cancel j =>
    have hjo : j ≠ oid := by
      intro h
      exact hne (by rw [h])
    show lingering (b.cancelOrder j).1 oid
    rcases cancelOrder_cases b j with he | he
    · rw [he]
      exact ⟨hc, hstat, hlad⟩
    · rw [he]
      refine ⟨?_, ?_, ?_⟩
      · show ((b.removeOrder j).mapKeys.filter (fun k => k != j)).contains oid = true
        rw [removeOrder_mapKeys]
        apply contains_of_mem
        rw [List.mem_filter]
        exact ⟨hmem, by simpa using Ne.symm hjo⟩
      · show (storeGet (storeSet (b.removeOrder j).orders j _) oid).status = OrderStatus.NEW
        rw [removeOrder_orders, storeGet_storeSet_ne _ _ _ _ (Ne.symm hjo)]
        exact hstat
      · intro l hl hk
        obtain ⟨l0, hl0, hkl0⟩ := removeOrder_level_mem b j l hl oid hk
        exact hlad l0 hl0 hkl0
  | modify j nq =>
    show lingering (b.modifyOrder j nq).1 oid
    have hstat2 : ∀ st2 : Store, st2 = storeSet b.orders j { storeGet b.orders j with quantity := nq % U32MOD } → (storeGet st2 oid).status = OrderStatus.NEW := by
      intro st2 hst2
      subst hst2
      by_cases hj : j = oid
      · subst hj
        rcases storeGet_storeSet_self_or b.orders j
            { storeGet b.orders j with quantity := nq % U32MOD } with hg | hg
        · rw [hg]
          exact hstat
        · rw [hg]
          exact hstat
      · rw [storeGet_storeSet_ne _ _ _ _ (fun h => hj h.symm)]
        exact hstat
    rcases modifyOrder_cases b j nq with ⟨he, _⟩ | ⟨hcj, he | he⟩
    · rw [he]
      exact ⟨hc, hstat, hlad⟩
    · rw [he]
      refine ⟨hc, hstat2 _ rfl, ?_⟩
      intro l hl hk
      rw [List.mem_append] at hl
      rcases hl with hl | hl
      · obtain ⟨l0, hl0, heq⟩ := ladderAdjust_mem_orders _ _ b.bids l hl
        rw [heq] at hk
        exact hlad l0 (List.mem_append_left _ hl0) hk
      · exact hlad l (List.mem_append_right _ hl) hk
    · rw [he]
      refine ⟨hc, hstat2 _ rfl, ?_⟩
      intro l hl hk
      rw [List.mem_append] at hl
      rcases hl with hl | hl
      · exact hlad l (List.mem_append_left _ hl) hk
      · obtain ⟨l0, hl0, heq⟩ := ladderAdjust_mem_orders _ _ b.asks l hl
        rw [heq] at hk
        exact hlad l0 (List.mem_append_right _ hl0) hk

theorem run_lingering : ∀ (ops : List Op) (b : OrderBook) (oid : Nat),
    idsFresh b → lingering b oid → (∀ op ∈ ops, op ≠ Op.cancel oid) →
    lingering (run b ops) oid := by
  intro ops
  induction ops with
  | nil =>
    intro b oid _ hL _
    exact hL
  | cons op ops ih =>
    intro b oid hF hL hne
    have h1 := step_idsFresh b op hF
    have h2 := step_lingering b op oid hF hL (hne op (List.mem_cons_self _ _))
    have hrun : run b (op :: ops) = run (step b op) ops := by
      simp [run, List.foldl]
    rw [hrun]
    exact ih (step b op) oid h1 h2 (fun op2 hop2 => hne op2 (List.mem_cons_of_mem _ hop2))

theorem addOrder_zero_effects (b : OrderBook) (p : Nat) (s : OrderSide) (ts : Nat)
    (hfresh : idsFresh b) :
    (b.addOrder p 0 s ts).2 = b.nextOrderId ∧
    (b.addOrder p 0 s ts).1.bids = b.bids ∧
    (b.addOrder p 0 s ts).1.asks = b.asks ∧
    (b.addOrder p 0 s ts).1.trades = b.trades ∧
    lingering (b.addOrder p 0 s ts).1 b.nextOrderId := by
  obtain ⟨hf1, hf2, hf3⟩ := hfresh
  have hne2 : ∀ pr ∈ b.orders, pr.1 ≠ b.nextOrderId :=
    fun pr hpr => Nat.ne_of_lt (hf1 pr hpr)
  have hnotin : ∀ l ∈ b.bids ++ b.asks, b.nextOrderId ∉ l.orders := by
    intro l hl hmem
    exact absurd rfl (Nat.ne_of_lt (hf3 l hl _ hmem))
  cases s with
  | BUY =>
    have hst : storeGet (b.orders ++ [(b.nextOrderId,
        ⟨b.nextOrderId, ts % U64MOD, p % U32MOD, 0 % U32MOD, 0, OrderSide.BUY,
         OrderType.LIMIT, OrderStatus.NEW⟩)]) b.nextOrderId
        = ⟨b.nextOrderId, ts % U64MOD, p % U32MOD, 0 % U32MOD, 0, OrderSide.BUY,
           OrderType.LIMIT, OrderStatus.NEW⟩ :=
      storeGet_append_fresh _ _ _ hne2
    have hfill : (storeGet (b.orders ++ [(b.nextOrderId,
        ⟨b.nextOrderId, ts % U64MOD, p % U32MOD, 0 % U32MOD, 0, OrderSide.BUY,
         OrderType.LIMIT, OrderStatus.NEW⟩)]) b.nextOrderId).isFilled = true := by
      rw [hst]
      simp [Order.isFilled]
    have hloop := addBuyLoop_of_filled b.nextOrderId
      (b.orders ++ [(b.nextOrderId,
        ⟨b.nextOrderId, ts % U64MOD, p % U32MOD, 0 % U32MOD, 0, OrderSide.BUY,
         OrderType.LIMIT, OrderStatus.NEW⟩)])
      (b.mapKeys ++ [b.nextOrderId]) b.trades b.asks hfill
    simp only [OrderBook.addOrder, OrderBook.addBuyOrder,
      show (OrderSide.BUY == OrderSide.BUY) = true from rfl, if_true, hloop, hfill]
    refine ⟨trivial, trivial, trivial, trivial, ?_, ?_, ?_⟩
    · show (b.mapKeys ++ [b.nextOrderId]).contains b.nextOrderId = true
      apply contains_of_mem
      exact List.mem_append_right _ (List.mem_singleton.mpr rfl)
    · show (storeGet (b.orders ++ [(b.nextOrderId,
          ⟨b.nextOrderId, ts % U64MOD, p % U32MOD, 0 % U32MOD, 0, OrderSide.BUY,
           OrderType.LIMIT, OrderStatus.NEW⟩)]) b.nextOrderId).status = OrderStatus.NEW
      rw [hst]
    · exact hnotin
  | SELL =>
    have hst : storeGet (b.orders ++ [(b.nextOrderId,
        ⟨b.nextOrderId, ts % U64MOD, p % U32MOD, 0 % U32MOD, 0, OrderSide.SELL,
         OrderType.LIMIT, OrderStatus.NEW⟩)]) b.nextOrderId
        = ⟨b.nextOrderId, ts % U64MOD, p % U32MOD, 0 % U32MOD, 0, OrderSide.SELL,
           OrderType.LIMIT, OrderStatus.NEW⟩ :=
      storeGet_append_fresh _ _ _ hne2
    have hfill : (storeGet (b.orders ++ [(b.nextOrderId,
        ⟨b.nextOrderId, ts % U64MOD, p % U32MOD, 0 % U32MOD, 0, OrderSide.SELL,
         OrderType.LIMIT, OrderStatus.NEW⟩)]) b.nextOrderId).isFilled = true := by
      rw [hst]
      simp [Order.isFilled]
    have hloop := addSellLoop_of_filled b.nextOrderId
      (b.orders ++ [(b.nextOrderId,
        ⟨b.nextOrderId, ts % U64MOD, p % U32MOD, 0 % U32MOD, 0, OrderSide.SELL,
         OrderType.LIMIT, OrderStatus.NEW⟩)])
      (b.mapKeys ++ [b.nextOrderId]) b.trades b.bids hfill
    simp only [OrderBook.addOrder, OrderBook.addSellOrder,
      show (OrderSide.SELL == OrderSide.BUY) = false from rfl, Bool.false_eq_true,
      if_false, hloop, hfill]
    simp only [eq_self_iff_true, if_true]
    refine ⟨trivial, trivial, trivial, trivial, ?_, ?_, ?_⟩
    · show (b.mapKeys ++ [b.nextOrderId]).contains b.nextOrderId = true
      apply contains_of_mem
      exact List.mem_append_right _ (List.mem_singleton.mpr rfl)
    · show (storeGet (b.orders ++ [(b.nextOrderId,
          ⟨b.nextOrderId, ts % U64MOD, p % U32MOD, 0 % U32MOD, 0, OrderSide.SELL,
           OrderType.LIMIT, OrderStatus.NEW⟩)]) b.nextOrderId).status = OrderStatus.NEW
      rw [hst]
    · exact hnotin

theorem cancelOrder_true_of_lingering (b : OrderBook) (oid : Nat)
    (hc : b.mapKeys.contains oid = true)
    (hstat : (storeGet b.orders oid).status = OrderStatus.NEW) :
    (b.cancelOrder oid).2 = true := by
  have hmem : oid ∈ b.mapKeys := mem_of_contains _ _ hc
  simp [OrderBook.cancelOrder, hc, hmem, hstat]

/-- Claim C9: a quantity-0 submission executes no trade and creates or
modifies no price level, yet it returns the ordinary fresh id and stores
it in the order index with status NEW; that footprint survives any
subsequent operations that do not cancel the id itself (the order is
never in a ladder queue), and a later cancel of the id then returns
true even though the order never rested. -/
theorem c9_zero_quantity_order_lingers (b : OrderBook) (p : Nat) (s : OrderSide)
    (ts : Nat) (ops : List Op) (hF : idsFresh b)
    (hne : ∀ op ∈ ops, op ≠ Op.cancel b.nextOrderId) :
    (b.addOrder p 0 s ts).2 = b.nextOrderId ∧
    (b.addOrder p 0 s ts).1.bids = b.bids ∧
    (b.addOrder p 0 s ts).1.asks = b.asks ∧
    (b.addOrder p 0 s ts).1.trades = b.trades ∧
    lingering (b.addOrder p 0 s ts).1 b.nextOrderId ∧
    lingering (run (b.addOrder p 0 s ts).1 ops) b.nextOrderId ∧
    ((run (b.addOrder p 0 s ts).1 ops).cancelOrder b.nextOrderId).2 = true := by
  obtain ⟨h1, h2, h3, h4, h5⟩ := addOrder_zero_effects b p s ts hF
  have hF1 : idsFresh (b.addOrder p 0 s ts).1 := step_idsFresh b (Op.submit p 0 s ts) hF
  have h7 := run_lingering ops (b.addOrder p 0 s ts).1 b.nextOrderId hF1 h5 hne
  exact ⟨h1, h2, h3, h4, h5, h7,
    cancelOrder_true_of_lingering _ _ h7.1 h7.2.1⟩

theorem c9_zero_quantity_order_lingers_witness :
    (emptyBook.addOrder 100 0 OrderSide.BUY 1).2 = emptyBook.nextOrderId ∧
    (emptyBook.addOrder 100 0 OrderSide.BUY 1).1.bids = emptyBook.bids ∧
    (emptyBook.addOrder 100 0 OrderSide.BUY 1).1.asks = emptyBook.asks ∧
    (emptyBook.addOrder 100 0 OrderSide.BUY 1).1.trades = emptyBook.trades ∧
    lingering (emptyBook.addOrder 100 0 OrderSide.BUY 1).1 emptyBook.nextOrderId ∧
    lingering (run (emptyBook.addOrder 100 0 OrderSide.BUY 1).1
      [Op.submit 100 5 OrderSide.SELL 2]) emptyBook.nextOrderId ∧
    ((run (emptyBook.addOrder 100 0 OrderSide.BUY 1).1
      [Op.submit 100 5 OrderSide.SELL 2]).cancelOrder emptyBook.nextOrderId).2 = true :=
  c9_zero_quantity_order_lingers emptyBook 100 OrderSide.BUY 1
    [Op.submit 100 5 OrderSide.SELL 2]
    (by refine ⟨?_, ?_, ?_⟩ <;> intro x hx <;> simp [emptyBook] at hx)
    (by decide)

theorem add32_sub32_cancel (f q : Nat) (hq : q < U32MOD) : add32 f (sub32 q f) = q := by
  simp only [add32, sub32, U32MOD] at *
  omega

theorem storeGet_qty_lt (st : Store) (k : Nat) (h : storeU32 st) :
    (storeGet st k).quantity < U32MOD := by
  unfold storeGet
  cases hf : st.find? (fun pr => pr.1 == k) with
  | none => decide
  | some pr => exact h pr (List.mem_of_find?_eq_some hf)

theorem storeSet_storeU32 (st : Store) (k : Nat) (o : Order) (h : storeU32 st)
    (ho : o.quantity < U32MOD) : storeU32 (storeSet st k o) := by
  intro pr hpr
  rcases List.mem_map.mp hpr with ⟨pr0, hpr0, heq⟩
  by_cases hk : pr0.1 = k
  · have h2 : pr = (k, o) := by rw [← heq]; simp [hk]
    rw [h2]
    exact ho
  · have h2 : pr = pr0 := by rw [← heq]; simp [hk]
    rw [h2]
    exact h pr0 hpr0

theorem fill_isFilled_true (o : Order) (t : Nat)
    (h : o.quantity ≤ add32 o.filledQuantity t) :
    (o.fill t).isFilled = true := by
  simp only [Order.fill]
  split <;> simp [Order.isFilled, h]

theorem matchLoop_level_price (incId : Nat) :
    ∀ (fuel : Nat) (st : Store) (keys : List Nat) (tr : List Trade) (lvl : PriceLevel),
      (matchLoopFuel incId fuel st keys tr lvl).level.price = lvl.price := by
  intro fuel
  induction fuel with
  | zero =>
    intro st keys tr lvl
    rfl
  | succ fuel ih =>
    intro st keys tr lvl
    by_cases hf : (storeGet st incId).isFilled = true
    · rw [matchLoopFuel_succ_filled _ _ _ _ _ _ hf]
    · have hf2 : (storeGet st incId).isFilled = false := by
        revert hf
        cases (storeGet st incId).isFilled <;> simp
      have hsplit : lvl.orders = [] ∨ ∃ r rest2, lvl.orders = r :: rest2 := by
        cases lvl.orders with
        | nil => exact Or.inl rfl
        | cons x xs => exact Or.inr ⟨x, xs, rfl⟩
      rcases hsplit with hq | ⟨r, rest2, hq⟩
      · rw [matchLoopFuel_succ_nil _ _ _ _ _ _ hq]
      · rw [matchLoopFuel_succ_cons_explicit _ _ _ _ _ _ r rest2 hf2 hq]
        by_cases hRf : (storeGet (storeSet (storeSet st incId ((storeGet st incId).fill (min (storeGet st incId).getRemainingQuantity (storeGet st r).getRemainingQuantity))) r ((storeGet (storeSet st incId ((storeGet st incId).fill (min (storeGet st incId).getRemainingQuantity (storeGet st r).getRemainingQuantity))) r).fill (min (storeGet st incId).getRemainingQuantity (storeGet st r).getRemainingQuantity))) r).isFilled = true
        · rw [if_pos hRf]
          rw [ih]
          rfl
        · rw [if_neg hRf]

theorem matchLoop_storeU32 (incId : Nat) :
    ∀ (fuel : Nat) (st : Store) (keys : List Nat) (tr : List Trade) (lvl : PriceLevel),
      storeU32 st → storeU32 (matchLoopFuel incId fuel st keys tr lvl).orders := by
  intro fuel
  induction fuel with
  | zero =>
    intro st keys tr lvl hU
    exact hU
  | succ fuel ih =>
    intro st keys tr lvl hU
    by_cases hf : (storeGet st incId).isFilled = true
    · rw [matchLoopFuel_succ_filled _ _ _ _ _ _ hf]
      exact hU
    · have hf2 : (storeGet st incId).isFilled = false := by
        revert hf
        cases (storeGet st incId).isFilled <;> simp
      have hsplit : lvl.orders = [] ∨ ∃ r rest2, lvl.orders = r :: rest2 := by
        cases lvl.orders with
        | nil => exact Or.inl rfl
        | cons x xs => exact Or.inr ⟨x, xs, rfl⟩
      rcases hsplit with hq | ⟨r, rest2, hq⟩
      · rw [matchLoopFuel_succ_nil _ _ _ _ _ _ hq]
        exact hU
      · have hU1 : storeU32 (storeSet st incId ((storeGet st incId).fill (min (storeGet st incId).getRemainingQuantity (storeGet st r).getRemainingQuantity))) := by
          apply storeSet_storeU32 _ _ _ hU
          rw [fill_quantity]
          exact storeGet_qty_lt st incId hU
        have hU2 : storeU32 (storeSet (storeSet st incId ((storeGet st incId).fill (min (storeGet st incId).getRemainingQuantity (storeGet st r).getRemainingQuantity))) r ((storeGet (storeSet st incId ((storeGet st incId).fill (min (storeGet st incId).getRemainingQuantity (storeGet st r).getRemainingQuantity))) r).fill (min (storeGet st incId).getRemainingQuantity (storeGet st r).getRemainingQuantity))) := by
          apply storeSet_storeU32 _ _ _ hU1
          rw [fill_quantity]
          exact storeGet_qty_lt _ r hU1
        rw [matchLoopFuel_succ_cons_explicit _ _ _ _ _ _ r rest2 hf2 hq]
        by_cases hRf : (storeGet (storeSet (storeSet st incId ((storeGet st incId).fill (min (storeGet st incId).getRemainingQuantity (storeGet st r).getRemainingQuantity))) r ((storeGet (storeSet st incId ((storeGet st incId).fill (min (storeGet st incId).getRemainingQuantity (storeGet st r).getRemainingQuantity))) r).fill (min (storeGet st incId).getRemainingQuantity (storeGet st r).getRemainingQuantity))) r).isFilled = true
        · rw [if_pos hRf]
          exact ih _ _ _ _ hU2
        · rw [if_neg hRf]
          exact hU2

theorem matchOrders_storeU32 (incId : Nat) (st : Store) (keys : List Nat)
    (tr : List Trade) (lvl : PriceLevel) (hU : storeU32 st) :
    storeU32 (matchOrders incId st keys tr lvl).orders :=
  matchLoop_storeU32 incId (lvl.orders.length + 1) st keys tr lvl hU

theorem matchOrders_level_price (incId : Nat) (st : Store) (keys : List Nat)
    (tr : List Trade) (lvl : PriceLevel) :
    (matchOrders incId st keys tr lvl).level.price = lvl.price :=
  matchLoop_level_price incId (lvl.orders.length + 1) st keys tr lvl

theorem storeGet_of_find_none (st : Store) (k : Nat)
    (h : st.find? (fun pr => pr.1 == k) = none) : storeGet st k = default := by
  unfold storeGet
  rw [h]

theorem storeGet_storeSet_cases (st : Store) (k : Nat) (o : Order) :
    storeGet (storeSet st k o) k = o ∨
    (storeGet (storeSet st k o) k = default ∧ storeGet st k = default) := by
  cases hf : st.find? (fun pr => pr.1 == k) with
  | some pr =>
    exact Or.inl (storeGet_storeSet_self st k o (by rw [hf]; rfl))
  | none =>
    refine Or.inr ⟨?_, ?_⟩
    · rw [storeGet_storeSet_none st k o hf]
      exact storeGet_of_find_none st k hf
    · exact storeGet_of_find_none st k hf

theorem matchLoop_exit (incId : Nat) :
    ∀ (fuel : Nat) (st : Store) (keys : List Nat) (tr : List Trade) (lvl : PriceLevel),
      storeU32 st → incId ∉ lvl.orders → lvl.orders.length < fuel →
      (matchLoopFuel incId fuel st keys tr lvl).level.orders = [] ∨
      (storeGet (matchLoopFuel incId fuel st keys tr lvl).orders incId).isFilled = true := by
  intro fuel
  induction fuel with
  | zero =>
    intro st keys tr lvl _ _ hlen
    exact absurd hlen (Nat.not_lt_zero _)
  | succ fuel ih =>
    intro st keys tr lvl hU hni hlen
    by_cases hf : (storeGet st incId).isFilled = true
    · rw [matchLoopFuel_succ_filled _ _ _ _ _ _ hf]
      exact Or.inr hf
    · have hf2 : (storeGet st incId).isFilled = false := by
        revert hf
        cases (storeGet st incId).isFilled <;> simp
      have hsplit : lvl.orders = [] ∨ ∃ r rest2, lvl.orders = r :: rest2 := by
        cases lvl.orders with
        | nil => exact Or.inl rfl
        | cons x xs => exact Or.inr ⟨x, xs, rfl⟩
      rcases hsplit with hq | ⟨r, rest2, hq⟩
      · rw [matchLoopFuel_succ_nil _ _ _ _ _ _ hq]
        exact Or.inl hq
      · have hrin : r ∈ lvl.orders := by rw [hq]; exact List.mem_cons_self _ _
        have hrne : r ≠ incId := fun he => hni (he ▸ hrin)
        have hU1 : storeU32 (storeSet st incId ((storeGet st incId).fill (min (storeGet st incId).getRemainingQuantity (storeGet st r).getRemainingQuantity))) := by
          apply storeSet_storeU32 _ _ _ hU
          rw [fill_quantity]
          exact storeGet_qty_lt st incId hU
        have hU2 : storeU32 (storeSet (storeSet st incId ((storeGet st incId).fill (min (storeGet st incId).getRemainingQuantity (storeGet st r).getRemainingQuantity))) r ((storeGet (storeSet st incId ((storeGet st incId).fill (min (storeGet st incId).getRemainingQuantity (storeGet st r).getRemainingQuantity))) r).fill (min (storeGet st incId).getRemainingQuantity (storeGet st r).getRemainingQuantity))) := by
          apply storeSet_storeU32 _ _ _ hU1
          rw [fill_quantity]
          exact storeGet_qty_lt _ r hU1
        rw [matchLoopFuel_succ_cons_explicit _ _ _ _ _ _ r rest2 hf2 hq]
        by_cases hRf : (storeGet (storeSet (storeSet st incId ((storeGet st incId).fill (min (storeGet st incId).getRemainingQuantity (storeGet st r).getRemainingQuantity))) r ((storeGet (storeSet st incId ((storeGet st incId).fill (min (storeGet st incId).getRemainingQuantity (storeGet st r).getRemainingQuantity))) r).fill (min (storeGet st incId).getRemainingQuantity (storeGet st r).getRemainingQuantity))) r).isFilled = true
        · rw [if_pos hRf]
          apply ih (storeSet (storeSet st incId ((storeGet st incId).fill (min (storeGet st incId).getRemainingQuantity (storeGet st r).getRemainingQuantity))) r ((storeGet (storeSet st incId ((storeGet st incId).fill (min (storeGet st incId).getRemainingQuantity (storeGet st r).getRemainingQuantity))) r).fill (min (storeGet st incId).getRemainingQuantity (storeGet st r).getRemainingQuantity))) (keys.filter (fun k => k != r)) (tr ++ [(⟨(if (storeGet (storeSet (storeSet st incId ((storeGet st incId).fill (min (storeGet st incId).getRemainingQuantity (storeGet st r).getRemainingQuantity))) r ((storeGet (storeSet st incId ((storeGet st incId).fill (min (storeGet st incId).getRemainingQuantity (storeGet st r).getRemainingQuantity))) r).fill (min (storeGet st incId).getRemainingQuantity (storeGet st r).getRemainingQuantity))) incId).side == OrderSide.BUY then incId else r), (if (storeGet (storeSet (storeSet st incId ((storeGet st incId).fill (min (storeGet st incId).getRemainingQuantity (storeGet st r).getRemainingQuantity))) r ((storeGet (storeSet st incId ((storeGet st incId).fill (min (storeGet st incId).getRemainingQuantity (storeGet st r).getRemainingQuantity))) r).fill (min (storeGet st incId).getRemainingQuantity (storeGet st r).getRemainingQuantity))) incId).side == OrderSide.SELL then incId else r), (storeGet (storeSet (storeSet st incId ((storeGet st incId).fill (min (storeGet st incId).getRemainingQuantity (storeGet st r).getRemainingQuantity))) r ((storeGet (storeSet st incId ((storeGet st incId).fill (min (storeGet st incId).getRemainingQuantity (storeGet st r).getRemainingQuantity))) r).fill (min (storeGet st incId).getRemainingQuantity (storeGet st r).getRemainingQuantity))) r).price, (min (storeGet st incId).getRemainingQuantity (storeGet st r).getRemainingQuantity), (storeGet (storeSet (storeSet st incId ((storeGet st incId).fill (min (storeGet st incId).getRemainingQuantity (storeGet st r).getRemainingQuantity))) r ((storeGet (storeSet st incId ((storeGet st incId).fill (min (storeGet st incId).getRemainingQuantity (storeGet st r).getRemainingQuantity))) r).fill (min (storeGet st incId).getRemainingQuantity (storeGet st r).getRemainingQuantity))) incId).timestamp⟩ : Trade)]) (lvl.removeOrder (storeSet (storeSet st incId ((storeGet st incId).fill (min (storeGet st incId).getRemainingQuantity (storeGet st r).getRemainingQuantity))) r ((storeGet (storeSet st incId ((storeGet st incId).fill (min (storeGet st incId).getRemainingQuantity (storeGet st r).getRemainingQuantity))) r).fill (min (storeGet st incId).getRemainingQuantity (storeGet st r).getRemainingQuantity))) r) hU2
          · intro hmem
            exact hni (List.mem_of_mem_filter hmem)
          · show (lvl.orders.filter (fun k => k != r)).length < fuel
            have hle : (lvl.orders.filter (fun k => k != r)).length
                ≤ (rest2.filter (fun k => k != r)).length := by
              rw [hq, List.filter_cons]
              simp
            have hle2 : (rest2.filter (fun k => k != r)).length ≤ rest2.length :=
              List.length_filter_le _ _
            have hlt2 : rest2.length < fuel := by
              rw [hq] at hlen
              simpa using hlen
            omega
        · rw [if_neg hRf]
          refine Or.inr ?_
          have hfind : (st.find? (fun pr => pr.1 == incId)).isSome = true := by
            cases hfe : st.find? (fun pr => pr.1 == incId) with
            | some pr => rfl
            | none =>
              exfalso
              rw [storeGet_of_find_none st incId hfe] at hf2
              revert hf2
              decide
          have hg1 : storeGet (storeSet st incId ((storeGet st incId).fill (min (storeGet st incId).getRemainingQuantity (storeGet st r).getRemainingQuantity))) incId = (storeGet st incId).fill (min (storeGet st incId).getRemainingQuantity (storeGet st r).getRemainingQuantity) :=
            storeGet_storeSet_self st incId _ hfind
          have hg1r : storeGet (storeSet st incId ((storeGet st incId).fill (min (storeGet st incId).getRemainingQuantity (storeGet st r).getRemainingQuantity))) r = storeGet st r :=
            storeGet_storeSet_ne _ _ _ _ hrne
          rcases storeGet_storeSet_cases (storeSet st incId ((storeGet st incId).fill (min (storeGet st incId).getRemainingQuantity (storeGet st r).getRemainingQuantity))) r ((storeGet (storeSet st incId ((storeGet st incId).fill (min (storeGet st incId).getRemainingQuantity (storeGet st r).getRemainingQuantity))) r).fill (min (storeGet st incId).getRemainingQuantity (storeGet st r).getRemainingQuantity))
            with hg2 | ⟨hg2, hg2b⟩
          · rw [hg2, hg1r] at hRf
            have hqr : (storeGet st r).quantity < U32MOD := storeGet_qty_lt st r hU
            have hner : (min (storeGet st incId).getRemainingQuantity (storeGet st r).getRemainingQuantity) ≠ (storeGet st r).getRemainingQuantity := by
              intro he
              have hfil : ((storeGet st r).fill (min (storeGet st incId).getRemainingQuantity (storeGet st r).getRemainingQuantity)).isFilled = true := by
                apply fill_isFilled_true
                rw [he]
                simp only [Order.getRemainingQuantity]
                rw [add32_sub32_cancel _ _ hqr]
              exact hRf hfil
            have hmin : (min (storeGet st incId).getRemainingQuantity (storeGet st r).getRemainingQuantity) = (storeGet st incId).getRemainingQuantity := by
              rcases min_choice (storeGet st incId).getRemainingQuantity
                  (storeGet st r).getRemainingQuantity with hm | hm
              · exact hm
              · exact absurd hm hner
            rw [storeGet_storeSet_ne _ _ _ _ (Ne.symm hrne), hg1]
            apply fill_isFilled_true
            rw [hmin]
            simp only [Order.getRemainingQuantity]
            rw [add32_sub32_cancel _ _ (storeGet_qty_lt st incId hU)]
          · exfalso
            rw [hg2] at hRf
            revert hRf
            decide

theorem matchOrders_exit (incId : Nat) (st : Store) (keys : List Nat)
    (tr : List Trade) (lvl : PriceLevel) (hU : storeU32 st) (hni : incId ∉ lvl.orders) :
    (matchOrders incId st keys tr lvl).level.orders = [] ∨
    (storeGet (matchOrders incId st keys tr lvl).orders incId).isFilled = true :=
  matchLoop_exit incId (lvl.orders.length + 1) st keys tr lvl hU hni (Nat.lt_succ_self _)

theorem addBuyLoop_storeU32 (oid : Nat) :
    ∀ (ladder : List PriceLevel) (st : Store) (keys : List Nat) (tr : List Trade),
      storeU32 st → storeU32 (addBuyLoop oid st keys tr ladder).orders := by
  intro ladder
  induction ladder with
  | nil =>
    intro st keys tr hU
    exact hU
  | cons best rest ih =>
    intro st keys tr hU
    by_cases hf : (storeGet st oid).isFilled = true
    · rw [show addBuyLoop oid st keys tr (best :: rest) = ⟨st, keys, tr, best :: rest⟩
        from by simp [addBuyLoop, hf]]
      exact hU
    · have hf2 : (storeGet st oid).isFilled = false := by
        revert hf
        cases (storeGet st oid).isFilled <;> simp
      by_cases hlt : (storeGet st oid).price < best.price
      · rw [show addBuyLoop oid st keys tr (best :: rest) = ⟨st, keys, tr, best :: rest⟩
          from by simp [addBuyLoop, hf2, hlt]]
        exact hU
      · rw [show addBuyLoop oid st keys tr (best :: rest)
            = (if (matchOrders oid st keys tr best).level.isEmpty then
                addBuyLoop oid (matchOrders oid st keys tr best).orders (matchOrders oid st keys tr best).mapKeys (matchOrders oid st keys tr best).trades rest
              else ⟨(matchOrders oid st keys tr best).orders, (matchOrders oid st keys tr best).mapKeys, (matchOrders oid st keys tr best).trades, (matchOrders oid st keys tr best).level :: rest⟩)
          from by simp [addBuyLoop, hf2, hlt]]
        by_cases hEmp : ((matchOrders oid st keys tr best)).level.isEmpty = true
        · rw [if_pos hEmp]
          exact ih _ _ _ (matchOrders_storeU32 oid st keys tr best hU)
        · rw [if_neg hEmp]
          exact matchOrders_storeU32 oid st keys tr best hU

theorem addBuyLoop_ladder_pairwise (oid : Nat) (R : Nat → Nat → Prop) :
    ∀ (ladder : List PriceLevel) (st : Store) (keys : List Nat) (tr : List Trade),
      List.Pairwise (fun x y : PriceLevel => R x.price y.price) ladder →
      List.Pairwise (fun x y : PriceLevel => R x.price y.price)
        (addBuyLoop oid st keys tr ladder).ladder := by
  intro ladder
  induction ladder with
  | nil =>
    intro st keys tr _
    simp [addBuyLoop]
  | cons best rest ih =>
    intro st keys tr hp
    rw [List.pairwise_cons] at hp
    by_cases hf : (storeGet st oid).isFilled = true
    · rw [show addBuyLoop oid st keys tr (best :: rest) = ⟨st, keys, tr, best :: rest⟩
        from by simp [addBuyLoop, hf]]
      exact List.pairwise_cons.mpr hp
    · have hf2 : (storeGet st oid).isFilled = false := by
        revert hf
        cases (storeGet st oid).isFilled <;> simp
      by_cases hlt : (storeGet st oid).price < best.price
      · rw [show addBuyLoop oid st keys tr (best :: rest) = ⟨st, keys, tr, best :: rest⟩
          from by simp [addBuyLoop, hf2, hlt]]
        exact List.pairwise_cons.mpr hp
      · rw [show addBuyLoop oid st keys tr (best :: rest)
            = (if (matchOrders oid st keys tr best).level.isEmpty then
                addBuyLoop oid (matchOrders oid st keys tr best).orders (matchOrders oid st keys tr best).mapKeys (matchOrders oid st keys tr best).trades rest
              else ⟨(matchOrders oid st keys tr best).orders, (matchOrders oid st keys tr best).mapKeys, (matchOrders oid st keys tr best).trades, (matchOrders oid st keys tr best).level :: rest⟩)
          from by simp [addBuyLoop, hf2, hlt]]
        by_cases hEmp : ((matchOrders oid st keys tr best)).level.isEmpty = true
        · rw [if_pos hEmp]
          exact ih _ _ _ hp.2
        · rw [if_neg hEmp]
          apply List.pairwise_cons.mpr
          constructor
          · intro y hy
            show R (matchOrders oid st keys tr best).level.price y.price
            rw [matchOrders_level_price]
            exact hp.1 y hy
          · exact hp.2

theorem addBuyLoop_exit (oid : Nat) :
    ∀ (ladder : List PriceLevel) (st : Store) (keys : List Nat) (tr : List Trade),
      storeU32 st → (∀ l ∈ ladder, oid ∉ l.orders) →
      (storeGet (addBuyLoop oid st keys tr ladder).orders oid).isFilled = true ∨
      (addBuyLoop oid st keys tr ladder).ladder = [] ∨
      (∃ best2 rest2, (addBuyLoop oid st keys tr ladder).ladder = best2 :: rest2 ∧
        (storeGet (addBuyLoop oid st keys tr ladder).orders oid).price < best2.price) := by
  intro ladder
  induction ladder with
  | nil =>
    intro st keys tr _ _
    refine Or.inr (Or.inl ?_)
    simp [addBuyLoop]
  | cons best rest ih =>
    intro st keys tr hU hlad
    by_cases hf : (storeGet st oid).isFilled = true
    · rw [show addBuyLoop oid st keys tr (best :: rest) = ⟨st, keys, tr, best :: rest⟩
        from by simp [addBuyLoop, hf]]
      exact Or.inl hf
    · have hf2 : (storeGet st oid).isFilled = false := by
        revert hf
        cases (storeGet st oid).isFilled <;> simp
      by_cases hlt : (storeGet st oid).price < best.price
      · rw [show addBuyLoop oid st keys tr (best :: rest) = ⟨st, keys, tr, best :: rest⟩
          from by simp [addBuyLoop, hf2, hlt]]
        exact Or.inr (Or.inr ⟨best, rest, rfl, hlt⟩)
      · rw [show addBuyLoop oid st keys tr (best :: rest)
            = (if (matchOrders oid st keys tr best).level.isEmpty then
                addBuyLoop oid (matchOrders oid st keys tr best).orders (matchOrders oid st keys tr best).mapKeys (matchOrders oid st keys tr best).trades rest
              else ⟨(matchOrders oid st keys tr best).orders, (matchOrders oid st keys tr best).mapKeys, (matchOrders oid st keys tr best).trades, (matchOrders oid st keys tr best).level :: rest⟩)
          from by simp [addBuyLoop, hf2, hlt]]
        by_cases hEmp : ((matchOrders oid st keys tr best)).level.isEmpty = true
        · rw [if_pos hEmp]
          exact ih _ _ _ (matchOrders_storeU32 oid st keys tr best hU)
            (fun l hl => hlad l (List.mem_cons_of_mem _ hl))
        · rw [if_neg hEmp]
          rcases matchOrders_exit oid st keys tr best hU
              (hlad best (List.mem_cons_self _ _)) with hnil | hfil
          · exfalso
            apply hEmp
            simp [PriceLevel.isEmpty, hnil]
          · exact Or.inl hfil

theorem addSellLoop_storeU32 (oid : Nat) :
    ∀ (ladder : List PriceLevel) (st : Store) (keys : List Nat) (tr : List Trade),
      storeU32 st → storeU32 (addSellLoop oid st keys tr ladder).orders := by
  intro ladder
  induction ladder with
  | nil =>
    intro st keys tr hU
    exact hU
  | cons best rest ih =>
    intro st keys tr hU
    by_cases hf : (storeGet st oid).isFilled = true
    · rw [show addSellLoop oid st keys tr (best :: rest) = ⟨st, keys, tr, best :: rest⟩
        from by simp [addSellLoop, hf]]
      exact hU
    · have hf2 : (storeGet st oid).isFilled = false := by
        revert hf
        cases (storeGet st oid).isFilled <;> simp
      by_cases hlt : best.price < (storeGet st oid).price
      · rw [show addSellLoop oid st keys tr (best :: rest) = ⟨st, keys, tr, best :: rest⟩
          from by simp [addSellLoop, hf2, hlt]]
        exact hU
      · rw [show addSellLoop oid st keys tr (best :: rest)
            = (if (matchOrders oid st keys tr best).level.isEmpty then
                addSellLoop oid (matchOrders oid st keys tr best).orders (matchOrders oid st keys tr best).mapKeys (matchOrders oid st keys tr best).trades rest
              else ⟨(matchOrders oid st keys tr best).orders, (matchOrders oid st keys tr best).mapKeys, (matchOrders oid st keys tr best).trades, (matchOrders oid st keys tr best).level :: rest⟩)
          from by simp [addSellLoop, hf2, hlt]]
        by_cases hEmp : ((matchOrders oid st keys tr best)).level.isEmpty = true
        · rw [if_pos hEmp]
          exact ih _ _ _ (matchOrders_storeU32 oid st keys tr best hU)
        · rw [if_neg hEmp]
          exact matchOrders_storeU32 oid st keys tr best hU

theorem addSellLoop_ladder_pairwise (oid : Nat) (R : Nat → Nat → Prop) :
    ∀ (ladder : List PriceLevel) (st : Store) (keys : List Nat) (tr : List Trade),
      List.Pairwise (fun x y : PriceLevel => R x.price y.price) ladder →
      List.Pairwise (fun x y : PriceLevel => R x.price y.price)
        (addSellLoop oid st keys tr ladder).ladder := by
  intro ladder
  induction ladder with
  | nil =>
    intro st keys tr _
    simp [addSellLoop]
  | cons best rest ih =>
    intro st keys tr hp
    rw [List.pairwise_cons] at hp
    by_cases hf : (storeGet st oid).isFilled = true
    · rw [show addSellLoop oid st keys tr (best :: rest) = ⟨st, keys, tr, best :: rest⟩
        from by simp [addSellLoop, hf]]
      exact List.pairwise_cons.mpr hp
    · have hf2 : (storeGet st oid).isFilled = false := by
        revert hf
        cases (storeGet st oid).isFilled <;> simp
      by_cases hlt : best.price < (storeGet st oid).price
      · rw [show addSellLoop oid st keys tr (best :: rest) = ⟨st, keys, tr, best :: rest⟩
          from by simp [addSellLoop, hf2, hlt]]
        exact List.pairwise_cons.mpr hp
      · rw [show addSellLoop oid st keys tr (best :: rest)
            = (if (matchOrders oid st keys tr best).level.isEmpty then
                addSellLoop oid (matchOrders oid st keys tr best).orders (matchOrders oid st keys tr best).mapKeys (matchOrders oid st keys tr best).trades rest
              else ⟨(matchOrders oid st keys tr best).orders, (matchOrders oid st keys tr best).mapKeys, (matchOrders oid st keys tr best).trades, (matchOrders oid st keys tr best).level :: rest⟩)
          from by simp [addSellLoop, hf2, hlt]]
        by_cases hEmp : ((matchOrders oid st keys tr best)).level.isEmpty = true
        · rw [if_pos hEmp]
          exact ih _ _ _ hp.2
        · rw [if_neg hEmp]
          apply List.pairwise_cons.mpr
          constructor
          · intro y hy
            show R (matchOrders oid st keys tr best).level.price y.price
            rw [matchOrders_level_price]
            exact hp.1 y hy
          · exact hp.2

theorem addSellLoop_exit (oid : Nat) :
    ∀ (ladder : List PriceLevel) (st : Store) (keys : List Nat) (tr : List Trade),
      storeU32 st → (∀ l ∈ ladder, oid ∉ l.orders) →
      (storeGet (addSellLoop oid st keys tr ladder).orders oid).isFilled = true ∨
      (addSellLoop oid st keys tr ladder).ladder = [] ∨
      (∃ best2 rest2, (addSellLoop oid st keys tr ladder).ladder = best2 :: rest2 ∧
        best2.price < (storeGet (addSellLoop oid st keys tr ladder).orders oid).price) := by
  intro ladder
  induction ladder with
  | nil =>
    intro st keys tr _ _
    refine Or.inr (Or.inl ?_)
    simp [addSellLoop]
  | cons best rest ih =>
    intro st keys tr hU hlad
    by_cases hf : (storeGet st oid).isFilled = true
    · rw [show addSellLoop oid st keys tr (best :: rest) = ⟨st, keys, tr, best :: rest⟩
        from by simp [addSellLoop, hf]]
      exact Or.inl hf
    · have hf2 : (storeGet st oid).isFilled = false := by
        revert hf
        cases (storeGet st oid).isFilled <;> simp
      by_cases hlt : best.price < (storeGet st oid).price
      · rw [show addSellLoop oid st keys tr (best :: rest) = ⟨st, keys, tr, best :: rest⟩
          from by simp [addSellLoop, hf2, hlt]]
        exact Or.inr (Or.inr ⟨best, rest, rfl, hlt⟩)
      · rw [show addSellLoop oid st keys tr (best :: rest)
            = (if (matchOrders oid st keys tr best).level.isEmpty then
                addSellLoop oid (matchOrders oid st keys tr best).orders (matchOrders oid st keys tr best).mapKeys (matchOrders oid st keys tr best).trades rest
              else ⟨(matchOrders oid st keys tr best).orders, (matchOrders oid st keys tr best).mapKeys, (matchOrders oid st keys tr best).trades, (matchOrders oid st keys tr best).level :: rest⟩)
          from by simp [addSellLoop, hf2, hlt]]
        by_cases hEmp : ((matchOrders oid st keys tr best)).level.isEmpty = true
        · rw [if_pos hEmp]
          exact ih _ _ _ (matchOrders_storeU32 oid st keys tr best hU)
            (fun l hl => hlad l (List.mem_cons_of_mem _ hl))
        · rw [if_neg hEmp]
          rcases matchOrders_exit oid st keys tr best hU
              (hlad best (List.mem_cons_self _ _)) with hnil | hfil
          · exfalso
            apply hEmp
            simp [PriceLevel.isEmpty, hnil]
          · exact Or.inl hfil

theorem ladderInsertDesc_pairwise (st : Store) (oid p : Nat) :
    ∀ ls : List PriceLevel,
      List.Pairwise (fun x y : PriceLevel => y.price < x.price) ls →
      List.Pairwise (fun x y : PriceLevel => y.price < x.price)
        (ladderInsertDesc st oid p ls) := by
  intro ls
  induction ls with
  | nil =>
    intro _
    simp [ladderInsertDesc]
  | cons x xs ih =>
    intro hp
    rw [List.pairwise_cons] at hp
    by_cases h1 : x.price < p
    · rw [show ladderInsertDesc st oid p (x :: xs)
          = (PriceLevel.addOrder st ⟨p, 0, []⟩ oid) :: x :: xs
        from by simp [ladderInsertDesc, h1]]
      apply List.pairwise_cons.mpr
      refine ⟨?_, List.pairwise_cons.mpr hp⟩
      intro y hy
      show y.price < (PriceLevel.addOrder st ⟨p, 0, []⟩ oid).price
      rw [List.mem_cons] at hy
      rcases hy with hy | hy
      · rw [hy]
        exact h1
      · exact lt_trans (hp.1 y hy) h1
    · by_cases h2 : x.price = p
      · rw [show ladderInsertDesc st oid p (x :: xs) = (x.addOrder st oid) :: xs
          from by simp [ladderInsertDesc, h1, h2]]
        apply List.pairwise_cons.mpr
        refine ⟨?_, hp.2⟩
        intro y hy
        show y.price < (x.addOrder st oid).price
        exact hp.1 y hy
      · rw [show ladderInsertDesc st oid p (x :: xs) = x :: ladderInsertDesc st oid p xs
          from by simp [ladderInsertDesc, h1, h2]]
        apply List.pairwise_cons.mpr
        refine ⟨?_, ih hp.2⟩
        intro y hy
        have hplt : p < x.price :=
          Nat.lt_of_le_of_ne (Nat.le_of_not_lt h1) (fun he => h2 he.symm)
        rcases ladderInsertDesc_price st oid p xs y hy with hyp | ⟨l, hl, hyp⟩
        · rw [hyp]
          exact hplt
        · rw [hyp]
          exact hp.1 l hl

theorem ladderInsertAsc_pairwise (st : Store) (oid p : Nat) :
    ∀ ls : List PriceLevel,
      List.Pairwise (fun x y : PriceLevel => x.price < y.price) ls →
      List.Pairwise (fun x y : PriceLevel => x.price < y.price)
        (ladderInsertAsc st oid p ls) := by
  intro ls
  induction ls with
  | nil =>
    intro _
    simp [ladderInsertAsc]
  | cons x xs ih =>
    intro hp
    rw [List.pairwise_cons] at hp
    by_cases h1 : p < x.price
    · rw [show ladderInsertAsc st oid p (x :: xs)
          = (PriceLevel.addOrder st ⟨p, 0, []⟩ oid) :: x :: xs
        from by simp [ladderInsertAsc, h1]]
      apply List.pairwise_cons.mpr
      refine ⟨?_, List.pairwise_cons.mpr hp⟩
      intro y hy
      show (PriceLevel.addOrder st ⟨p, 0, []⟩ oid).price < y.price
      rw [List.mem_cons] at hy
      rcases hy with hy | hy
      · rw [hy]
        exact h1
      · exact lt_trans h1 (hp.1 y hy)
    · by_cases h2 : x.price = p
      · rw [show ladderInsertAsc st oid p (x :: xs) = (x.addOrder st oid) :: xs
          from by simp [ladderInsertAsc, h1, h2]]
        apply List.pairwise_cons.mpr
        refine ⟨?_, hp.2⟩
        intro y hy
        show (x.addOrder st oid).price < y.price
        exact hp.1 y hy
      · rw [show ladderInsertAsc st oid p (x :: xs) = x :: ladderInsertAsc st oid p xs
          from by simp [ladderInsertAsc, h1, h2]]
        apply List.pairwise_cons.mpr
        refine ⟨?_, ih hp.2⟩
        intro y hy
        have hplt : x.price < p :=
          Nat.lt_of_le_of_ne (Nat.le_of_not_lt h1) h2
        rcases ladderInsertAsc_price st oid p xs y hy with hyp | ⟨l, hl, hyp⟩
        · rw [hyp]
          exact hplt
        · rw [hyp]
          exact hp.1 l hl

theorem ladderRemove_price_mem (st : Store) (oid p : Nat) :
    ∀ ls : List PriceLevel, ∀ l2 ∈ ladderRemove st oid p ls, ∃ l ∈ ls, l2.price = l.price := by
  intro ls
  induction ls with
  | nil =>
    intro l2 hl2
    simp [ladderRemove] at hl2
  | cons x xs ih =>
    intro l2 hl2
    by_cases hx : x.price = p
    · rw [ladderRemove_cons_pos st oid p x xs hx] at hl2
      by_cases hE : (x.removeOrder st oid).isEmpty = true
      · rw [if_pos hE] at hl2
        exact ⟨l2, List.mem_cons_of_mem _ hl2, rfl⟩
      · rw [if_neg hE, List.mem_cons] at hl2
        rcases hl2 with hl2 | hl2
        · exact ⟨x, List.mem_cons_self _ _, hl2 ▸ rfl⟩
        · exact ⟨l2, List.mem_cons_of_mem _ hl2, rfl⟩
    · rw [ladderRemove_cons_neg st oid p x xs hx, List.mem_cons] at hl2
      rcases hl2 with hl2 | hl2
      · exact ⟨x, List.mem_cons_self _ _, hl2 ▸ rfl⟩
      · obtain ⟨l, hl, hpl⟩ := ih l2 hl2
        exact ⟨l, List.mem_cons_of_mem _ hl, hpl⟩

theorem ladderRemove_pairwise (st : Store) (oid p : Nat) (R : Nat → Nat → Prop) :
    ∀ ls : List PriceLevel,
      List.Pairwise (fun x y : PriceLevel => R x.price y.price) ls →
      List.Pairwise (fun x y : PriceLevel => R x.price y.price)
        (ladderRemove st oid p ls) := by
  intro ls
  induction ls with
  | nil =>
    intro _
    simp [ladderRemove]
  | cons x xs ih =>
    intro hp
    rw [List.pairwise_cons] at hp
    by_cases hx : x.price = p
    · rw [ladderRemove_cons_pos st oid p x xs hx]
      by_cases hE : (x.removeOrder st oid).isEmpty = true
      · rw [if_pos hE]
        exact hp.2
      · rw [if_neg hE]
        apply List.pairwise_cons.mpr
        refine ⟨?_, hp.2⟩
        intro y hy
        show R (x.removeOrder st oid).price y.price
        exact hp.1 y hy
    · rw [ladderRemove_cons_neg st oid p x xs hx]
      apply List.pairwise_cons.mpr
      refine ⟨?_, ih hp.2⟩
      intro y hy
      rcases ladderRemove_price_mem st oid p xs y hy with ⟨l, hl, hyp⟩
      rw [hyp]
      exact hp.1 l hl

theorem ladderAdjust_mem_price (p delta : Nat) (ls : List PriceLevel) :
    ∀ l2 ∈ ladderAdjust p delta ls, ∃ l ∈ ls, l2.price = l.price := by
  intro l2 hl2
  have h := ladderAdjust_map_price p delta ls
  have h2 : l2.price ∈ (ladderAdjust p delta ls).map PriceLevel.price :=
    List.mem_map_of_mem _ hl2
  rw [h] at h2
  obtain ⟨l, hl, hp⟩ := List.mem_map.mp h2
  exact ⟨l, hl, hp.symm⟩

theorem pairwise_price_transfer (R : Nat → Nat → Prop) (ls ls2 : List PriceLevel)
    (hmap : ls2.map PriceLevel.price = ls.map PriceLevel.price)
    (hp : List.Pairwise (fun x y : PriceLevel => R x.price y.price) ls) :
    List.Pairwise (fun x y : PriceLevel => R x.price y.price) ls2 := by
  have h1 : List.Pairwise R (ls.map PriceLevel.price) := List.pairwise_map.mpr hp
  rw [← hmap] at h1
  exact List.pairwise_map.mp h1

theorem storeU32_append (st : Store) (k : Nat) (o : Order) (h : storeU32 st)
    (ho : o.quantity < U32MOD) : storeU32 (st ++ [(k, o)]) := by
  intro pr hpr
  rw [List.mem_append, List.mem_singleton] at hpr
  rcases hpr with hpr | hpr
  · exact h pr hpr
  · rw [hpr]
    exact ho

theorem addBuyOrder_eq2 (b : OrderBook) (oid : Nat) :
    ((storeGet (addBuyLoop oid b.orders b.mapKeys b.trades b.asks).orders oid).isFilled = true ∧ b.addBuyOrder oid = { b with orders := (addBuyLoop oid b.orders b.mapKeys b.trades b.asks).orders, mapKeys := (addBuyLoop oid b.orders b.mapKeys b.trades b.asks).mapKeys, trades := (addBuyLoop oid b.orders b.mapKeys b.trades b.asks).trades, asks := (addBuyLoop oid b.orders b.mapKeys b.trades b.asks).ladder }) ∨
    ((storeGet (addBuyLoop oid b.orders b.mapKeys b.trades b.asks).orders oid).isFilled = false ∧ b.addBuyOrder oid = { b with orders := (addBuyLoop oid b.orders b.mapKeys b.trades b.asks).orders, mapKeys := (addBuyLoop oid b.orders b.mapKeys b.trades b.asks).mapKeys, trades := (addBuyLoop oid b.orders b.mapKeys b.trades b.asks).trades, asks := (addBuyLoop oid b.orders b.mapKeys b.trades b.asks).ladder, bids := ladderInsertDesc (addBuyLoop oid b.orders b.mapKeys b.trades b.asks).orders oid (storeGet (addBuyLoop oid b.orders b.mapKeys b.trades b.asks).orders oid).price b.bids }) := by
  unfold OrderBook.addBuyOrder
  by_cases hf : (storeGet (addBuyLoop oid b.orders b.mapKeys b.trades b.asks).orders oid).isFilled = true
  · left
    exact ⟨hf, by simp [hf]⟩
  · right
    refine ⟨?_, by simp [hf]⟩
    revert hf
    cases (storeGet (addBuyLoop oid b.orders b.mapKeys b.trades b.asks).orders oid).isFilled <;> simp

theorem addSellOrder_eq2 (b : OrderBook) (oid : Nat) :
    ((storeGet (addSellLoop oid b.orders b.mapKeys b.trades b.bids).orders oid).isFilled = true ∧ b.addSellOrder oid = { b with orders := (addSellLoop oid b.orders b.mapKeys b.trades b.bids).orders, mapKeys := (addSellLoop oid b.orders b.mapKeys b.trades b.bids).mapKeys, trades := (addSellLoop oid b.orders b.mapKeys b.trades b.bids).trades, bids := (addSellLoop oid b.orders b.mapKeys b.trades b.bids).ladder }) ∨
    ((storeGet (addSellLoop oid b.orders b.mapKeys b.trades b.bids).orders oid).isFilled = false ∧ b.addSellOrder oid = { b with orders := (addSellLoop oid b.orders b.mapKeys b.trades b.bids).orders, mapKeys := (addSellLoop oid b.orders b.mapKeys b.trades b.bids).mapKeys, trades := (addSellLoop oid b.orders b.mapKeys b.trades b.bids).trades, bids := (addSellLoop oid b.orders b.mapKeys b.trades b.bids).ladder, asks := ladderInsertAsc (addSellLoop oid b.orders b.mapKeys b.trades b.bids).orders oid (storeGet (addSellLoop oid b.orders b.mapKeys b.trades b.bids).orders oid).price b.asks }) := by
  unfold OrderBook.addSellOrder
  by_cases hf : (storeGet (addSellLoop oid b.orders b.mapKeys b.trades b.bids).orders oid).isFilled = true
  · left
    exact ⟨hf, by simp [hf]⟩
  · right
    refine ⟨?_, by simp [hf]⟩
    revert hf
    cases (storeGet (addSellLoop oid b.orders b.mapKeys b.trades b.bids).orders oid).isFilled <;> simp

theorem submit_bookShape (b : OrderBook) (p q : Nat) (s : OrderSide) (ts : Nat)
    (hS : bookShape b) : bookShape (step b (Op.submit p q s ts)) := by
  have hidsf := step_idsFresh b (Op.submit p q s ts) hS.2.2.2.2
  obtain ⟨hbp, hap, hcross, hU, hF⟩ := hS
  obtain ⟨hFst, hFkeys, hFlad⟩ := hF
  have hFbids : ∀ l ∈ b.bids, ∀ k ∈ l.orders, k < b.nextOrderId :=
    fun l hl => hFlad l (List.mem_append_left _ hl)
  have hFasks : ∀ l ∈ b.asks, ∀ k ∈ l.orders, k < b.nextOrderId :=
    fun l hl => hFlad l (List.mem_append_right _ hl)
  set oid := b.nextOrderId with hoiddef
  set o : Order := ⟨oid, ts % U64MOD, p % U32MOD, q % U32MOD, 0, s, OrderType.LIMIT, OrderStatus.NEW⟩ with hodef
  set b1 : OrderBook := { b with orders := b.orders ++ [(oid, o)], mapKeys := b.mapKeys ++ [oid], nextOrderId := b.nextOrderId + 1 } with hb1def
  have hU1 : storeU32 b1.orders :=
    storeU32_append _ _ _ hU (Nat.mod_lt _ (by decide))
  have hnia : ∀ l ∈ b1.asks, oid ∉ l.orders :=
    fun l hl hk => Nat.lt_irrefl _ (hFasks l hl oid hk)
  have hnib : ∀ l ∈ b1.bids, oid ∉ l.orders :=
    fun l hl hk => Nat.lt_irrefl _ (hFbids l hl oid hk)
  cases s with
  | BUY =>
    have hstep : step b (Op.submit p q OrderSide.BUY ts) = b1.addBuyOrder oid := rfl
    rw [hstep] at hidsf ⊢
    have hUm : storeU32 (addBuyLoop oid b1.orders b1.mapKeys b1.trades b1.asks).orders :=
      addBuyLoop_storeU32 oid b1.asks b1.orders b1.mapKeys b1.trades hU1
    have hPm : List.Pairwise (fun x y : PriceLevel => x.price < y.price)
        (addBuyLoop oid b1.orders b1.mapKeys b1.trades b1.asks).ladder :=
      addBuyLoop_ladder_pairwise oid (fun a c => a < c) b1.asks b1.orders b1.mapKeys b1.trades hap
    have hprov : ∀ l2 ∈ (addBuyLoop oid b1.orders b1.mapKeys b1.trades b1.asks).ladder,
        ∃ l ∈ b1.asks, l2.price = l.price :=
      (addBuyLoop_frame oid b1.asks b1.orders b1.mapKeys b1.trades hnia).2.2.2.2.2.2
    have hexit := addBuyLoop_exit oid b1.asks b1.orders b1.mapKeys b1.trades hU1 hnia
    rcases addBuyOrder_eq2 b1 oid with ⟨hfil, he⟩ | ⟨hnf, he⟩
    · rw [he] at hidsf ⊢
      refine ⟨hbp, hPm, ?_, hUm, hidsf⟩
      intro lb hlb la hla
      obtain ⟨l, hl, hlp⟩ := hprov la hla
      rw [hlp]
      exact hcross lb hlb l hl
    · rw [he] at hidsf ⊢
      refine ⟨?_, hPm, ?_, hUm, hidsf⟩
      · exact ladderInsertDesc_pairwise _ _ _ b1.bids hbp
      · intro lb hlb la hla
        rcases ladderInsertDesc_price _ oid _ b1.bids lb hlb with hlbp | ⟨l, hl, hlbp⟩
        · rw [hlbp]
          rcases hexit with hfil2 | hlnil | ⟨best2, rest2, hlad, hdom⟩
          · exact absurd hfil2 (by rw [hnf]; simp)
          · rw [hlnil] at hla
            exact absurd hla (List.not_mem_nil _)
          · rw [hlad] at hla
            rw [List.mem_cons] at hla
            have hPm2 := hPm
            rw [hlad, List.pairwise_cons] at hPm2
            rcases hla with hla | hla
            · rw [hla]
              exact hdom
            · exact lt_trans hdom (hPm2.1 la hla)
        · rw [hlbp]
          obtain ⟨l2, hl2, heq2⟩ := hprov la hla
          rw [heq2]
          exact hcross l hl l2 hl2
  | SELL =>
    have hstep : step b (Op.submit p q OrderSide.SELL ts) = b1.addSellOrder oid := rfl
    rw [hstep] at hidsf ⊢
    have hUm : storeU32 (addSellLoop oid b1.orders b1.mapKeys b1.trades b1.bids).orders :=
      addSellLoop_storeU32 oid b1.bids b1.orders b1.mapKeys b1.trades hU1
    have hPm : List.Pairwise (fun x y : PriceLevel => y.price < x.price)
        (addSellLoop oid b1.orders b1.mapKeys b1.trades b1.bids).ladder :=
      addSellLoop_ladder_pairwise oid (fun a c => c < a) b1.bids b1.orders b1.mapKeys b1.trades hbp
    have hprov : ∀ l2 ∈ (addSellLoop oid b1.orders b1.mapKeys b1.trades b1.bids).ladder,
        ∃ l ∈ b1.bids, l2.price = l.price :=
      (addSellLoop_frame oid b1.bids b1.orders b1.mapKeys b1.trades hnib).2.2.2.2.2.2
    have hexit := addSellLoop_exit oid b1.bids b1.orders b1.mapKeys b1.trades hU1 hnib
    rcases addSellOrder_eq2 b1 oid with ⟨hfil, he⟩ | ⟨hnf, he⟩
    · rw [he] at hidsf ⊢
      refine ⟨hPm, hap, ?_, hUm, hidsf⟩
      intro lb hlb la hla
      obtain ⟨l, hl, hlp⟩ := hprov lb hlb
      rw [hlp]
      exact hcross l hl la hla
    · rw [he] at hidsf ⊢
      refine ⟨hPm, ?_, ?_, hUm, hidsf⟩
      · exact ladderInsertAsc_pairwise _ _ _ b1.asks hap
      · intro lb hlb la hla
        rcases ladderInsertAsc_price _ oid _ b1.asks la hla with hlap | ⟨l, hl, hlap⟩
        · rw [hlap]
          rcases hexit with hfil2 | hlnil | ⟨best2, rest2, hlad, hdom⟩
          · exact absurd hfil2 (by rw [hnf]; simp)
          · rw [hlnil] at hlb
            exact absurd hlb (List.not_mem_nil _)
          · rw [hlad] at hlb
            rw [List.mem_cons] at hlb
            have hPm2 := hPm
            rw [hlad, List.pairwise_cons] at hPm2
            rcases hlb with hlb | hlb
            · rw [hlb]
              exact hdom
            · exact lt_trans (hPm2.1 lb hlb) hdom
        · rw [hlap]
          obtain ⟨l2, hl2, heq2⟩ := hprov lb hlb
          rw [heq2]
          exact hcross l2 hl2 l hl

theorem cancel_bookShape (b : OrderBook) (oid : Nat) (hS : bookShape b) :
    bookShape (step b (Op.cancel oid)) := by
  have hidsf2 : idsFresh (b.cancelOrder oid).1 := step_idsFresh b (Op.cancel oid) hS.2.2.2.2
  obtain ⟨hbp, hap, hcross, hU, hF⟩ := hS
  show bookShape (b.cancelOrder oid).1
  rcases cancelOrder_cases b oid with he | he
  · rw [he] at hidsf2 ⊢
    exact ⟨hbp, hap, hcross, hU, hidsf2⟩
  · rw [he] at hidsf2 ⊢
    have hsides : (storeGet b.orders oid).side = OrderSide.BUY ∨
        (storeGet b.orders oid).side = OrderSide.SELL := by
      cases (storeGet b.orders oid).side
      · exact Or.inl rfl
      · exact Or.inr rfl
    have hUres : storeU32 (storeSet (b.removeOrder oid).orders oid
        { storeGet b.orders oid with status := OrderStatus.CANCELLED }) := by
      rw [removeOrder_orders]
      exact storeSet_storeU32 _ _ _ hU (storeGet_qty_lt b.orders oid hU)
    rcases hsides with hs | hs
    · obtain ⟨hbb, hba⟩ := removeOrder_of_buy b oid hs
      refine ⟨?_, ?_, ?_, hUres, hidsf2⟩
      · show List.Pairwise _ (b.removeOrder oid).bids
        rw [hbb]
        exact ladderRemove_pairwise _ _ _ (fun a c => c < a) b.bids hbp
      · show List.Pairwise _ (b.removeOrder oid).asks
        rw [hba]
        exact hap
      · show ∀ lb ∈ (b.removeOrder oid).bids, ∀ la ∈ (b.removeOrder oid).asks, _
        rw [hbb, hba]
        intro lb hlb la hla
        obtain ⟨l, hl, hlp⟩ := ladderRemove_price_mem b.orders oid _ b.bids lb hlb
        rw [hlp]
        exact hcross l hl la hla
    · obtain ⟨hba, hbb⟩ := removeOrder_of_sell b oid hs
      refine ⟨?_, ?_, ?_, hUres, hidsf2⟩
      · show List.Pairwise _ (b.removeOrder oid).bids
        rw [hbb]
        exact hbp
      · show List.Pairwise _ (b.removeOrder oid).asks
        rw [hba]
        exact ladderRemove_pairwise _ _ _ (fun a c => a < c) b.asks hap
      · show ∀ lb ∈ (b.removeOrder oid).bids, ∀ la ∈ (b.removeOrder oid).asks, _
        rw [hbb, hba]
        intro lb hlb la hla
        obtain ⟨l, hl, hlp⟩ := ladderRemove_price_mem b.orders oid _ b.asks la hla
        rw [hlp]
        exact hcross lb hlb l hl

theorem modify_bookShape (b : OrderBook) (oid nq : Nat) (hS : bookShape b) :
    bookShape (step b (Op.modify oid nq)) := by
  have hidsf2 : idsFresh (b.modifyOrder oid nq).1 := step_idsFresh b (Op.modify oid nq) hS.2.2.2.2
  obtain ⟨hbp, hap, hcross, hU, hF⟩ := hS
  show bookShape (b.modifyOrder oid nq).1
  rcases modifyOrder_cases b oid nq with ⟨he, _⟩ | ⟨hc, he | he⟩
  · rw [he] at hidsf2 ⊢
    exact ⟨hbp, hap, hcross, hU, hidsf2⟩
  · rw [he] at hidsf2 ⊢
    refine ⟨?_, hap, ?_, ?_, hidsf2⟩
    · exact pairwise_price_transfer (fun a c => c < a) _ _ (ladderAdjust_map_price _ _ _) hbp
    · intro lb hlb la hla
      obtain ⟨l, hl, hlp⟩ := ladderAdjust_mem_price _ _ b.bids lb hlb
      rw [hlp]
      exact hcross l hl la hla
    · exact storeSet_storeU32 _ _ _ hU (Nat.mod_lt _ (by decide))
  · rw [he] at hidsf2 ⊢
    refine ⟨hbp, ?_, ?_, ?_, hidsf2⟩
    · exact pairwise_price_transfer (fun a c => a < c) _ _ (ladderAdjust_map_price _ _ _) hap
    · intro lb hlb la hla
      obtain ⟨l, hl, hlp⟩ := ladderAdjust_mem_price _ _ b.asks la hla
      rw [hlp]
      exact hcross lb hlb l hl
    · exact storeSet_storeU32 _ _ _ hU (Nat.mod_lt _ (by decide))

theorem step_bookShape (b : OrderBook) (op : Op) (hS : bookShape b) :
    bookShape (step b op) := by
  cases op with
  | submit p q s ts => exact submit_bookShape b p q s ts hS
  | cancel oid => exact cancel_bookShape b oid hS
  | modify oid nq => exact modify_bookShape b oid nq hS

theorem run_bookShape : ∀ (ops : List Op) (b : OrderBook),
    bookShape b → bookShape (run b ops) := by
  intro ops
  induction ops with
  | nil =>
    intro b hS
    exact hS
  | cons op ops ih =>
    intro b hS
    have hrun : run b (op :: ops) = run (step b op) ops := by
      simp [run, List.foldl]
    rw [hrun]
    exact ih (step b op) (step_bookShape b op hS)

theorem emptyBook_bookShape : bookShape emptyBook := by
  refine ⟨by simp [emptyBook], by simp [emptyBook], ?_, ?_, emptyBook_idsFresh⟩
  · intro lb hlb
    simp [emptyBook] at hlb
  · intro pr hpr
    simp [emptyBook] at hpr

/-- Claim C8: after any operation script run from the fresh book, when
both ladders are non-empty the best bid price is strictly below the
best ask price: the book is never locked or crossed. -/
theorem c8_book_never_crossed (ops : List Op)
    (hbid : (run emptyBook ops).bids ≠ []) (hask : (run emptyBook ops).asks ≠ []) :
    (run emptyBook ops).getBestBid < (run emptyBook ops).getBestAsk := by
  obtain ⟨hbp, hap, hcross, hU, hF⟩ := run_bookShape ops emptyBook emptyBook_bookShape
  cases hb : (run emptyBook ops).bids with
  | nil => exact absurd hb hbid
  | cons lb rest =>
    cases ha : (run emptyBook ops).asks with
    | nil => exact absurd ha hask
    | cons la rest2 =>
      have h1 := hcross lb (by rw [hb]; exact List.mem_cons_self _ _)
        la (by rw [ha]; exact List.mem_cons_self _ _)
      unfold OrderBook.getBestBid OrderBook.getBestAsk
      rw [hb, ha]
      exact h1

theorem c8_book_never_crossed_witness :
    (run emptyBook [Op.submit 100 5 OrderSide.BUY 1, Op.submit 101 7 OrderSide.SELL 2]).bids ≠ [] ∧
    (run emptyBook [Op.submit 100 5 OrderSide.BUY 1, Op.submit 101 7 OrderSide.SELL 2]).asks ≠ [] ∧
    (run emptyBook [Op.submit 100 5 OrderSide.BUY 1, Op.submit 101 7 OrderSide.SELL 2]).getBestBid
      < (run emptyBook [Op.submit 100 5 OrderSide.BUY 1, Op.submit 101 7 OrderSide.SELL 2]).getBestAsk :=
  ⟨by decide, by decide,
   c8_book_never_crossed [Op.submit 100 5 OrderSide.BUY 1, Op.submit 101 7 OrderSide.SELL 2]
     (by decide) (by decide)⟩

/-- FIFO at the best opposite level for an incoming SELL: the front
resting order of the highest-price bid level is the unique counterparty
of a trade of size at most its remaining, at that level's price, and
every later-queued order is untouched and stays queued there. -/
theorem addSell_fifo_priority (b : OrderBook) (p q ts a : Nat) (L : PriceLevel)
    (Ls : List PriceLevel) (rest : List Nat)
    (hasks : b.bids = L :: Ls)
    (hqueue : L.orders = a :: rest)
    (hbest : ∀ L2 ∈ b.bids, L2.price ≤ L.price)
    (hfreshO : ∀ pr ∈ b.orders, pr.1 < b.nextOrderId)
    (hfreshL : ∀ k ∈ L.orders, k < b.nextOrderId)
    (hafind : (b.orders.find? (fun pr => pr.1 == a)).isSome = true)
    (hAfb : (storeGet b.orders a).filledQuantity ≤ (storeGet b.orders a).quantity)
    (hAqb : (storeGet b.orders a).quantity < U32MOD)
    (hap : (storeGet b.orders a).price = L.price)
    (hanotrest : a ∉ rest)
    (hqpos : 0 < q) (hqb : q < U32MOD) (hpb : p < U32MOD)
    (hqle : q ≤ (storeGet b.orders a).getRemainingQuantity)
    (hcross : p ≤ L.price) :
    (b.addOrder p q OrderSide.SELL ts).1.trades
      = b.trades ++ [⟨a, b.nextOrderId, L.price, q, ts % U64MOD⟩] ∧
    (b.addOrder p q OrderSide.SELL ts).2 = b.nextOrderId ∧
    (∀ i ∈ rest, storeGet (b.addOrder p q OrderSide.SELL ts).1.orders i
      = storeGet b.orders i) ∧
    (∀ i ∈ rest, ∃ l2 ∈ (b.addOrder p q OrderSide.SELL ts).1.bids,
        l2.price = L.price ∧ i ∈ l2.orders) ∧
    (∀ L2 ∈ b.bids, L2.price ≤ L.price) := by
  have hmq : q % U32MOD = q := Nat.mod_eq_of_lt hqb
  have hmp : p % U32MOD = p := Nat.mod_eq_of_lt hpb
  have hane : a ≠ b.nextOrderId :=
    Nat.ne_of_lt (hfreshL a (by rw [hqueue]; exact List.mem_cons_self a rest))
  have hoidfresh : ∀ pr ∈ b.orders, pr.1 ≠ b.nextOrderId :=
    fun pr h => Nat.ne_of_lt (hfreshO pr h)
  have hremA : (storeGet b.orders a).getRemainingQuantity
      = (storeGet b.orders a).quantity - (storeGet b.orders a).filledQuantity := by
    simp only [Order.getRemainingQuantity]
    exact sub32_eq_of_le _ _ hAfb hAqb
  have hqle2 : q ≤ (storeGet b.orders a).quantity - (storeGet b.orders a).filledQuantity :=
    hremA ▸ hqle
  have hOget : storeGet (b.orders ++ [(b.nextOrderId, (⟨b.nextOrderId, ts % U64MOD, p, q, 0, OrderSide.SELL, OrderType.LIMIT, OrderStatus.NEW⟩ : Order))]) b.nextOrderId = (⟨b.nextOrderId, ts % U64MOD, p, q, 0, OrderSide.SELL, OrderType.LIMIT, OrderStatus.NEW⟩ : Order) :=
    storeGet_append_fresh _ _ _ hoidfresh
  have hAget : storeGet (b.orders ++ [(b.nextOrderId, (⟨b.nextOrderId, ts % U64MOD, p, q, 0, OrderSide.SELL, OrderType.LIMIT, OrderStatus.NEW⟩ : Order))]) a = storeGet b.orders a :=
    storeGet_append_ne _ _ _ _ hane
  have hnf : (storeGet (b.orders ++ [(b.nextOrderId, (⟨b.nextOrderId, ts % U64MOD, p, q, 0, OrderSide.SELL, OrderType.LIMIT, OrderStatus.NEW⟩ : Order))]) b.nextOrderId).isFilled = false := by
    rw [hOget]
    simp only [Order.isFilled, decide_eq_false_iff_not]
    omega
  have hrem0 : (storeGet (b.orders ++ [(b.nextOrderId, (⟨b.nextOrderId, ts % U64MOD, p, q, 0, OrderSide.SELL, OrderType.LIMIT, OrderStatus.NEW⟩ : Order))]) b.nextOrderId).getRemainingQuantity = q := by
    rw [hOget]
    simp [Order.getRemainingQuantity, sub32_zero, hmq]
  have htq : min (storeGet (b.orders ++ [(b.nextOrderId, (⟨b.nextOrderId, ts % U64MOD, p, q, 0, OrderSide.SELL, OrderType.LIMIT, OrderStatus.NEW⟩ : Order))]) b.nextOrderId).getRemainingQuantity
      (storeGet (b.orders ++ [(b.nextOrderId, (⟨b.nextOrderId, ts % U64MOD, p, q, 0, OrderSide.SELL, OrderType.LIMIT, OrderStatus.NEW⟩ : Order))]) a).getRemainingQuantity = q := by
    rw [hrem0, hAget]
    exact min_eq_left hqle
  have hOfill : (storeGet (b.orders ++ [(b.nextOrderId, (⟨b.nextOrderId, ts % U64MOD, p, q, 0, OrderSide.SELL, OrderType.LIMIT, OrderStatus.NEW⟩ : Order))]) b.nextOrderId).fill q = (⟨b.nextOrderId, ts % U64MOD, p, q, q, OrderSide.SELL, OrderType.LIMIT, OrderStatus.FILLED⟩ : Order) := by
    rw [hOget]
    simp [Order.fill, Order.isFilled, add32, hmq]
  have hfindO : (((b.orders ++ [(b.nextOrderId, (⟨b.nextOrderId, ts % U64MOD, p, q, 0, OrderSide.SELL, OrderType.LIMIT, OrderStatus.NEW⟩ : Order))])).find? (fun pr => pr.1 == b.nextOrderId)).isSome = true :=
    find?_append_self_isSome _ _ _
  have hfindA : (((b.orders ++ [(b.nextOrderId, (⟨b.nextOrderId, ts % U64MOD, p, q, 0, OrderSide.SELL, OrderType.LIMIT, OrderStatus.NEW⟩ : Order))])).find? (fun pr => pr.1 == a)).isSome = true :=
    find?_isSome_append _ _ _ hafind
  have h1o : storeGet (storeSet (b.orders ++ [(b.nextOrderId, (⟨b.nextOrderId, ts % U64MOD, p, q, 0, OrderSide.SELL, OrderType.LIMIT, OrderStatus.NEW⟩ : Order))]) b.nextOrderId (⟨b.nextOrderId, ts % U64MOD, p, q, q, OrderSide.SELL, OrderType.LIMIT, OrderStatus.FILLED⟩ : Order)) b.nextOrderId = (⟨b.nextOrderId, ts % U64MOD, p, q, q, OrderSide.SELL, OrderType.LIMIT, OrderStatus.FILLED⟩ : Order) :=
    storeGet_storeSet_self _ _ _ hfindO
  have h1a : storeGet (storeSet (b.orders ++ [(b.nextOrderId, (⟨b.nextOrderId, ts % U64MOD, p, q, 0, OrderSide.SELL, OrderType.LIMIT, OrderStatus.NEW⟩ : Order))]) b.nextOrderId (⟨b.nextOrderId, ts % U64MOD, p, q, q, OrderSide.SELL, OrderType.LIMIT, OrderStatus.FILLED⟩ : Order)) a = storeGet b.orders a := by
    rw [storeGet_storeSet_ne _ _ _ _ hane]
    exact hAget
  have hfindA1 : (((storeSet (b.orders ++ [(b.nextOrderId, (⟨b.nextOrderId, ts % U64MOD, p, q, 0, OrderSide.SELL, OrderType.LIMIT, OrderStatus.NEW⟩ : Order))]) b.nextOrderId (⟨b.nextOrderId, ts % U64MOD, p, q, q, OrderSide.SELL, OrderType.LIMIT, OrderStatus.FILLED⟩ : Order))).find? (fun pr => pr.1 == a)).isSome = true := by
    rw [find?_isSome_storeSet]
    exact hfindA
  have h2a : storeGet (storeSet (storeSet (b.orders ++ [(b.nextOrderId, (⟨b.nextOrderId, ts % U64MOD, p, q, 0, OrderSide.SELL, OrderType.LIMIT, OrderStatus.NEW⟩ : Order))]) b.nextOrderId (⟨b.nextOrderId, ts % U64MOD, p, q, q, OrderSide.SELL, OrderType.LIMIT, OrderStatus.FILLED⟩ : Order)) a ((storeGet b.orders a).fill q)) a = ((storeGet b.orders a).fill q) := by
    have h3 := storeGet_storeSet_self (storeSet (b.orders ++ [(b.nextOrderId, (⟨b.nextOrderId, ts % U64MOD, p, q, 0, OrderSide.SELL, OrderType.LIMIT, OrderStatus.NEW⟩ : Order))]) b.nextOrderId (⟨b.nextOrderId, ts % U64MOD, p, q, q, OrderSide.SELL, OrderType.LIMIT, OrderStatus.FILLED⟩ : Order)) a ((storeGet (storeSet (b.orders ++ [(b.nextOrderId, (⟨b.nextOrderId, ts % U64MOD, p, q, 0, OrderSide.SELL, OrderType.LIMIT, OrderStatus.NEW⟩ : Order))]) b.nextOrderId (⟨b.nextOrderId, ts % U64MOD, p, q, q, OrderSide.SELL, OrderType.LIMIT, OrderStatus.FILLED⟩ : Order)) a).fill q) hfindA1
    rw [h1a] at h3
    exact h3
  have h2o : storeGet (storeSet (storeSet (b.orders ++ [(b.nextOrderId, (⟨b.nextOrderId, ts % U64MOD, p, q, 0, OrderSide.SELL, OrderType.LIMIT, OrderStatus.NEW⟩ : Order))]) b.nextOrderId (⟨b.nextOrderId, ts % U64MOD, p, q, q, OrderSide.SELL, OrderType.LIMIT, OrderStatus.FILLED⟩ : Order)) a ((storeGet b.orders a).fill q)) b.nextOrderId = (⟨b.nextOrderId, ts % U64MOD, p, q, q, OrderSide.SELL, OrderType.LIMIT, OrderStatus.FILLED⟩ : Order) := by
    rw [storeGet_storeSet_ne _ _ _ _ (Ne.symm hane)]
    exact h1o
  have hOFfilled : ((⟨b.nextOrderId, ts % U64MOD, p, q, q, OrderSide.SELL, OrderType.LIMIT, OrderStatus.FILLED⟩ : Order)).isFilled = true := by
    simp [Order.isFilled]
  have hfqsum : add32 (storeGet b.orders a).filledQuantity q
      = (storeGet b.orders a).filledQuantity + q :=
    add32_eq_of_lt _ _ (by omega)
  have hstep : matchOrders b.nextOrderId (b.orders ++ [(b.nextOrderId, (⟨b.nextOrderId, ts % U64MOD, p, q, 0, OrderSide.SELL, OrderType.LIMIT, OrderStatus.NEW⟩ : Order))]) (b.mapKeys ++ [b.nextOrderId]) b.trades L
      = (if (((storeGet b.orders a).fill q)).isFilled then
           matchLoopFuel b.nextOrderId ((a :: rest).length) (storeSet (storeSet (b.orders ++ [(b.nextOrderId, (⟨b.nextOrderId, ts % U64MOD, p, q, 0, OrderSide.SELL, OrderType.LIMIT, OrderStatus.NEW⟩ : Order))]) b.nextOrderId (⟨b.nextOrderId, ts % U64MOD, p, q, q, OrderSide.SELL, OrderType.LIMIT, OrderStatus.FILLED⟩ : Order)) a ((storeGet b.orders a).fill q)) ((b.mapKeys ++ [b.nextOrderId]).filter (fun k => k != a)) (b.trades ++ [(⟨a, b.nextOrderId, L.price, q, ts % U64MOD⟩ : Trade)]) (PriceLevel.removeOrder (storeSet (storeSet (b.orders ++ [(b.nextOrderId, (⟨b.nextOrderId, ts % U64MOD, p, q, 0, OrderSide.SELL, OrderType.LIMIT, OrderStatus.NEW⟩ : Order))]) b.nextOrderId (⟨b.nextOrderId, ts % U64MOD, p, q, q, OrderSide.SELL, OrderType.LIMIT, OrderStatus.FILLED⟩ : Order)) a ((storeGet b.orders a).fill q)) L a)
         else ⟨(storeSet (storeSet (b.orders ++ [(b.nextOrderId, (⟨b.nextOrderId, ts % U64MOD, p, q, 0, OrderSide.SELL, OrderType.LIMIT, OrderStatus.NEW⟩ : Order))]) b.nextOrderId (⟨b.nextOrderId, ts % U64MOD, p, q, q, OrderSide.SELL, OrderType.LIMIT, OrderStatus.FILLED⟩ : Order)) a ((storeGet b.orders a).fill q)), (b.mapKeys ++ [b.nextOrderId]), (b.trades ++ [(⟨a, b.nextOrderId, L.price, q, ts % U64MOD⟩ : Trade)]), L⟩) := by
    rw [matchOrders, hqueue, matchLoopFuel_succ_cons _ _ _ _ _ _ a rest hnf hqueue]
    simp only [htq, hOfill, h1a, h2a, h2o]
    have hb1 : (((⟨b.nextOrderId, ts % U64MOD, p, q, q, OrderSide.SELL, OrderType.LIMIT, OrderStatus.FILLED⟩ : Order)).side == OrderSide.BUY) = false := rfl
    have hb2 : (((⟨b.nextOrderId, ts % U64MOD, p, q, q, OrderSide.SELL, OrderType.LIMIT, OrderStatus.FILLED⟩ : Order)).side == OrderSide.SELL) = true := rfl
    simp only [hb1, hb2, if_true, if_false]
    rw [fill_price, hap]
    rfl
  have hnlt : ¬ L.price < (storeGet (b.orders ++ [(b.nextOrderId, (⟨b.nextOrderId, ts % U64MOD, p, q, 0, OrderSide.SELL, OrderType.LIMIT, OrderStatus.NEW⟩ : Order))]) b.nextOrderId).price := by
    rw [hOget]
    simp only [not_lt]
    exact hcross
  have hloop0 : addSellLoop b.nextOrderId (b.orders ++ [(b.nextOrderId, (⟨b.nextOrderId, ts % U64MOD, p, q, 0, OrderSide.SELL, OrderType.LIMIT, OrderStatus.NEW⟩ : Order))]) (b.mapKeys ++ [b.nextOrderId]) b.trades b.bids =
      (let m := matchOrders b.nextOrderId (b.orders ++ [(b.nextOrderId, (⟨b.nextOrderId, ts % U64MOD, p, q, 0, OrderSide.SELL, OrderType.LIMIT, OrderStatus.NEW⟩ : Order))]) (b.mapKeys ++ [b.nextOrderId]) b.trades L
       if m.level.isEmpty then addSellLoop b.nextOrderId m.orders m.mapKeys m.trades Ls
       else ⟨m.orders, m.mapKeys, m.trades, m.level :: Ls⟩) := by
    rw [hasks]
    exact addSellLoop_cons_cross _ _ _ _ _ _ hnf hnlt
  have hunfold : b.addOrder p q OrderSide.SELL ts
      = (OrderBook.addSellOrder
          { b with orders := (b.orders ++ [(b.nextOrderId, (⟨b.nextOrderId, ts % U64MOD, p, q, 0, OrderSide.SELL, OrderType.LIMIT, OrderStatus.NEW⟩ : Order))]), mapKeys := (b.mapKeys ++ [b.nextOrderId]), nextOrderId := b.nextOrderId + 1 }
          b.nextOrderId, b.nextOrderId) := by
    simp only [OrderBook.addOrder, show (OrderSide.SELL == OrderSide.BUY) = false from rfl,
      Bool.false_eq_true, if_false, hmq, hmp]
  rcases Nat.lt_or_ge q ((storeGet b.orders a).getRemainingQuantity) with hqlt | hqge
  · -- q < remaining(a): resting order not fully filled, level untouched
    have hqlt2 : q < (storeGet b.orders a).quantity - (storeGet b.orders a).filledQuantity :=
      hremA ▸ hqlt
    have hAfill : (((storeGet b.orders a).fill q)).isFilled = false := by
      simp only [Order.isFilled, fill_quantity, fill_filledQuantity, hfqsum,
        decide_eq_false_iff_not]
      omega
    have hmatch : matchOrders b.nextOrderId (b.orders ++ [(b.nextOrderId, (⟨b.nextOrderId, ts % U64MOD, p, q, 0, OrderSide.SELL, OrderType.LIMIT, OrderStatus.NEW⟩ : Order))]) (b.mapKeys ++ [b.nextOrderId]) b.trades L
        = ⟨(storeSet (storeSet (b.orders ++ [(b.nextOrderId, (⟨b.nextOrderId, ts % U64MOD, p, q, 0, OrderSide.SELL, OrderType.LIMIT, OrderStatus.NEW⟩ : Order))]) b.nextOrderId (⟨b.nextOrderId, ts % U64MOD, p, q, q, OrderSide.SELL, OrderType.LIMIT, OrderStatus.FILLED⟩ : Order)) a ((storeGet b.orders a).fill q)), (b.mapKeys ++ [b.nextOrderId]), (b.trades ++ [(⟨a, b.nextOrderId, L.price, q, ts % U64MOD⟩ : Trade)]), L⟩ := by
      rw [hstep, hAfill]
      simp
    have hLne : L.isEmpty = false := by
      simp [PriceLevel.isEmpty, hqueue]
    have hloop : addSellLoop b.nextOrderId (b.orders ++ [(b.nextOrderId, (⟨b.nextOrderId, ts % U64MOD, p, q, 0, OrderSide.SELL, OrderType.LIMIT, OrderStatus.NEW⟩ : Order))]) (b.mapKeys ++ [b.nextOrderId]) b.trades b.bids
        = ⟨(storeSet (storeSet (b.orders ++ [(b.nextOrderId, (⟨b.nextOrderId, ts % U64MOD, p, q, 0, OrderSide.SELL, OrderType.LIMIT, OrderStatus.NEW⟩ : Order))]) b.nextOrderId (⟨b.nextOrderId, ts % U64MOD, p, q, q, OrderSide.SELL, OrderType.LIMIT, OrderStatus.FILLED⟩ : Order)) a ((storeGet b.orders a).fill q)), (b.mapKeys ++ [b.nextOrderId]), (b.trades ++ [(⟨a, b.nextOrderId, L.price, q, ts % U64MOD⟩ : Trade)]), L :: Ls⟩ := by
      rw [hloop0, hmatch]
      simp [hLne]
    have hres : b.addOrder p q OrderSide.SELL ts
        = ({ b with orders := (storeSet (storeSet (b.orders ++ [(b.nextOrderId, (⟨b.nextOrderId, ts % U64MOD, p, q, 0, OrderSide.SELL, OrderType.LIMIT, OrderStatus.NEW⟩ : Order))]) b.nextOrderId (⟨b.nextOrderId, ts % U64MOD, p, q, q, OrderSide.SELL, OrderType.LIMIT, OrderStatus.FILLED⟩ : Order)) a ((storeGet b.orders a).fill q)), mapKeys := (b.mapKeys ++ [b.nextOrderId]), trades := (b.trades ++ [(⟨a, b.nextOrderId, L.price, q, ts % U64MOD⟩ : Trade)]), bids := L :: Ls, nextOrderId := b.nextOrderId + 1 }, b.nextOrderId) := by
      rw [hunfold]
      simp only [OrderBook.addSellOrder, hloop, h2o, hOFfilled]
      rfl
    rw [hres]
    refine ⟨rfl, rfl, ?_, ?_, hbest⟩
    · intro i hi
      have hia : i ≠ a := fun he => hanotrest (he ▸ hi)
      have hioid : i ≠ b.nextOrderId :=
        Nat.ne_of_lt (hfreshL i (by rw [hqueue]; exact List.mem_cons_of_mem a hi))
      show storeGet (storeSet (storeSet (b.orders ++ [(b.nextOrderId, (⟨b.nextOrderId, ts % U64MOD, p, q, 0, OrderSide.SELL, OrderType.LIMIT, OrderStatus.NEW⟩ : Order))]) b.nextOrderId (⟨b.nextOrderId, ts % U64MOD, p, q, q, OrderSide.SELL, OrderType.LIMIT, OrderStatus.FILLED⟩ : Order)) a ((storeGet b.orders a).fill q)) i = storeGet b.orders i
      rw [storeGet_storeSet_ne _ _ _ _ hia, storeGet_storeSet_ne _ _ _ _ hioid,
        storeGet_append_ne _ _ _ _ hioid]
    · intro i hi
      exact ⟨L, List.mem_cons_self L Ls, rfl, by rw [hqueue]; exact List.mem_cons_of_mem a hi⟩
  · -- q = remaining(a): resting order fully filled and popped
    have hqeq : q = (storeGet b.orders a).getRemainingQuantity := le_antisymm hqle hqge
    have hqeq2 : q = (storeGet b.orders a).quantity - (storeGet b.orders a).filledQuantity :=
      hremA ▸ hqeq
    have hAfill : (((storeGet b.orders a).fill q)).isFilled = true := by
      simp only [Order.isFilled, fill_quantity, fill_filledQuantity, hfqsum,
        decide_eq_true_eq]
      omega
    have hlvl2orders : ((PriceLevel.removeOrder (storeSet (storeSet (b.orders ++ [(b.nextOrderId, (⟨b.nextOrderId, ts % U64MOD, p, q, 0, OrderSide.SELL, OrderType.LIMIT, OrderStatus.NEW⟩ : Order))]) b.nextOrderId (⟨b.nextOrderId, ts % U64MOD, p, q, q, OrderSide.SELL, OrderType.LIMIT, OrderStatus.FILLED⟩ : Order)) a ((storeGet b.orders a).fill q)) L a)).orders = rest := by
      simp only [PriceLevel.removeOrder, hqueue]
      rw [List.filter_cons]
      simp only [show (a != a) = false from by simp, if_false]
      exact filter_bne_eq_self rest a hanotrest
    have hmatch : matchOrders b.nextOrderId (b.orders ++ [(b.nextOrderId, (⟨b.nextOrderId, ts % U64MOD, p, q, 0, OrderSide.SELL, OrderType.LIMIT, OrderStatus.NEW⟩ : Order))]) (b.mapKeys ++ [b.nextOrderId]) b.trades L
        = ⟨(storeSet (storeSet (b.orders ++ [(b.nextOrderId, (⟨b.nextOrderId, ts % U64MOD, p, q, 0, OrderSide.SELL, OrderType.LIMIT, OrderStatus.NEW⟩ : Order))]) b.nextOrderId (⟨b.nextOrderId, ts % U64MOD, p, q, q, OrderSide.SELL, OrderType.LIMIT, OrderStatus.FILLED⟩ : Order)) a ((storeGet b.orders a).fill q)), ((b.mapKeys ++ [b.nextOrderId]).filter (fun k => k != a)), (b.trades ++ [(⟨a, b.nextOrderId, L.price, q, ts % U64MOD⟩ : Trade)]), (PriceLevel.removeOrder (storeSet (storeSet (b.orders ++ [(b.nextOrderId, (⟨b.nextOrderId, ts % U64MOD, p, q, 0, OrderSide.SELL, OrderType.LIMIT, OrderStatus.NEW⟩ : Order))]) b.nextOrderId (⟨b.nextOrderId, ts % U64MOD, p, q, q, OrderSide.SELL, OrderType.LIMIT, OrderStatus.FILLED⟩ : Order)) a ((storeGet b.orders a).fill q)) L a)⟩ := by
      rw [hstep, hAfill]
      simp only [if_true]
      have hlen : (a :: rest).length = rest.length + 1 := rfl
      rw [hlen, matchLoopFuel_succ_filled _ _ _ _ _ _ (by rw [h2o]; exact hOFfilled)]
    have hres2 : (OrderBook.addSellOrder
          { b with orders := (b.orders ++ [(b.nextOrderId, (⟨b.nextOrderId, ts % U64MOD, p, q, 0, OrderSide.SELL, OrderType.LIMIT, OrderStatus.NEW⟩ : Order))]), mapKeys := (b.mapKeys ++ [b.nextOrderId]), nextOrderId := b.nextOrderId + 1 }
          b.nextOrderId)
        = { b with orders := (storeSet (storeSet (b.orders ++ [(b.nextOrderId, (⟨b.nextOrderId, ts % U64MOD, p, q, 0, OrderSide.SELL, OrderType.LIMIT, OrderStatus.NEW⟩ : Order))]) b.nextOrderId (⟨b.nextOrderId, ts % U64MOD, p, q, q, OrderSide.SELL, OrderType.LIMIT, OrderStatus.FILLED⟩ : Order)) a ((storeGet b.orders a).fill q)), mapKeys := ((b.mapKeys ++ [b.nextOrderId]).filter (fun k => k != a)), trades := (b.trades ++ [(⟨a, b.nextOrderId, L.price, q, ts % U64MOD⟩ : Trade)]), bids := (if ((PriceLevel.removeOrder (storeSet (storeSet (b.orders ++ [(b.nextOrderId, (⟨b.nextOrderId, ts % U64MOD, p, q, 0, OrderSide.SELL, OrderType.LIMIT, OrderStatus.NEW⟩ : Order))]) b.nextOrderId (⟨b.nextOrderId, ts % U64MOD, p, q, q, OrderSide.SELL, OrderType.LIMIT, OrderStatus.FILLED⟩ : Order)) a ((storeGet b.orders a).fill q)) L a)).isEmpty then Ls else (PriceLevel.removeOrder (storeSet (storeSet (b.orders ++ [(b.nextOrderId, (⟨b.nextOrderId, ts % U64MOD, p, q, 0, OrderSide.SELL, OrderType.LIMIT, OrderStatus.NEW⟩ : Order))]) b.nextOrderId (⟨b.nextOrderId, ts % U64MOD, p, q, q, OrderSide.SELL, OrderType.LIMIT, OrderStatus.FILLED⟩ : Order)) a ((storeGet b.orders a).fill q)) L a) :: Ls), nextOrderId := b.nextOrderId + 1 } := by
      by_cases hE : ((PriceLevel.removeOrder (storeSet (storeSet (b.orders ++ [(b.nextOrderId, (⟨b.nextOrderId, ts % U64MOD, p, q, 0, OrderSide.SELL, OrderType.LIMIT, OrderStatus.NEW⟩ : Order))]) b.nextOrderId (⟨b.nextOrderId, ts % U64MOD, p, q, q, OrderSide.SELL, OrderType.LIMIT, OrderStatus.FILLED⟩ : Order)) a ((storeGet b.orders a).fill q)) L a)).isEmpty = true
      · simp only [OrderBook.addSellOrder, hloop0, hmatch]
        simp only [hE, if_true]
        rw [addSellLoop_of_filled _ _ _ _ _ (by rw [h2o]; exact hOFfilled)]
        simp only [h2o, hOFfilled, if_true]
      · simp only [OrderBook.addSellOrder, hloop0, hmatch]
        simp only [hE, if_false, Bool.false_eq_true]
        simp only [h2o, hOFfilled, if_true]
    rw [hunfold, hres2]
    refine ⟨rfl, rfl, ?_, ?_, hbest⟩
    · intro i hi
      have hia : i ≠ a := fun he => hanotrest (he ▸ hi)
      have hioid : i ≠ b.nextOrderId :=
        Nat.ne_of_lt (hfreshL i (by rw [hqueue]; exact List.mem_cons_of_mem a hi))
      show storeGet (storeSet (storeSet (b.orders ++ [(b.nextOrderId, (⟨b.nextOrderId, ts % U64MOD, p, q, 0, OrderSide.SELL, OrderType.LIMIT, OrderStatus.NEW⟩ : Order))]) b.nextOrderId (⟨b.nextOrderId, ts % U64MOD, p, q, q, OrderSide.SELL, OrderType.LIMIT, OrderStatus.FILLED⟩ : Order)) a ((storeGet b.orders a).fill q)) i = storeGet b.orders i
      rw [storeGet_storeSet_ne _ _ _ _ hia, storeGet_storeSet_ne _ _ _ _ hioid,
        storeGet_append_ne _ _ _ _ hioid]
    · intro i hi
      have hrne : rest ≠ [] := fun hr => by
        rw [hr] at hi
        exact absurd hi (List.not_mem_nil i)
      have hE : ((PriceLevel.removeOrder (storeSet (storeSet (b.orders ++ [(b.nextOrderId, (⟨b.nextOrderId, ts % U64MOD, p, q, 0, OrderSide.SELL, OrderType.LIMIT, OrderStatus.NEW⟩ : Order))]) b.nextOrderId (⟨b.nextOrderId, ts % U64MOD, p, q, q, OrderSide.SELL, OrderType.LIMIT, OrderStatus.FILLED⟩ : Order)) a ((storeGet b.orders a).fill q)) L a)).isEmpty = false := by
        simp [PriceLevel.isEmpty, hlvl2orders, hrne]
      refine ⟨(PriceLevel.removeOrder (storeSet (storeSet (b.orders ++ [(b.nextOrderId, (⟨b.nextOrderId, ts % U64MOD, p, q, 0, OrderSide.SELL, OrderType.LIMIT, OrderStatus.NEW⟩ : Order))]) b.nextOrderId (⟨b.nextOrderId, ts % U64MOD, p, q, q, OrderSide.SELL, OrderType.LIMIT, OrderStatus.FILLED⟩ : Order)) a ((storeGet b.orders a).fill q)) L a), ?_, rfl, ?_⟩
      · simp only [hE, Bool.false_eq_true, if_false]
        exact List.mem_cons_self _ _
      · rw [hlvl2orders]
        exact hi

/-- Claim C6: price-time priority at the matching loop, for both
aggressor sides.  For an incoming order that crosses the best opposite
price level (lowest-price ask for a BUY, highest-price bid for a SELL)
whose FIFO queue is `a :: rest`, with a trade size `q ≤ remaining(a)`:
exactly one trade is emitted and its counterparty is `a`, the
earliest-inserted resting order at the best opposite level; it executes
at that level's price; every later-queued order (`rest`) is untouched
and remains queued at that price level in its position behind the
front. -/
theorem c6_price_time_priority (b : OrderBook) (p q ts a : Nat) (s : OrderSide)
    (L : PriceLevel) (Ls : List PriceLevel) (rest : List Nat)
    (hopp : (match s with | OrderSide.BUY => b.asks | OrderSide.SELL => b.bids) = L :: Ls)
    (hqueue : L.orders = a :: rest)
    (hbest : ∀ L2 ∈ (match s with | OrderSide.BUY => b.asks | OrderSide.SELL => b.bids),
      match s with | OrderSide.BUY => L.price ≤ L2.price | OrderSide.SELL => L2.price ≤ L.price)
    (hfreshO : ∀ pr ∈ b.orders, pr.1 < b.nextOrderId)
    (hfreshL : ∀ k ∈ L.orders, k < b.nextOrderId)
    (hafind : (b.orders.find? (fun pr => pr.1 == a)).isSome = true)
    (hAfb : (storeGet b.orders a).filledQuantity ≤ (storeGet b.orders a).quantity)
    (hAqb : (storeGet b.orders a).quantity < U32MOD)
    (hap : (storeGet b.orders a).price = L.price)
    (hanotrest : a ∉ rest)
    (hqpos : 0 < q) (hqb : q < U32MOD) (hpb : p < U32MOD)
    (hqle : q ≤ (storeGet b.orders a).getRemainingQuantity)
    (hcross : match s with | OrderSide.BUY => L.price ≤ p | OrderSide.SELL => p ≤ L.price) :
    (b.addOrder p q s ts).1.trades
      = b.trades ++ [⟨(match s with | OrderSide.BUY => b.nextOrderId | OrderSide.SELL => a),
                      (match s with | OrderSide.BUY => a | OrderSide.SELL => b.nextOrderId),
                      L.price, q, ts % U64MOD⟩] ∧
    (b.addOrder p q s ts).2 = b.nextOrderId ∧
    (∀ i ∈ rest, storeGet (b.addOrder p q s ts).1.orders i = storeGet b.orders i) ∧
    (∀ i ∈ rest, ∃ l2 ∈ (match s with
        | OrderSide.BUY => (b.addOrder p q s ts).1.asks
        | OrderSide.SELL => (b.addOrder p q s ts).1.bids),
      l2.price = L.price ∧ i ∈ l2.orders) ∧
    (∀ L2 ∈ (match s with | OrderSide.BUY => b.asks | OrderSide.SELL => b.bids),
      match s with | OrderSide.BUY => L.price ≤ L2.price | OrderSide.SELL => L2.price ≤ L.price) := by
  cases s with
  | BUY =>
    exact addBuy_fifo_priority b p q ts a L Ls rest hopp hqueue hbest hfreshO hfreshL
      hafind hAfb hAqb hap hanotrest hqpos hqb hpb hqle hcross
  | SELL =>
    exact addSell_fifo_priority b p q ts a L Ls rest hopp hqueue hbest hfreshO hfreshL
      hafind hAfb hAqb hap hanotrest hqpos hqb hpb hqle hcross

theorem c6_price_time_priority_witness :
    (run emptyBook [Op.submit 100 50 OrderSide.BUY 1, Op.submit 100 40 OrderSide.BUY 2]).bids = [(⟨100, 90, [1, 2]⟩ : PriceLevel)] ∧
    ((⟨100, 90, [1, 2]⟩ : PriceLevel)).orders = 1 :: [2] ∧
    (∀ pr ∈ (run emptyBook [Op.submit 100 50 OrderSide.BUY 1, Op.submit 100 40 OrderSide.BUY 2]).orders, pr.1 < (run emptyBook [Op.submit 100 50 OrderSide.BUY 1, Op.submit 100 40 OrderSide.BUY 2]).nextOrderId) ∧
    (((run emptyBook [Op.submit 100 50 OrderSide.BUY 1, Op.submit 100 40 OrderSide.BUY 2]).orders.find? (fun pr => pr.1 == 1)).isSome = true) ∧
    (storeGet (run emptyBook [Op.submit 100 50 OrderSide.BUY 1, Op.submit 100 40 OrderSide.BUY 2]).orders 1).filledQuantity ≤ (storeGet (run emptyBook [Op.submit 100 50 OrderSide.BUY 1, Op.submit 100 40 OrderSide.BUY 2]).orders 1).quantity ∧
    (storeGet (run emptyBook [Op.submit 100 50 OrderSide.BUY 1, Op.submit 100 40 OrderSide.BUY 2]).orders 1).quantity < U32MOD ∧
    (storeGet (run emptyBook [Op.submit 100 50 OrderSide.BUY 1, Op.submit 100 40 OrderSide.BUY 2]).orders 1).price = ((⟨100, 90, [1, 2]⟩ : PriceLevel)).price ∧
    (0 : Nat) < 30 ∧ (30 : Nat) < U32MOD ∧ (100 : Nat) < U32MOD ∧
    30 ≤ (storeGet (run emptyBook [Op.submit 100 50 OrderSide.BUY 1, Op.submit 100 40 OrderSide.BUY 2]).orders 1).getRemainingQuantity ∧
    (100 : Nat) ≤ ((⟨100, 90, [1, 2]⟩ : PriceLevel)).price ∧
    ((run emptyBook [Op.submit 100 50 OrderSide.BUY 1, Op.submit 100 40 OrderSide.BUY 2]).addOrder 100 30 OrderSide.SELL 7).1.trades
      = (run emptyBook [Op.submit 100 50 OrderSide.BUY 1, Op.submit 100 40 OrderSide.BUY 2]).trades ++ [⟨1, (run emptyBook [Op.submit 100 50 OrderSide.BUY 1, Op.submit 100 40 OrderSide.BUY 2]).nextOrderId, ((⟨100, 90, [1, 2]⟩ : PriceLevel)).price, 30, 7 % U64MOD⟩] :=
  ⟨by decide, by decide, by decide, by decide, by decide, by decide, by decide,
   by decide, by decide, by decide, by decide, by decide,
   (c6_price_time_priority (run emptyBook [Op.submit 100 50 OrderSide.BUY 1, Op.submit 100 40 OrderSide.BUY 2]) 100 30 7 1 OrderSide.SELL (⟨100, 90, [1, 2]⟩ : PriceLevel) [] [2]
      (by decide) (by decide) (by decide) (by decide) (by decide) (by decide)
      (by decide) (by decide) (by decide) (by decide) (by decide) (by decide)
      (by decide) (by decide) (by decide)).1⟩

theorem fill_status (o : Order) (t : Nat) :
    (o.fill t).status = OrderStatus.FILLED ∨ (o.fill t).status = OrderStatus.PARTIAL_FILL := by
  simp only [Order.fill]
  split
  · exact Or.inl rfl
  · exact Or.inr rfl

theorem matchLoop_status (incId : Nat) :
    ∀ (fuel : Nat) (st : Store) (keys : List Nat) (tr : List Trade) (lvl : PriceLevel),
      incId ∉ lvl.orders →
      (storeGet st incId).status ≠ OrderStatus.REJECTED →
      (storeGet (matchLoopFuel incId fuel st keys tr lvl).orders incId).status
        ≠ OrderStatus.REJECTED := by
  intro fuel
  induction fuel with
  | zero =>
    intro st keys tr lvl _ hst
    exact hst
  | succ fuel ih =>
    intro st keys tr lvl hni hst
    by_cases hf : (storeGet st incId).isFilled = true
    · rw [matchLoopFuel_succ_filled _ _ _ _ _ _ hf]
      exact hst
    · have hf2 : (storeGet st incId).isFilled = false := by
        revert hf
        cases (storeGet st incId).isFilled <;> simp
      have hsplit : lvl.orders = [] ∨ ∃ r rest2, lvl.orders = r :: rest2 := by
        cases lvl.orders with
        | nil => exact Or.inl rfl
        | cons x xs => exact Or.inr ⟨x, xs, rfl⟩
      rcases hsplit with hq | ⟨r, rest2, hq⟩
      · rw [matchLoopFuel_succ_nil _ _ _ _ _ _ hq]
        exact hst
      · have hrin : r ∈ lvl.orders := by rw [hq]; exact List.mem_cons_self _ _
        have hrne : r ≠ incId := fun he => hni (he ▸ hrin)
        have hst1 : (storeGet (storeSet st incId ((storeGet st incId).fill (min (storeGet st incId).getRemainingQuantity (storeGet st r).getRemainingQuantity))) incId).status ≠ OrderStatus.REJECTED := by
          rcases storeGet_storeSet_cases st incId ((storeGet st incId).fill (min (storeGet st incId).getRemainingQuantity (storeGet st r).getRemainingQuantity))
            with hg | ⟨hg, _⟩
          · rw [hg]
            rcases fill_status (storeGet st incId) (min (storeGet st incId).getRemainingQuantity (storeGet st r).getRemainingQuantity) with h | h
            · rw [h]
              decide
            · rw [h]
              decide
          · rw [hg]
            decide
        have hst2 : (storeGet (storeSet (storeSet st incId ((storeGet st incId).fill (min (storeGet st incId).getRemainingQuantity (storeGet st r).getRemainingQuantity))) r ((storeGet (storeSet st incId ((storeGet st incId).fill (min (storeGet st incId).getRemainingQuantity (storeGet st r).getRemainingQuantity))) r).fill (min (storeGet st incId).getRemainingQuantity (storeGet st r).getRemainingQuantity))) incId).status ≠ OrderStatus.REJECTED := by
          rw [storeGet_storeSet_ne _ _ _ _ (Ne.symm hrne)]
          exact hst1
        rw [matchLoopFuel_succ_cons_explicit _ _ _ _ _ _ r rest2 hf2 hq]
        by_cases hRf : (storeGet (storeSet (storeSet st incId ((storeGet st incId).fill (min (storeGet st incId).getRemainingQuantity (storeGet st r).getRemainingQuantity))) r ((storeGet (storeSet st incId ((storeGet st incId).fill (min (storeGet st incId).getRemainingQuantity (storeGet st r).getRemainingQuantity))) r).fill (min (storeGet st incId).getRemainingQuantity (storeGet st r).getRemainingQuantity))) r).isFilled = true
        · rw [if_pos hRf]
          apply ih (storeSet (storeSet st incId ((storeGet st incId).fill (min (storeGet st incId).getRemainingQuantity (storeGet st r).getRemainingQuantity))) r ((storeGet (storeSet st incId ((storeGet st incId).fill (min (storeGet st incId).getRemainingQuantity (storeGet st r).getRemainingQuantity))) r).fill (min (storeGet st incId).getRemainingQuantity (storeGet st r).getRemainingQuantity))) (keys.filter (fun k => k != r)) (tr ++ [(⟨(if (storeGet (storeSet (storeSet st incId ((storeGet st incId).fill (min (storeGet st incId).getRemainingQuantity (storeGet st r).getRemainingQuantity))) r ((storeGet (storeSet st incId ((storeGet st incId).fill (min (storeGet st incId).getRemainingQuantity (storeGet st r).getRemainingQuantity))) r).fill (min (storeGet st incId).getRemainingQuantity (storeGet st r).getRemainingQuantity))) incId).side == OrderSide.BUY then incId else r), (if (storeGet (storeSet (storeSet st incId ((storeGet st incId).fill (min (storeGet st incId).getRemainingQuantity (storeGet st r).getRemainingQuantity))) r ((storeGet (storeSet st incId ((storeGet st incId).fill (min (storeGet st incId).getRemainingQuantity (storeGet st r).getRemainingQuantity))) r).fill (min (storeGet st incId).getRemainingQuantity (storeGet st r).getRemainingQuantity))) incId).side == OrderSide.SELL then incId else r), (storeGet (storeSet (storeSet st incId ((storeGet st incId).fill (min (storeGet st incId).getRemainingQuantity (storeGet st r).getRemainingQuantity))) r ((storeGet (storeSet st incId ((storeGet st incId).fill (min (storeGet st incId).getRemainingQuantity (storeGet st r).getRemainingQuantity))) r).fill (min (storeGet st incId).getRemainingQuantity (storeGet st r).getRemainingQuantity))) r).price, (min (storeGet st incId).getRemainingQuantity (storeGet st r).getRemainingQuantity), (storeGet (storeSet (storeSet st incId ((storeGet st incId).fill (min (storeGet st incId).getRemainingQuantity (storeGet st r).getRemainingQuantity))) r ((storeGet (storeSet st incId ((storeGet st incId).fill (min (storeGet st incId).getRemainingQuantity (storeGet st r).getRemainingQuantity))) r).fill (min (storeGet st incId).getRemainingQuantity (storeGet st r).getRemainingQuantity))) incId).timestamp⟩ : Trade)]) (lvl.removeOrder (storeSet (storeSet st incId ((storeGet st incId).fill (min (storeGet st incId).getRemainingQuantity (storeGet st r).getRemainingQuantity))) r ((storeGet (storeSet st incId ((storeGet st incId).fill (min (storeGet st incId).getRemainingQuantity (storeGet st r).getRemainingQuantity))) r).fill (min (storeGet st incId).getRemainingQuantity (storeGet st r).getRemainingQuantity))) r)
          · intro hmem
            exact hni (List.mem_of_mem_filter hmem)
          · exact hst2
        · rw [if_neg hRf]
          exact hst2

theorem matchOrders_status (incId : Nat) (st : Store) (keys : List Nat)
    (tr : List Trade) (lvl : PriceLevel) (hni : incId ∉ lvl.orders)
    (hst : (storeGet st incId).status ≠ OrderStatus.REJECTED) :
    (storeGet (matchOrders incId st keys tr lvl).orders incId).status
      ≠ OrderStatus.REJECTED :=
  matchLoop_status incId (lvl.orders.length + 1) st keys tr lvl hni hst

theorem addBuyLoop_status (oid : Nat) :
    ∀ (ladder : List PriceLevel) (st : Store) (keys : List Nat) (tr : List Trade),
      (∀ l ∈ ladder, oid ∉ l.orders) →
      (storeGet st oid).status ≠ OrderStatus.REJECTED →
      (storeGet (addBuyLoop oid st keys tr ladder).orders oid).status
        ≠ OrderStatus.REJECTED := by
  intro ladder
  induction ladder with
  | nil =>
    intro st keys tr _ hst
    exact hst
  | cons best rest ih =>
    intro st keys tr hlad hst
    have hm := matchOrders_status oid st keys tr best
      (hlad best (List.mem_cons_self _ _)) hst
    by_cases hf : (storeGet st oid).isFilled = true
    · rw [show addBuyLoop oid st keys tr (best :: rest) = ⟨st, keys, tr, best :: rest⟩
        from by simp [addBuyLoop, hf]]
      exact hst
    · have hf2 : (storeGet st oid).isFilled = false := by
        revert hf
        cases (storeGet st oid).isFilled <;> simp
      by_cases hlt : (storeGet st oid).price < best.price
      · rw [show addBuyLoop oid st keys tr (best :: rest) = ⟨st, keys, tr, best :: rest⟩
          from by simp [addBuyLoop, hf2, hlt]]
        exact hst
      · rw [show addBuyLoop oid st keys tr (best :: rest)
            = (if (matchOrders oid st keys tr best).level.isEmpty then
                addBuyLoop oid (matchOrders oid st keys tr best).orders (matchOrders oid st keys tr best).mapKeys (matchOrders oid st keys tr best).trades rest
              else ⟨(matchOrders oid st keys tr best).orders, (matchOrders oid st keys tr best).mapKeys, (matchOrders oid st keys tr best).trades, (matchOrders oid st keys tr best).level :: rest⟩)
          from by simp [addBuyLoop, hf2, hlt]]
        by_cases hEmp : ((matchOrders oid st keys tr best)).level.isEmpty = true
        · rw [if_pos hEmp]
          exact ih _ _ _ (fun l hl => hlad l (List.mem_cons_of_mem _ hl)) hm
        · rw [if_neg hEmp]
          exact hm

theorem addSellLoop_status (oid : Nat) :
    ∀ (ladder : List PriceLevel) (st : Store) (keys : List Nat) (tr : List Trade),
      (∀ l ∈ ladder, oid ∉ l.orders) →
      (storeGet st oid).status ≠ OrderStatus.REJECTED →
      (storeGet (addSellLoop oid st keys tr ladder).orders oid).status
        ≠ OrderStatus.REJECTED := by
  intro ladder
  induction ladder with
  | nil =>
    intro st keys tr _ hst
    exact hst
  | cons best rest ih =>
    intro st keys tr hlad hst
    have hm := matchOrders_status oid st keys tr best
      (hlad best (List.mem_cons_self _ _)) hst
    by_cases hf : (storeGet st oid).isFilled = true
    · rw [show addSellLoop oid st keys tr (best :: rest) = ⟨st, keys, tr, best :: rest⟩
        from by simp [addSellLoop, hf]]
      exact hst
    · have hf2 : (storeGet st oid).isFilled = false := by
        revert hf
        cases (storeGet st oid).isFilled <;> simp
      by_cases hlt : best.price < (storeGet st oid).price
      · rw [show addSellLoop oid st keys tr (best :: rest) = ⟨st, keys, tr, best :: rest⟩
          from by simp [addSellLoop, hf2, hlt]]
        exact hst
      · rw [show addSellLoop oid st keys tr (best :: rest)
            = (if (matchOrders oid st keys tr best).level.isEmpty then
                addSellLoop oid (matchOrders oid st keys tr best).orders (matchOrders oid st keys tr best).mapKeys (matchOrders oid st keys tr best).trades rest
              else ⟨(matchOrders oid st keys tr best).orders, (matchOrders oid st keys tr best).mapKeys, (matchOrders oid st keys tr best).trades, (matchOrders oid st keys tr best).level :: rest⟩)
          from by simp [addSellLoop, hf2, hlt]]
        by_cases hEmp : ((matchOrders oid st keys tr best)).level.isEmpty = true
        · rw [if_pos hEmp]
          exact ih _ _ _ (fun l hl => hlad l (List.mem_cons_of_mem _ hl)) hm
        · rw [if_neg hEmp]
          exact hm

/-- Claim C3, amended: `addOrder` performs no pre-validation and never
signals failure.  Every call, malformed or not (zero quantity and zero
price included), mints and returns the ordinary fresh nonzero id
`nextOrderId`, stores the order in the order index under that id, and
the stored order's status is never REJECTED.  A quantity-0 submission
additionally executes no trade and never enters a ladder (bids, asks
and the trade log are unchanged and the id is queued at no level), with
the stored order keeping status NEW, yet it mutates the order index. -/
theorem c3_no_prevalidation_amended (b : OrderBook) (p q : Nat) (s : OrderSide)
    (ts : Nat) (hfresh : idsFresh b) (hpos : 0 < b.nextOrderId) :
    (b.addOrder p q s ts).2 = b.nextOrderId ∧
    (b.addOrder p q s ts).2 ≠ 0 ∧
    b.nextOrderId ∈ (b.addOrder p q s ts).1.mapKeys ∧
    (storeGet (b.addOrder p q s ts).1.orders b.nextOrderId).status ≠ OrderStatus.REJECTED ∧
    (q = 0 →
      (b.addOrder p q s ts).1.bids = b.bids ∧
      (b.addOrder p q s ts).1.asks = b.asks ∧
      (b.addOrder p q s ts).1.trades = b.trades ∧
      (storeGet (b.addOrder p q s ts).1.orders b.nextOrderId).status = OrderStatus.NEW ∧
      (∀ l ∈ (b.addOrder p q s ts).1.bids ++ (b.addOrder p q s ts).1.asks,
        b.nextOrderId ∉ l.orders)) := by
  have hzero : q = 0 →
      (b.addOrder p q s ts).1.bids = b.bids ∧
      (b.addOrder p q s ts).1.asks = b.asks ∧
      (b.addOrder p q s ts).1.trades = b.trades ∧
      (storeGet (b.addOrder p q s ts).1.orders b.nextOrderId).status = OrderStatus.NEW ∧
      (∀ l ∈ (b.addOrder p q s ts).1.bids ++ (b.addOrder p q s ts).1.asks,
        b.nextOrderId ∉ l.orders) := by
    intro hq
    subst hq
    obtain ⟨z1, z2, z3, z4, z5⟩ := addOrder_zero_effects b p s ts hfresh
    exact ⟨z2, z3, z4, z5.2.1, fun l hl => z5.2.2 l hl⟩
  obtain ⟨hf1, hf2, hf3⟩ := hfresh
  have hne2 : ∀ pr ∈ b.orders, pr.1 ≠ b.nextOrderId :=
    fun pr hpr => Nat.ne_of_lt (hf1 pr hpr)
  have hFbids : ∀ l ∈ b.bids, ∀ k ∈ l.orders, k < b.nextOrderId :=
    fun l hl => hf3 l (List.mem_append_left _ hl)
  have hFasks : ∀ l ∈ b.asks, ∀ k ∈ l.orders, k < b.nextOrderId :=
    fun l hl => hf3 l (List.mem_append_right _ hl)
  cases s with
  | BUY =>
    set oid := b.nextOrderId with hoiddef
    set o : Order := ⟨oid, ts % U64MOD, p % U32MOD, q % U32MOD, 0, OrderSide.BUY, OrderType.LIMIT, OrderStatus.NEW⟩ with hodef
    set b1 : OrderBook := { b with orders := b.orders ++ [(oid, o)], mapKeys := b.mapKeys ++ [oid], nextOrderId := b.nextOrderId + 1 } with hb1def
    have hnia : ∀ l ∈ b1.asks, oid ∉ l.orders :=
      fun l hl hk => Nat.lt_irrefl _ (hFasks l hl oid hk)
    have hmem1 : oid ∈ b1.mapKeys := List.mem_append_right _ (List.mem_singleton.mpr rfl)
    have hget1 : storeGet b1.orders oid = o := storeGet_append_fresh _ _ _ hne2
    have hstat1 : (storeGet b1.orders oid).status ≠ OrderStatus.REJECTED := by
      rw [hget1, hodef]
      show OrderStatus.NEW ≠ OrderStatus.REJECTED
      decide
    have hmapeq : (b.addOrder p q OrderSide.BUY ts).1.mapKeys
        = (addBuyLoop oid b1.orders b1.mapKeys b1.trades b1.asks).mapKeys := by
      show (b1.addBuyOrder oid).mapKeys
        = (addBuyLoop oid b1.orders b1.mapKeys b1.trades b1.asks).mapKeys
      rcases addBuyOrder_eq b1 oid with he | he <;> rw [he]
    have hordeq : (b.addOrder p q OrderSide.BUY ts).1.orders
        = (addBuyLoop oid b1.orders b1.mapKeys b1.trades b1.asks).orders := by
      show (b1.addBuyOrder oid).orders
        = (addBuyLoop oid b1.orders b1.mapKeys b1.trades b1.asks).orders
      rcases addBuyOrder_eq b1 oid with he | he <;> rw [he]
    obtain ⟨g1, g2, g3, g4, g5, g6, g7⟩ :=
      addBuyLoop_frame oid b1.asks b1.orders b1.mapKeys b1.trades hnia
    refine ⟨rfl, ?_, ?_, ?_, hzero⟩
    · show oid ≠ 0
      omega
    · rw [hmapeq]
      exact g3 oid hmem1 hnia
    · rw [hordeq]
      exact addBuyLoop_status oid b1.asks b1.orders b1.mapKeys b1.trades hnia hstat1
  | SELL =>
    set oid := b.nextOrderId with hoiddef
    set o : Order := ⟨oid, ts % U64MOD, p % U32MOD, q % U32MOD, 0, OrderSide.SELL, OrderType.LIMIT, OrderStatus.NEW⟩ with hodef
    set b1 : OrderBook := { b with orders := b.orders ++ [(oid, o)], mapKeys := b.mapKeys ++ [oid], nextOrderId := b.nextOrderId + 1 } with hb1def
    have hnib : ∀ l ∈ b1.bids, oid ∉ l.orders :=
      fun l hl hk => Nat.lt_irrefl _ (hFbids l hl oid hk)
    have hmem1 : oid ∈ b1.mapKeys := List.mem_append_right _ (List.mem_singleton.mpr rfl)
    have hget1 : storeGet b1.orders oid = o := storeGet_append_fresh _ _ _ hne2
    have hstat1 : (storeGet b1.orders oid).status ≠ OrderStatus.REJECTED := by
      rw [hget1, hodef]
      show OrderStatus.NEW ≠ OrderStatus.REJECTED
      decide
    have hmapeq : (b.addOrder p q OrderSide.SELL ts).1.mapKeys
        = (addSellLoop oid b1.orders b1.mapKeys b1.trades b1.bids).mapKeys := by
      show (b1.addSellOrder oid).mapKeys
        = (addSellLoop oid b1.orders b1.mapKeys b1.trades b1.bids).mapKeys
      rcases addSellOrder_eq b1 oid with he | he <;> rw [he]
    have hordeq : (b.addOrder p q OrderSide.SELL ts).1.orders
        = (addSellLoop oid b1.orders b1.mapKeys b1.trades b1.bids).orders := by
      show (b1.addSellOrder oid).orders
        = (addSellLoop oid b1.orders b1.mapKeys b1.trades b1.bids).orders
      rcases addSellOrder_eq b1 oid with he | he <;> rw [he]
    obtain ⟨g1, g2, g3, g4, g5, g6, g7⟩ :=
      addSellLoop_frame oid b1.bids b1.orders b1.mapKeys b1.trades hnib
    refine ⟨rfl, ?_, ?_, ?_, hzero⟩
    · show oid ≠ 0
      omega
    · rw [hmapeq]
      exact g3 oid hmem1 hnib
    · rw [hordeq]
      exact addSellLoop_status oid b1.bids b1.orders b1.mapKeys b1.trades hnib hstat1

theorem c3_no_prevalidation_amended_witness :
    (emptyBook.addOrder 0 5 OrderSide.BUY 3).2 = emptyBook.nextOrderId ∧
    (emptyBook.addOrder 0 5 OrderSide.BUY 3).2 ≠ 0 ∧
    emptyBook.nextOrderId ∈ (emptyBook.addOrder 0 5 OrderSide.BUY 3).1.mapKeys ∧
    (storeGet (emptyBook.addOrder 0 5 OrderSide.BUY 3).1.orders
      emptyBook.nextOrderId).status ≠ OrderStatus.REJECTED ∧
    ((5 : Nat) = 0 →
      (emptyBook.addOrder 0 5 OrderSide.BUY 3).1.bids = emptyBook.bids ∧
      (emptyBook.addOrder 0 5 OrderSide.BUY 3).1.asks = emptyBook.asks ∧
      (emptyBook.addOrder 0 5 OrderSide.BUY 3).1.trades = emptyBook.trades ∧
      (storeGet (emptyBook.addOrder 0 5 OrderSide.BUY 3).1.orders
        emptyBook.nextOrderId).status = OrderStatus.NEW ∧
      (∀ l ∈ (emptyBook.addOrder 0 5 OrderSide.BUY 3).1.bids
          ++ (emptyBook.addOrder 0 5 OrderSide.BUY 3).1.asks,
        emptyBook.nextOrderId ∉ l.orders)) :=
  c3_no_prevalidation_amended emptyBook 0 5 OrderSide.BUY 3
    (by refine ⟨?_, ?_, ?_⟩ <;> intro x hx <;> simp [emptyBook] at hx) (by decide)

end HFT
